import Mathlib

/-! # smartthings-nest: trait translation, command translation, events and tokens

A shallow embedding of the `sdmapi` package (`traits.go`, `capabilities.go`,
`commands.go`, `SendCommand` of `live.go`), of the message loop of `pubsubapi`
(`live.go`), of the token state of `stoauth` (`creds.go`, `flows.go`, `state.go`), of the
publishing path of `cmd/pubsub.go` and of the command handler of `handlers`
(`helpers.go`, `st-schema.go`), together with the properties proved about them.

Conventions of the embedding

* Go `iota` enumerations that are only ever assigned from their constants
  (`thermostatMode`, `thermostatStatus`, `TemperatureScale`) are inductive types;
  `traitID` is converted from a slice index in `parseTraitName`, so it stays a number.
* A Go map is an association list with at most one entry per key; iteration follows the
  list order, and where a property depends on the order every order is considered.
* A pointer to a struct is an `Option` of the value, `none` being nil, except where the
  identity of the pointed variable matters: the request headers of the handlers live in
  a store and are named by their address.
* A finite `float32` / `float64` value is the rational number it denotes.  Conversions
  round to nearest, ties to even.  Negative zero is identified with zero; NaN and the
  infinities are not represented (the JSON decoder rejects literals that overflow).
* A function that can abort at run time returns `Except GoPanic _`; a function that
  returns a Go `error` and can also abort returns `Outcome _`.
* A `time.Time` is its offset from the zero `Time` in nanoseconds, a `time.Duration` a
  number of nanoseconds.
* Code that talks to the outside world takes the answers of its collaborators (clock,
  HTTP endpoint, library decoders) as an argument and returns the list of its effects
  (log entries, requests, acknowledgments) in order of occurrence.
-/

set_option autoImplicit false
set_option linter.dupNamespace false

namespace Sdmapi

/-! ## Go runtime -/

/-- Run-time aborts of the Go program that the embedded code can reach. -/
inductive GoPanic
  | nilDereference
  | indexOutOfRange
  | typeAssertion
  deriving DecidableEq, Repr

/-- Result of a Go function with an `error` result that may also abort. -/
inductive Outcome (ε α : Type)
  | ok (a : α)
  | error (e : ε)
  | panic (p : GoPanic)
  deriving DecidableEq, Repr

/-- Map assignment `m[k] = v` on an association list: overwrite in place or append. -/
def mapSet {κ ν : Type} [DecidableEq κ] : List (κ × ν) → κ → ν → List (κ × ν)
  | [], k, v => [(k, v)]
  | (k', v') :: rest, k, v =>
    if k' = k then (k, v) :: rest else (k', v') :: mapSet rest k v

/-- Map read `m[k]` with the comma-ok result folded into an `Option`. -/
def mapGet {κ ν : Type} [DecidableEq κ] : List (κ × ν) → κ → Option ν
  | [], _ => none
  | (k', v') :: rest, k => if k' = k then some v' else mapGet rest k

/-- Instants of `time.Time`, as an offset in nanoseconds from the zero `Time`. -/
abbrev Time := Int

/-! ## traits.go: identifiers -/

/-- Go `type traitID int`. -/
abbrev traitID := Nat

@[match_pattern] def sdmStructuresTraitsInfo : traitID := 0
@[match_pattern] def sdmStructuresTraitsRoomInfo : traitID := 1
@[match_pattern] def sdmDevicesTraitsConnectivity : traitID := 2
@[match_pattern] def sdmDevicesTraitsFan : traitID := 3
@[match_pattern] def sdmDevicesTraitsHumidity : traitID := 4
@[match_pattern] def sdmDevicesTraitsInfo : traitID := 5
@[match_pattern] def sdmDevicesTraitsSettings : traitID := 6
@[match_pattern] def sdmDevicesTraitsTemperature : traitID := 7
@[match_pattern] def sdmDevicesTraitsThermostatEco : traitID := 8
@[match_pattern] def sdmDevicesTraitsThermostatMode : traitID := 9
@[match_pattern] def sdmDevicesTraitsThermostatHvac : traitID := 10
@[match_pattern] def sdmDevicesTraitsThermostatTemperatureSetpoint : traitID := 11

def traitNames : List String :=
  [ "sdm.structures.traits.Info",
    "sdm.structures.traits.RoomInfo",
    "sdm.devices.traits.Connectivity",
    "sdm.devices.traits.Fan",
    "sdm.devices.traits.Humidity",
    "sdm.devices.traits.Info",
    "sdm.devices.traits.Settings",
    "sdm.devices.traits.Temperature",
    "sdm.devices.traits.ThermostatEco",
    "sdm.devices.traits.ThermostatMode",
    "sdm.devices.traits.ThermostatHvac",
    "sdm.devices.traits.ThermostatTemperatureSetpoint" ]

/-- The loop `for i, val := range names` of `parseTraitName`, entered at index `i`. -/
def parseTraitNameFrom : List String → Nat → String → Bool × traitID
  | [], _, _ => (false, 0)
  | val :: rest, i, name =>
    if val = name then (true, i) else parseTraitNameFrom rest (i + 1) name

/-- Convert a trait name to its ID. -/
def parseTraitName (name : String) : Bool × traitID :=
  parseTraitNameFrom traitNames 0 name

/-! ## traits.go: normalised trait values -/

inductive TemperatureScale
  | TemperatureScaleCelsius
  | TemperatureScaleFarenheit
  deriving DecidableEq, Repr

export TemperatureScale (TemperatureScaleCelsius TemperatureScaleFarenheit)

inductive thermostatMode
  | thermostatModeOff
  | thermostatModeHeat
  | thermostatModeCool
  | thermostatModeHeatCool
  | thermostatModeEco
  deriving DecidableEq, Repr

export thermostatMode (thermostatModeOff thermostatModeHeat thermostatModeCool
  thermostatModeHeatCool thermostatModeEco)

inductive thermostatStatus
  | thermostatStatusOff
  | thermostatStatusHeating
  | thermostatStatusCooling
  deriving DecidableEq, Repr

export thermostatStatus (thermostatStatusOff thermostatStatusHeating thermostatStatusCooling)

structure StructuresInfoTraits where
  CustomName : String
  deriving DecidableEq, Repr

structure RoomInfoTraits where
  CustomName : String
  deriving DecidableEq, Repr

structure DeviceConnectivityTraits where
  Online : Bool
  deriving DecidableEq, Repr

structure DeviceFanTraits where
  TimerModeEnabled : Bool
  TimerTimeout : Time
  deriving DecidableEq, Repr

structure DeviceHumidityTraits where
  AmbientHumidityPercent : ℚ
  deriving DecidableEq, Repr

structure DeviceInfoTraits where
  CustomName : String
  deriving DecidableEq, Repr

structure DeviceSettingsTraits where
  TemperatureScale : TemperatureScale
  deriving DecidableEq, Repr

structure DeviceTemperatureTraits where
  AmbientTemperatureCelsius : ℚ
  deriving DecidableEq, Repr

structure DeviceThermostatEco where
  Enabled : Bool
  HeatCelsius : ℚ
  CoolCelsius : ℚ
  deriving DecidableEq, Repr

structure DeviceThermostatMode where
  mode : thermostatMode
  deriving DecidableEq, Repr

structure DeviceThermostatHvac where
  status : thermostatStatus
  deriving DecidableEq, Repr

structure DeviceThermostatTemperatureSetpoint where
  HeatCelsius : ℚ
  CoolCelsius : ℚ
  deriving DecidableEq, Repr

/-- The dynamic values stored in `Traits.traits` (each a pointer to one of the structs). -/
inductive TraitValue
  | structuresInfo (v : StructuresInfoTraits)
  | roomInfo (v : RoomInfoTraits)
  | connectivity (v : DeviceConnectivityTraits)
  | fan (v : DeviceFanTraits)
  | humidity (v : DeviceHumidityTraits)
  | deviceInfo (v : DeviceInfoTraits)
  | settings (v : DeviceSettingsTraits)
  | temperature (v : DeviceTemperatureTraits)
  | thermostatEco (v : DeviceThermostatEco)
  | thermostatMode (v : DeviceThermostatMode)
  | thermostatHvac (v : DeviceThermostatHvac)
  | temperatureSetpoint (v : DeviceThermostatTemperatureSetpoint)
  deriving DecidableEq, Repr

/-- A set of traits for a device. -/
structure Traits where
  traits : List (traitID × TraitValue)
  deriving DecidableEq, Repr

def NewTraits : Traits := ⟨[]⟩

/-- Return a list of trait IDs for the trait set. -/
def Traits.TraitIDs (t : Traits) : List traitID :=
  t.traits.map Prod.fst

/-- Return the trait data from the trait set given its ID (`none` is the Go `nil`). -/
def Traits.Trait (t : Traits) (id : traitID) : Option TraitValue :=
  mapGet t.traits id

/-! ## capabilities.go -/

/-- Values carried by a state entry (`Value interface{}`). -/
inductive StValue
  | string (s : String)
  | strings (l : List String)
  | float32 (q : ℚ)
  deriving DecidableEq, Repr

/-- State entry of the generated `models` package, restricted to the members the
translation touches. -/
structure DeviceStateStatesItems0 where
  Component : String
  Capability : String
  Attribute : String
  Value : StValue
  Timestamp : Option Int := none
  AdditionalProperties : List (String × String) := []
  deriving DecidableEq, Repr

def DeviceConnectivityTraits.ToSmartthingsState (t : DeviceConnectivityTraits)
    (_traits : Traits) : Except GoPanic (List DeviceStateStatesItems0) :=
  let status := match t.Online with
    | true => "online"
    | false => "offline"
  let model : DeviceStateStatesItems0 :=
    { Component := "main", Capability := "st.healthCheck", Attribute := "healthStatus",
      Value := .string status }
  .ok [model]

def DeviceFanTraits.ToSmartthingsState (t : DeviceFanTraits) (traits : Traits) :
    Except GoPanic (List DeviceStateStatesItems0) :=
  let stFanMode := match t.TimerModeEnabled with
    | true => "followschedule"
    | false => "auto"
  let supportedFanModes := ["auto", "followschedule"]
  let modeTrait := traits.Trait sdmDevicesTraitsThermostatMode
  let ecoTrait := traits.Trait sdmDevicesTraitsThermostatEco
  -- isEco := ecoTrait != nil && ecoTrait.(*DeviceThermostatEco).Enabled
  let isEco : Except GoPanic Bool := match ecoTrait with
    | none => .ok false
    | some (.thermostatEco eco) => .ok eco.Enabled
    | some _ => .error .typeAssertion
  match isEco with
  | .error p => .error p
  | .ok isEco =>
    -- modeTrait != nil && modeTrait.(*DeviceThermostatMode).mode == thermostatModeOff
    let modeIsOff : Except GoPanic Bool := match modeTrait with
      | none => .ok false
      | some (.thermostatMode m) => .ok (decide (m.mode = thermostatModeOff))
      | some _ => .error .typeAssertion
    match modeIsOff with
    | .error p => .error p
    | .ok modeIsOff =>
      let supportedFanModes :=
        if modeIsOff then (if !isEco then ["auto"] else supportedFanModes)
        else supportedFanModes
      let model1 : DeviceStateStatesItems0 :=
        { Component := "main", Capability := "st.thermostatFanMode",
          Attribute := "thermostatFanMode", Value := .string stFanMode }
      let model2 : DeviceStateStatesItems0 :=
        { Component := "main", Capability := "st.thermostatFanMode",
          Attribute := "supportedThermostatFanModes", Value := .strings supportedFanModes }
      .ok [model1, model2]

def DeviceHumidityTraits.ToSmartthingsState (t : DeviceHumidityTraits) (_traits : Traits) :
    Except GoPanic (List DeviceStateStatesItems0) :=
  let model : DeviceStateStatesItems0 :=
    { Component := "main", Capability := "st.relativeHumidityMeasurement",
      Attribute := "humidity", Value := .float32 t.AmbientHumidityPercent }
  .ok [model]

def DeviceTemperatureTraits.ToSmartthingsState (t : DeviceTemperatureTraits)
    (_traits : Traits) : Except GoPanic (List DeviceStateStatesItems0) :=
  let model : DeviceStateStatesItems0 :=
    { Component := "main", Capability := "st.temperatureMeasurement",
      Attribute := "temperature", Value := .float32 t.AmbientTemperatureCelsius,
      AdditionalProperties := [] }
  let model := { model with AdditionalProperties := mapSet model.AdditionalProperties "unit" "C" }
  .ok [model]

def DeviceThermostatMode.ToSmartthingsState (t : DeviceThermostatMode) (traits : Traits) :
    Except GoPanic (List DeviceStateStatesItems0) :=
  let mode := match t.mode with
    | thermostatModeOff => "off"
    | thermostatModeHeat => "heat"
    | thermostatModeCool => "cool"
    | thermostatModeHeatCool => "auto"
    | thermostatModeEco => ""
  let ecoTrait := traits.Trait sdmDevicesTraitsThermostatEco
  -- ecoTrait != nil && ecoTrait.(*DeviceThermostatEco).Enabled
  let isEco : Except GoPanic Bool := match ecoTrait with
    | none => .ok false
    | some (.thermostatEco eco) => .ok eco.Enabled
    | some _ => .error .typeAssertion
  match isEco with
  | .error p => .error p
  | .ok isEco =>
    let mode := if isEco then "eco" else mode
    let model1 : DeviceStateStatesItems0 :=
      { Component := "main", Capability := "st.thermostatMode", Attribute := "thermostatMode",
        Value := .string mode }
    let model2 : DeviceStateStatesItems0 :=
      { Component := "main", Capability := "st.thermostatMode",
        Attribute := "supportedThermostatModes",
        Value := .strings ["off", "heat", "cool", "auto", "eco"] }
    .ok [model1, model2]

def DeviceThermostatHvac.ToSmartthingsState (t : DeviceThermostatHvac) (traits : Traits) :
    Except GoPanic (List DeviceStateStatesItems0) :=
  let status := match t.status with
    | thermostatStatusOff => "idle"
    | thermostatStatusHeating => "heating"
    | thermostatStatusCooling => "cooling"
  let fanTrait := traits.Trait sdmDevicesTraitsFan
  -- fanTrait != nil && fanTrait.(*DeviceFanTraits).TimerModeEnabled
  let fanOn : Except GoPanic Bool := match fanTrait with
    | none => .ok false
    | some (.fan f) => .ok f.TimerModeEnabled
    | some _ => .error .typeAssertion
  match fanOn with
  | .error p => .error p
  | .ok fanOn =>
    let status := if fanOn then "fan only" else status
    let model : DeviceStateStatesItems0 :=
      { Component := "main", Capability := "st.thermostatOperatingState",
        Attribute := "thermostatOperatingState", Value := .string status }
    .ok [model]

def DeviceThermostatTemperatureSetpoint.ToSmartthingsState
    (t : DeviceThermostatTemperatureSetpoint) (traits : Traits) :
    Except GoPanic (List DeviceStateStatesItems0) :=
  let modelList : List DeviceStateStatesItems0 := []
  let ecoTrait := traits.Trait sdmDevicesTraitsThermostatEco
  -- (coolPoint, heatPoint), chosen by
  -- ecoTrait != nil && ecoTrait.(*DeviceThermostatEco).Enabled
  let points : Except GoPanic (ℚ × ℚ) := match ecoTrait with
    | none => .ok (t.CoolCelsius, t.HeatCelsius)
    | some (.thermostatEco eco) =>
      if eco.Enabled then .ok (eco.CoolCelsius, eco.HeatCelsius)
      else .ok (t.CoolCelsius, t.HeatCelsius)
    | some _ => .error .typeAssertion
  match points with
  | .error p => .error p
  | .ok (coolPoint, heatPoint) =>
    let modelList :=
      if coolPoint > 0 then
        let model : DeviceStateStatesItems0 :=
          { Component := "main", Capability := "st.thermostatCoolingSetpoint",
            Attribute := "coolingSetpoint", Value := .float32 coolPoint,
            AdditionalProperties := [] }
        let model :=
          { model with AdditionalProperties := mapSet model.AdditionalProperties "unit" "C" }
        modelList ++ [model]
      else modelList
    let modelList :=
      if heatPoint > 0 then
        let model : DeviceStateStatesItems0 :=
          { Component := "main", Capability := "st.thermostatHeatingSetpoint",
            Attribute := "heatingSetpoint", Value := .float32 heatPoint,
            AdditionalProperties := [] }
        let model :=
          { model with AdditionalProperties := mapSet model.AdditionalProperties "unit" "C" }
        modelList ++ [model]
      else modelList
    .ok modelList

/-! ## Floating point -/

/-- Nearest integer, ties to the even neighbour. -/
def roundHalfEven (q : ℚ) : ℤ :=
  let f := ⌊q⌋
  let r := q - f
  if r < 1 / 2 then f else if 1 / 2 < r then f + 1 else if f % 2 = 0 then f else f + 1

/-- Exponent of the unit in the last place of `q` for a binary format with `p` significant
bits whose smallest subnormal is `2 ^ emin`. -/
def ulpExp (p : ℕ) (emin : ℤ) (q : ℚ) : ℤ :=
  max (Int.log 2 |q| - (p - 1)) emin

/-- Round to nearest, ties to even, in a binary format (exponent unbounded above). -/
def roundBinary (p : ℕ) (emin : ℤ) (q : ℚ) : ℚ :=
  roundHalfEven (q / 2 ^ ulpExp p emin q) * 2 ^ ulpExp p emin q

/-- Conversion `float32(x)` of a finite value. -/
def float32 (q : ℚ) : ℚ := roundBinary 24 (-149) q

/-- Rounding of an exact result to `float64`. -/
def float64 (q : ℚ) : ℚ := roundBinary 53 (-1074) q

/-- Largest finite `float32`. -/
def MaxFloat32 : ℚ := (2 ^ 24 - 1) * 2 ^ 104

/-- Go `strconv.ParseFloat(s, 32)` on the number denoted by a JSON literal: `none` is the
range error. -/
def ParseFloat32 (q : ℚ) : Option ℚ :=
  if |float32 q| ≤ MaxFloat32 then some (float32 q) else none

/-- Go `math.Round`: the nearest integer, rounding half away from zero. -/
def math.Round (x : ℚ) : ℚ :=
  if 0 ≤ x then (⌊x + 1 / 2⌋ : ℤ) else -(⌊-x + 1 / 2⌋ : ℤ)

/-- The expression `float32(math.Round(float64(x)*10) / 10)` of `traits.go`. -/
def roundTenth (x : ℚ) : ℚ :=
  float32 (float64 (math.Round (float64 (x * 10)) / 10))

/-! ## Errors -/

/-- Dynamic values of `interface{}` arguments.  The translation only inspects the dynamic
type and scalar payloads, so the contents of slices and maps are not represented. -/
inductive GoValue
  | nil
  | bool (b : Bool)
  | float64 (x : ℚ)
  | int (i : Int)
  | string (s : String)
  | slice
  | map
  deriving DecidableEq, Repr

/-- One entry of `googleapi.Error.Errors`. -/
structure googleapi.ErrorItem where
  Reason : String
  Message : String
  deriving DecidableEq, Repr

/-- The error type of the Google API client library, with the members the handlers read. -/
structure googleapi.Error where
  Code : Int
  Message : String
  Errors : List googleapi.ErrorItem
  deriving DecidableEq, Repr

/-- Go `error` values produced by the embedded code, by dynamic type: the `wrap` and
`wrapf` values of `github.com/pkg/errors` are values of that package's own types, whatever
their cause is. -/
inductive GoError
  | jsonSyntaxError
  | jsonUnmarshalTypeError (value : String) (type : String)
  | errorf (format : String) (args : List GoValue)
  | wrap (cause : GoError) (message : String)
  | wrapf (cause : GoError) (format : String) (args : List GoValue)
  | googleapi (e : googleapi.Error)
  deriving DecidableEq, Repr

/-! ## encoding/json -/

/-- A JSON text, with number literals as the rationals they denote. -/
inductive Json
  | null
  | bool (b : Bool)
  | number (q : ℚ)
  | string (s : String)
  | array (xs : List Json)
  | object (kvs : List (String × Json))

/-- Name of the JSON kind, as reported in `UnmarshalTypeError.Value`. -/
def Json.kind : Json → String
  | .null => "null"
  | .bool _ => "bool"
  | .number _ => "number"
  | .string _ => "string"
  | .array _ => "array"
  | .object _ => "object"

/-- Case folding of one rune for field lookup.  Exact on every rune that folds to an ASCII
letter, which is all that matters against the ASCII field names of this package. -/
def foldRune (c : Char) : Char :=
  if 'a' ≤ c ∧ c ≤ 'z' then Char.ofNat (c.toNat - 32)
  else if c = Char.ofNat 0x17F then 'S'
  else if c = Char.ofNat 0x212A then 'K'
  else c

def foldName (s : String) : String :=
  String.mk (s.data.map foldRune)

/-- A JSON object key selects a struct field when the names are equal under case folding. -/
def equalFold (key field : String) : Bool :=
  decide (foldName key = foldName field)

/-- Decode into a `string` field holding `cur`. -/
def decodeString (cur : String) : Json → Except GoError String
  | .string s => .ok s
  | .null => .ok cur
  | v => .error (.jsonUnmarshalTypeError v.kind "string")

/-- Store a JSON number into a `float32`: a literal out of range is a type error. -/
def storeFloat32 (q : ℚ) : Except GoError ℚ :=
  match ParseFloat32 q with
  | some f => .ok f
  | none => .error (.jsonUnmarshalTypeError "number" "float32")

/-- Decode into a `float32` field holding `cur`. -/
def decodeFloat32 (cur : ℚ) : Json → Except GoError ℚ
  | .number q => storeFloat32 q
  | .null => .ok cur
  | v => .error (.jsonUnmarshalTypeError v.kind "float32")

/-- Decode the elements of an array into a fresh `[]string`.  The decoded slices
(`AvailableModes`) are never read by the normalisation. -/
def decodeStringElems : List Json → Except GoError (List String)
  | [] => .ok []
  | x :: xs =>
    match decodeString "" x with
    | .error e => .error e
    | .ok s =>
      match decodeStringElems xs with
      | .error e => .error e
      | .ok ss => .ok (s :: ss)

/-- Decode into a `[]string` field. -/
def decodeStringSlice (_cur : List String) : Json → Except GoError (List String)
  | .array xs => decodeStringElems xs
  | .null => .ok []
  | v => .error (.jsonUnmarshalTypeError v.kind "[]string")

/-! ## traits.go: wire shapes and normalisation -/

structure deviceConnectivityTraits where
  Status : String
  deriving DecidableEq, Repr

structure deviceFanTraits where
  TimerMode : String
  TimerTimeout : String
  deriving DecidableEq, Repr

structure deviceSettingsTraits where
  TemperatureScale : String
  deriving DecidableEq, Repr

structure deviceThermostatEco where
  AvailableModes : List String
  Mode : String
  HeatCelsius : ℚ
  CoolCelsius : ℚ
  deriving DecidableEq, Repr

structure deviceThermostatMode where
  Mode : String
  AvailableModes : List String
  deriving DecidableEq, Repr

structure deviceThermostatHvac where
  Status : String
  deriving DecidableEq, Repr

/-- The interface `traitsReader`: a pointer to one of the twelve decode targets. -/
inductive traitsReader
  | StructuresInfoTraits (t : StructuresInfoTraits)
  | RoomInfoTraits (t : RoomInfoTraits)
  | deviceConnectivityTraits (t : deviceConnectivityTraits)
  | deviceFanTraits (t : deviceFanTraits)
  | DeviceHumidityTraits (t : DeviceHumidityTraits)
  | DeviceInfoTraits (t : DeviceInfoTraits)
  | deviceSettingsTraits (t : deviceSettingsTraits)
  | DeviceTemperatureTraits (t : DeviceTemperatureTraits)
  | deviceThermostatEco (t : deviceThermostatEco)
  | deviceThermostatMode (t : deviceThermostatMode)
  | deviceThermostatHvac (t : deviceThermostatHvac)
  | DeviceThermostatTemperatureSetpoint (t : DeviceThermostatTemperatureSetpoint)
  deriving DecidableEq, Repr

def StructuresInfoTraits.Unmarshal (t : StructuresInfoTraits) : TraitValue :=
  .structuresInfo t

def RoomInfoTraits.Unmarshal (t : RoomInfoTraits) : TraitValue :=
  .roomInfo t

def deviceConnectivityTraits.Unmarshal (t : deviceConnectivityTraits) : TraitValue :=
  let v : DeviceConnectivityTraits := { Online := false }
  let v := if t.Status = "ONLINE" then { v with Online := true } else v
  .connectivity v

/-- The fan trait; `timeParse` stands for `time.Parse(time.RFC3339, _)`. -/
def deviceFanTraits.Unmarshal (timeParse : String → Option Time) (t : deviceFanTraits) :
    TraitValue :=
  let v : DeviceFanTraits := { TimerModeEnabled := false, TimerTimeout := 0 }
  let v := if t.TimerMode = "ON" then { v with TimerModeEnabled := true } else v
  let v := match timeParse t.TimerTimeout with
    | some timeout => { v with TimerTimeout := timeout }
    | none => v
  .fan v

def DeviceHumidityTraits.Unmarshal (t : DeviceHumidityTraits) : TraitValue :=
  .humidity t

def DeviceInfoTraits.Unmarshal (t : DeviceInfoTraits) : TraitValue :=
  .deviceInfo t

def deviceSettingsTraits.Unmarshal (t : deviceSettingsTraits) : TraitValue :=
  let v : DeviceSettingsTraits := { TemperatureScale := TemperatureScaleCelsius }
  let v := match t.TemperatureScale with
    | "CELSIUS" => { v with TemperatureScale := TemperatureScaleCelsius }
    | "FAHRENHEIT" => { v with TemperatureScale := TemperatureScaleFarenheit }
    | _ => v
  .settings v

def DeviceTemperatureTraits.Unmarshal (t : DeviceTemperatureTraits) : TraitValue :=
  .temperature t

def deviceThermostatEco.Unmarshal (t : deviceThermostatEco) : TraitValue :=
  let v : DeviceThermostatEco := { Enabled := false, HeatCelsius := 0, CoolCelsius := 0 }
  let v := if t.Mode = "OFF" then { v with Enabled := false } else { v with Enabled := true }
  let v := { v with HeatCelsius := roundTenth t.HeatCelsius }
  let v := { v with CoolCelsius := roundTenth t.CoolCelsius }
  .thermostatEco v

def deviceThermostatMode.Unmarshal (t : deviceThermostatMode) : TraitValue :=
  let v : DeviceThermostatMode := { mode := thermostatModeOff }
  let v := match t.Mode with
    | "OFF" => { v with mode := thermostatModeOff }
    | "HEAT" => { v with mode := thermostatModeHeat }
    | "COOL" => { v with mode := thermostatModeCool }
    | "HEATCOOL" => { v with mode := thermostatModeHeatCool }
    | _ => v
  .thermostatMode v

def deviceThermostatHvac.Unmarshal (t : deviceThermostatHvac) : TraitValue :=
  let v : DeviceThermostatHvac := { status := thermostatStatusOff }
  let v := match t.Status with
    | "OFF" => { v with status := thermostatStatusOff }
    | "HEATING" => { v with status := thermostatStatusHeating }
    | "COOLING" => { v with status := thermostatStatusCooling }
    | _ => v
  .thermostatHvac v

def DeviceThermostatTemperatureSetpoint.Unmarshal (t : DeviceThermostatTemperatureSetpoint) :
    TraitValue :=
  let t := { t with HeatCelsius := roundTenth t.HeatCelsius }
  let t := { t with CoolCelsius := roundTenth t.CoolCelsius }
  .temperatureSetpoint t

/-- Dynamic dispatch of `decoded.Unmarshal()`. -/
def traitsReader.Unmarshal (timeParse : String → Option Time) : traitsReader → TraitValue
  | .StructuresInfoTraits t => t.Unmarshal
  | .RoomInfoTraits t => t.Unmarshal
  | .deviceConnectivityTraits t => t.Unmarshal
  | .deviceFanTraits t => t.Unmarshal timeParse
  | .DeviceHumidityTraits t => t.Unmarshal
  | .DeviceInfoTraits t => t.Unmarshal
  | .deviceSettingsTraits t => t.Unmarshal
  | .DeviceTemperatureTraits t => t.Unmarshal
  | .deviceThermostatEco t => t.Unmarshal
  | .deviceThermostatMode t => t.Unmarshal
  | .deviceThermostatHvac t => t.Unmarshal
  | .DeviceThermostatTemperatureSetpoint t => t.Unmarshal

/-- Go type name of the decode target, for error reports. -/
def traitsReader.typeName : traitsReader → String
  | .StructuresInfoTraits _ => "sdmapi.StructuresInfoTraits"
  | .RoomInfoTraits _ => "sdmapi.RoomInfoTraits"
  | .deviceConnectivityTraits _ => "sdmapi.deviceConnectivityTraits"
  | .deviceFanTraits _ => "sdmapi.deviceFanTraits"
  | .DeviceHumidityTraits _ => "sdmapi.DeviceHumidityTraits"
  | .DeviceInfoTraits _ => "sdmapi.DeviceInfoTraits"
  | .deviceSettingsTraits _ => "sdmapi.deviceSettingsTraits"
  | .DeviceTemperatureTraits _ => "sdmapi.DeviceTemperatureTraits"
  | .deviceThermostatEco _ => "sdmapi.deviceThermostatEco"
  | .deviceThermostatMode _ => "sdmapi.deviceThermostatMode"
  | .deviceThermostatHvac _ => "sdmapi.deviceThermostatHvac"
  | .DeviceThermostatTemperatureSetpoint _ => "sdmapi.DeviceThermostatTemperatureSetpoint"

/-- Store one member of a JSON object into the struct behind `decoded`, selecting the field
by its `json` tag; members that select no field are skipped. -/
def traitsReader.setField (decoded : traitsReader) (key : String) (v : Json) :
    Except GoError traitsReader :=
  match decoded with
  | .StructuresInfoTraits t =>
    if equalFold key "customName" then
      (decodeString t.CustomName v).map fun s => .StructuresInfoTraits { t with CustomName := s }
    else .ok decoded
  | .RoomInfoTraits t =>
    if equalFold key "customName" then
      (decodeString t.CustomName v).map fun s => .RoomInfoTraits { t with CustomName := s }
    else .ok decoded
  | .deviceConnectivityTraits t =>
    if equalFold key "status" then
      (decodeString t.Status v).map fun s => .deviceConnectivityTraits { t with Status := s }
    else .ok decoded
  | .deviceFanTraits t =>
    if equalFold key "timerMode" then
      (decodeString t.TimerMode v).map fun s => .deviceFanTraits { t with TimerMode := s }
    else if equalFold key "timerTimeout" then
      (decodeString t.TimerTimeout v).map fun s => .deviceFanTraits { t with TimerTimeout := s }
    else .ok decoded
  | .DeviceHumidityTraits t =>
    if equalFold key "ambientHumidityPercent" then
      (decodeFloat32 t.AmbientHumidityPercent v).map fun x =>
        .DeviceHumidityTraits { t with AmbientHumidityPercent := x }
    else .ok decoded
  | .DeviceInfoTraits t =>
    if equalFold key "customName" then
      (decodeString t.CustomName v).map fun s => .DeviceInfoTraits { t with CustomName := s }
    else .ok decoded
  | .deviceSettingsTraits t =>
    if equalFold key "temperatureScale" then
      (decodeString t.TemperatureScale v).map fun s =>
        .deviceSettingsTraits { t with TemperatureScale := s }
    else .ok decoded
  | .DeviceTemperatureTraits t =>
    if equalFold key "ambientTemperatureCelsius" then
      (decodeFloat32 t.AmbientTemperatureCelsius v).map fun x =>
        .DeviceTemperatureTraits { t with AmbientTemperatureCelsius := x }
    else .ok decoded
  | .deviceThermostatEco t =>
    if equalFold key "availableModes" then
      (decodeStringSlice t.AvailableModes v).map fun l =>
        .deviceThermostatEco { t with AvailableModes := l }
    else if equalFold key "mode" then
      (decodeString t.Mode v).map fun s => .deviceThermostatEco { t with Mode := s }
    else if equalFold key "heatCelsius" then
      (decodeFloat32 t.HeatCelsius v).map fun x => .deviceThermostatEco { t with HeatCelsius := x }
    else if equalFold key "coolCelsius" then
      (decodeFloat32 t.CoolCelsius v).map fun x => .deviceThermostatEco { t with CoolCelsius := x }
    else .ok decoded
  | .deviceThermostatMode t =>
    if equalFold key "mode" then
      (decodeString t.Mode v).map fun s => .deviceThermostatMode { t with Mode := s }
    else if equalFold key "availableModes" then
      (decodeStringSlice t.AvailableModes v).map fun l =>
        .deviceThermostatMode { t with AvailableModes := l }
    else .ok decoded
  | .deviceThermostatHvac t =>
    if equalFold key "status" then
      (decodeString t.Status v).map fun s => .deviceThermostatHvac { t with Status := s }
    else .ok decoded
  | .DeviceThermostatTemperatureSetpoint t =>
    if equalFold key "heatCelsius" then
      (decodeFloat32 t.HeatCelsius v).map fun x =>
        .DeviceThermostatTemperatureSetpoint { t with HeatCelsius := x }
    else if equalFold key "coolCelsius" then
      (decodeFloat32 t.CoolCelsius v).map fun x =>
        .DeviceThermostatTemperatureSetpoint { t with CoolCelsius := x }
    else .ok decoded

/-- Decode the members of a JSON object, in document order, into the struct. -/
def decodeObject : List (String × Json) → traitsReader → Except GoError traitsReader
  | [], decoded => .ok decoded
  | (key, v) :: rest, decoded =>
    match decoded.setField key v with
    | .error e => .error e
    | .ok decoded => decodeObject rest decoded

/-- The call `json.Unmarshal(v, &decoded)` where `decoded` holds a pointer to a struct.
An object fills the struct; `null` sets the interface itself to nil (result `none`);
every other kind is a type error. -/
def jsonUnmarshal (v : Json) (decoded : traitsReader) : Except GoError (Option traitsReader) :=
  match v with
  | .null => .ok none
  | .object kvs => (decodeObject kvs decoded).map some
  | .bool _ => .error (.jsonUnmarshalTypeError "bool" decoded.typeName)
  | .number _ => .error (.jsonUnmarshalTypeError "number" decoded.typeName)
  | .string _ => .error (.jsonUnmarshalTypeError "string" decoded.typeName)
  | .array _ => .error (.jsonUnmarshalTypeError "array" decoded.typeName)

/-- The call `json.Unmarshal(data, &alltraits)` into a `map[string]json.RawMessage`;
`data = none` stands for bytes that are not a JSON text. -/
def unmarshalRawMap : Option Json → Except GoError (List (String × Json))
  | none => .error .jsonSyntaxError
  | some .null => .ok []
  | some (.object kvs) => .ok (kvs.foldl (fun m kv => mapSet m kv.1 kv.2) [])
  | some v => .error (.jsonUnmarshalTypeError v.kind "map[string]json.RawMessage")

/-- The `switch traitID` of `Parse`: the fresh decode target, `none` when no case applies. -/
def newDecoded (id : traitID) : Option traitsReader :=
  match id with
  | sdmStructuresTraitsInfo => some (.StructuresInfoTraits { CustomName := "" })
  | sdmStructuresTraitsRoomInfo => some (.RoomInfoTraits { CustomName := "" })
  | sdmDevicesTraitsConnectivity => some (.deviceConnectivityTraits { Status := "" })
  | sdmDevicesTraitsFan => some (.deviceFanTraits { TimerMode := "", TimerTimeout := "" })
  | sdmDevicesTraitsHumidity => some (.DeviceHumidityTraits { AmbientHumidityPercent := 0 })
  | sdmDevicesTraitsInfo => some (.DeviceInfoTraits { CustomName := "" })
  | sdmDevicesTraitsSettings => some (.deviceSettingsTraits { TemperatureScale := "" })
  | sdmDevicesTraitsTemperature =>
    some (.DeviceTemperatureTraits { AmbientTemperatureCelsius := 0 })
  | sdmDevicesTraitsThermostatEco =>
    some (.deviceThermostatEco
      { AvailableModes := [], Mode := "", HeatCelsius := 0, CoolCelsius := 0 })
  | sdmDevicesTraitsThermostatMode =>
    some (.deviceThermostatMode { Mode := "", AvailableModes := [] })
  | sdmDevicesTraitsThermostatHvac => some (.deviceThermostatHvac { Status := "" })
  | sdmDevicesTraitsThermostatTemperatureSetpoint =>
    some (.DeviceThermostatTemperatureSetpoint { HeatCelsius := 0, CoolCelsius := 0 })
  | _ => none

/-- The loop `for traitName, v := range alltraits` of `Parse`. -/
def Traits.parseLoop (timeParse : String → Option Time) :
    Traits → List (String × Json) → Outcome GoError Traits
  | t, [] => .ok t
  | t, (traitName, v) :: rest =>
    match parseTraitName traitName with
    | (false, _) => Traits.parseLoop timeParse t rest
    | (true, traitID) =>
      match newDecoded traitID with
      | none => Traits.parseLoop timeParse t rest
      | some decoded =>
        match jsonUnmarshal v decoded with
        | .error err => .error err
        | .ok none => .panic .nilDereference
        | .ok (some decoded) =>
          let value := decoded.Unmarshal timeParse
          Traits.parseLoop timeParse { t with traits := mapSet t.traits traitID value } rest

/-- Parse a set of traits from JSON into the trait set.  On an error the caller discards
the receiver, so only the successful result carries the updated set. -/
def Traits.Parse (timeParse : String → Option Time) (t : Traits) (data : Option Json) :
    Outcome GoError Traits :=
  match unmarshalRawMap data with
  | .error err => .error err
  | .ok alltraits => Traits.parseLoop timeParse t alltraits

/-! ## commands.go -/

structure command where
  command : String
  deriving DecidableEq, Repr

def newCommand (name : String) : command :=
  { command := name }

structure devicesFanCommandParams where
  command : Sdmapi.command
  TimerMode : String
  Duration : String
  deriving DecidableEq, Repr

structure devicesThermostatEcoCommandParams where
  command : Sdmapi.command
  Mode : String
  deriving DecidableEq, Repr

structure devicesThermostatModeCommandParams where
  command : Sdmapi.command
  Mode : String
  deriving DecidableEq, Repr

structure devicesThermostatTemperatureSetpointHeatCommandParams where
  command : Sdmapi.command
  HeatCelsius : ℚ
  deriving DecidableEq, Repr

structure devicesThermostatTemperatureSetpointCoolCommandParams where
  command : Sdmapi.command
  CoolCelsius : ℚ
  deriving DecidableEq, Repr

structure devicesThermostatTemperatureSetpointRangeCommandParams where
  command : Sdmapi.command
  HeatCelsius : ℚ
  CoolCelsius : ℚ
  deriving DecidableEq, Repr

/-- The interface `Command`, as the sum of its implementations. -/
inductive Command
  | fan (p : devicesFanCommandParams)
  | thermostatEco (p : devicesThermostatEcoCommandParams)
  | thermostatMode (p : devicesThermostatModeCommandParams)
  | setpointHeat (p : devicesThermostatTemperatureSetpointHeatCommandParams)
  | setpointCool (p : devicesThermostatTemperatureSetpointCoolCommandParams)
  | setpointRange (p : devicesThermostatTemperatureSetpointRangeCommandParams)
  deriving DecidableEq, Repr

def Command.commandName : Command → String
  | .fan p => p.command.command
  | .thermostatEco p => p.command.command
  | .thermostatMode p => p.command.command
  | .setpointHeat p => p.command.command
  | .setpointCool p => p.command.command
  | .setpointRange p => p.command.command

/-- Go `time.Duration`, a count of nanoseconds. -/
abbrev Duration := Int

/-- Go `Duration.Seconds`. -/
def Duration.Seconds (d : Duration) : ℚ :=
  float64 ((d.tdiv 1000000000 : ℤ) + float64 ((d.tmod 1000000000 : ℤ) / 1000000000))

/-- The verb `%.0f`: the nearest integer, ties to even, in decimal. -/
def formatFloat0 (x : ℚ) : String :=
  (if x < 0 then "-" else "") ++ toString (roundHalfEven x).natAbs

def NewFanCommand (timerEnabled : Bool) (duration : Duration) : Command :=
  let mode := "OFF"
  let durString := ""
  let (mode, durString) :=
    if timerEnabled then ("ON", formatFloat0 duration.Seconds ++ "s") else (mode, durString)
  .fan { command := newCommand "sdm.devices.commands.Fan.SetTimer",
         TimerMode := mode, Duration := durString }

def NewThermostatEcoCommand (enabled : Bool) : Command :=
  let mode := "OFF"
  let mode := if enabled then "MANUAL_ECO" else mode
  .thermostatEco { command := newCommand "sdm.devices.commands.ThermostatEco.SetMode",
                   Mode := mode }

def NewThermostatModeCommand (mode : thermostatMode) : Command :=
  let modeStr := match mode with
    | thermostatModeOff => "OFF"
    | thermostatModeCool => "COOL"
    | thermostatModeHeat => "HEAT"
    | thermostatModeHeatCool => "HEATCOOL"
    | thermostatModeEco => ""
  .thermostatMode { command := newCommand "sdm.devices.commands.ThermostatMode.SetMode",
                    Mode := modeStr }

def NewThermostatTemperatureSetpointHeatCommand (temp : ℚ) : Command :=
  .setpointHeat
    { command := newCommand "sdm.devices.commands.ThermostatTemperatureSetpoint.SetHeat",
      HeatCelsius := temp }

def NewThermostatTemperatureSetpointCoolCommand (temp : ℚ) : Command :=
  .setpointCool
    { command := newCommand "sdm.devices.commands.ThermostatTemperatureSetpoint.SetCool",
      CoolCelsius := temp }

def NewThermostatTemperatureSetpointRangeCommand (heatTemp coolTemp : ℚ) : Command :=
  .setpointRange
    { command := newCommand "sdm.devices.commands.ThermostatTemperatureSetpoint.SetRange",
      HeatCelsius := heatTemp, CoolCelsius := coolTemp }

/-- The schema-connector command of the generated `models` package. -/
structure models.Command where
  Capability : Option String
  Arguments : List GoValue
  Command : Option String := none
  Component : Option String := none
  deriving DecidableEq, Repr

structure stCommandThermostatModeSetMode where
  mode : thermostatMode
  deriving DecidableEq, Repr

structure stCommandThermostatFanModeSetThermostatFanMode where
  timerModeEnabled : Bool
  deriving DecidableEq, Repr

structure stCommandThermostatHeatingSetpoint where
  temperature : ℚ
  deriving DecidableEq, Repr

structure stCommandThermostatCoolingSetpoint where
  temperature : ℚ
  deriving DecidableEq, Repr

def stCommandThermostatModeSetMode.Unmarshal (t : stCommandThermostatModeSetMode)
    (args : List GoValue) : Outcome GoError stCommandThermostatModeSetMode :=
  if args.length > 1 then
    .error (.errorf "expected 1 argument for CommandThermostatModeSetMode, got %d"
      [.int args.length])
  else
    match (args[0]? : Option GoValue) with
    | none => .panic .indexOutOfRange
    | some (.string stMode) =>
      match stMode with
      | "off" => .ok { t with mode := thermostatModeOff }
      | "heat" => .ok { t with mode := thermostatModeHeat }
      | "cool" => .ok { t with mode := thermostatModeCool }
      | "auto" => .ok { t with mode := thermostatModeHeatCool }
      | "eco" => .ok { t with mode := thermostatModeEco }
      | _ => .ok t
    | some _ => .error (.errorf "expected string argument \x27mode\x27" [])

def stCommandThermostatModeSetMode.ToSdmCommands (t : stCommandThermostatModeSetMode) :
    List Command :=
  let commands : List Command := []
  if t.mode = thermostatModeEco then
    commands ++ [NewThermostatEcoCommand true]
  else
    (commands ++ [NewThermostatEcoCommand false]) ++ [NewThermostatModeCommand t.mode]

def stCommandThermostatFanModeSetThermostatFanMode.Unmarshal
    (t : stCommandThermostatFanModeSetThermostatFanMode) (args : List GoValue) :
    Outcome GoError stCommandThermostatFanModeSetThermostatFanMode :=
  if args.length ≠ 1 then
    .error (.errorf
      "expected 1 argument for CommandThermostatFanModeSetThermostatFanMode, got %d"
      [.int args.length])
  else
    match (args[0]? : Option GoValue) with
    | none => .panic .indexOutOfRange
    | some (.string stMode) =>
      match stMode with
      | "followschedule" => .ok { t with timerModeEnabled := true }
      | "auto" => .ok { t with timerModeEnabled := false }
      | _ => .error (.errorf "unsupported fan mode: %s" [.string stMode])
    | some v => .error (.errorf "expected string argument, have : %+v" [v])

def stCommandThermostatFanModeSetThermostatFanMode.ToSdmCommands
    (t : stCommandThermostatFanModeSetThermostatFanMode) : List Command :=
  [NewFanCommand t.timerModeEnabled (1000000000 * 3600)]

def stCommandThermostatHeatingSetpoint.Unmarshal (t : stCommandThermostatHeatingSetpoint)
    (args : List GoValue) : Outcome GoError stCommandThermostatHeatingSetpoint :=
  if args.length ≠ 1 then
    .error (.errorf "expected 1 argument for CommandThermostatHeatingSetpoint, got %d"
      [.int args.length])
  else
    match (args[0]? : Option GoValue) with
    | none => .panic .indexOutOfRange
    | some (.float64 v) => .ok { t with temperature := float32 v }
    | some (.int v) => .ok { t with temperature := float32 v }
    | some v => .error (.errorf "expected float32 or int argument, have : %T : %+v" [v, v])

def stCommandThermostatHeatingSetpoint.ToSdmCommands (t : stCommandThermostatHeatingSetpoint) :
    List Command :=
  [NewThermostatTemperatureSetpointHeatCommand t.temperature]

def stCommandThermostatCoolingSetpoint.Unmarshal (t : stCommandThermostatCoolingSetpoint)
    (args : List GoValue) : Outcome GoError stCommandThermostatCoolingSetpoint :=
  if args.length ≠ 1 then
    .error (.errorf "expected 1 argument for CommandThermostatCoolingSetpoint, got %d"
      [.int args.length])
  else
    match (args[0]? : Option GoValue) with
    | none => .panic .indexOutOfRange
    | some (.float64 v) => .ok { t with temperature := float32 v }
    | some (.int v) => .ok { t with temperature := float32 v }
    | some v => .error (.errorf "expected float32 or int argument, have : %T : %+v" [v, v])

def stCommandThermostatCoolingSetpoint.ToSdmCommands (t : stCommandThermostatCoolingSetpoint) :
    List Command :=
  [NewThermostatTemperatureSetpointCoolCommand t.temperature]

/-- The interface `stCommandParamsReader`, as the sum of its implementations. -/
inductive stCommandParamsReader
  | thermostatFanMode (t : stCommandThermostatFanModeSetThermostatFanMode)
  | thermostatMode (t : stCommandThermostatModeSetMode)
  | heatingSetpoint (t : stCommandThermostatHeatingSetpoint)
  | coolingSetpoint (t : stCommandThermostatCoolingSetpoint)
  deriving DecidableEq, Repr

def stCommandParamsReader.Unmarshal (r : stCommandParamsReader) (args : List GoValue) :
    Outcome GoError stCommandParamsReader :=
  match r with
  | .thermostatFanMode t =>
    match t.Unmarshal args with
    | .ok t => .ok (.thermostatFanMode t)
    | .error e => .error e
    | .panic p => .panic p
  | .thermostatMode t =>
    match t.Unmarshal args with
    | .ok t => .ok (.thermostatMode t)
    | .error e => .error e
    | .panic p => .panic p
  | .heatingSetpoint t =>
    match t.Unmarshal args with
    | .ok t => .ok (.heatingSetpoint t)
    | .error e => .error e
    | .panic p => .panic p
  | .coolingSetpoint t =>
    match t.Unmarshal args with
    | .ok t => .ok (.coolingSetpoint t)
    | .error e => .error e
    | .panic p => .panic p

def stCommandParamsReader.ToSdmCommands : stCommandParamsReader → List Command
  | .thermostatFanMode t => t.ToSdmCommands
  | .thermostatMode t => t.ToSdmCommands
  | .heatingSetpoint t => t.ToSdmCommands
  | .coolingSetpoint t => t.ToSdmCommands

/-- Translate a schema-connector command.  The nil slice returned for an unimplemented
capability is the empty list; every implemented reader returns at least one command, so
the two are not confused. -/
def StCommandToSdmCommands (stCommand : models.Command) : Outcome GoError (List Command) :=
  match stCommand.Capability with
  | none => .panic .nilDereference
  | some capability =>
    let stArgs : Option stCommandParamsReader := match capability with
      | "st.thermostatFanMode" => some (.thermostatFanMode { timerModeEnabled := false })
      | "st.thermostatMode" => some (.thermostatMode { mode := thermostatModeOff })
      | "st.thermostatHeatingSetpoint" => some (.heatingSetpoint { temperature := 0 })
      | "st.thermostatCoolingSetpoint" => some (.coolingSetpoint { temperature := 0 })
      | _ => none
    match stArgs with
    | none => .ok []
    | some stArgs =>
      match stArgs.Unmarshal stCommand.Arguments with
      | .error err => .error (.wrap err "unmarshaling smartthings command arguments")
      | .panic p => .panic p
      | .ok stArgs => .ok stArgs.ToSdmCommands

/-! ## Clock -/

/-- Offset of the Unix epoch (1970-01-01T00:00:00Z) from the zero `Time`, in nanoseconds. -/
def unixEpoch : Time := 62135596800 * 1000000000

/-- Conversion of an integer to `int64`: the value modulo 2^64, taken from -2^63 on. -/
def wrapInt64 (x : Int) : Int :=
  (x + 9223372036854775808) % 18446744073709551616 - 9223372036854775808

/-- Go `Time.UnixNano`: nanoseconds since the Unix epoch, computed in `int64` as
`(t.sec() + internalToUnix) * 1e9 + int64(t.nsec())`.  The result is the number of
nanoseconds for instants within the years 1678 to 2262 and wraps around outside. -/
def Time.UnixNano (t : Time) : Int :=
  wrapInt64 (t - unixEpoch)

/-- Go `Time.Add`. -/
def Time.Add (t : Time) (d : Duration) : Time :=
  t + d

/-- Go `Time.After`. -/
def Time.After (t u : Time) : Bool :=
  decide (u < t)

/-! ## Generated models and collaborators -/

/-- Modelled from the spec: the constant `models.InteractionTypeAccessTokenResponse` of the
generated package, the interaction-type tag "access token response" of the token
endpoints. -/
def models.InteractionTypeAccessTokenResponse : String := "accessTokenResponse"

/-- Modelled from the spec: the constant `models.InteractionTypeRefreshAccessTokens` of the
generated package (interaction type of the refresh request). -/
def models.InteractionTypeRefreshAccessTokens : String := "refreshAccessTokens"

/-- Modelled from the spec: the constant `models.InteractionTypeStateCallback` of the
generated package (interaction type of the state callback envelope). -/
def models.InteractionTypeStateCallback : String := "stateCallback"

/-- Modelled from the spec: the generated `models.Headers`, with the members the program
sets or reads (pointers are options). -/
structure models.Headers where
  Schema : Option String
  Version : Option String
  RequestID : Option String
  InteractionType : String
  deriving DecidableEq, Repr

/-- Modelled from the spec: the generated `models.Authentication` of the callback
envelope. -/
structure models.Authentication where
  TokenType : Option String
  Token : Option String
  deriving DecidableEq, Repr

/-- Modelled from the spec: the generated `models.DeviceStateDeviceErrorItems0`, an entry
of the `deviceError` list of a device state. -/
structure models.DeviceStateDeviceErrorItems0 where
  Detail : String
  ErrorEnum : Option String
  deriving DecidableEq, Repr

/-- Modelled from the spec: the generated `models.DeviceState`.  The nil `DeviceError`
slice is the empty list: the program only ever stores a slice of one element. -/
structure models.DeviceState where
  ExternalDeviceID : String
  States : List DeviceStateStatesItems0
  DeviceError : List models.DeviceStateDeviceErrorItems0 := []
  deriving DecidableEq, Repr

/-- Modelled from the spec: the generated `models.DeviceStateCallback`. -/
structure models.DeviceStateCallback where
  Headers : Option models.Headers
  Authentication : Option models.Authentication
  DeviceState : List models.DeviceState
  deriving DecidableEq, Repr

/-- Modelled from the spec: the generated
`models.RefreshAccessTokenRequestCallbackAuthentication`. -/
structure models.RefreshAccessTokenRequestCallbackAuthentication where
  ClientID : Option String
  ClientSecret : Option String
  GrantType : Option String
  RefreshToken : Option String
  deriving DecidableEq, Repr

/-- Modelled from the spec: the generated `models.RefreshAccessTokenRequest`. -/
structure models.RefreshAccessTokenRequest where
  Headers : Option models.Headers
  CallbackAuthentication : Option models.RefreshAccessTokenRequestCallbackAuthentication
  deriving DecidableEq, Repr

/-- Modelled from the spec: the `callbackAuthentication` member of the generated
`models.AccessTokenResponse`; the program dereferences each of its three members. -/
structure models.AccessTokenResponseCallbackAuthentication where
  AccessToken : Option String
  RefreshToken : Option String
  ExpiresIn : Option Int
  deriving DecidableEq, Repr

/-- Modelled from the spec: the generated `models.AccessTokenResponse`. -/
structure models.AccessTokenResponse where
  Headers : Option models.Headers
  CallbackAuthentication : Option models.AccessTokenResponseCallbackAuthentication
  deriving DecidableEq, Repr

/-- Modelled from the spec: the constant `models.InteractionTypeAccessTokenRequest` of the
generated package (interaction type of the authorization-code request). -/
def models.InteractionTypeAccessTokenRequest : String := "accessTokenRequest"

/-- Modelled from the spec: the generated
`models.AccessTokenRequestCallbackAuthentication`. -/
structure models.AccessTokenRequestCallbackAuthentication where
  ClientID : Option String
  ClientSecret : Option String
  Code : Option String
  GrantType : Option String
  deriving DecidableEq, Repr

/-- Modelled from the spec: the generated `models.AccessTokenRequest`. -/
structure models.AccessTokenRequest where
  Headers : Option models.Headers
  CallbackAuthentication : Option models.AccessTokenRequestCallbackAuthentication
  deriving DecidableEq, Repr

/-- A value handed to `json.Marshal` for an outgoing request; a log entry that prints the
encoded request carries the value.  Every member is a string, a rational or a list of
those, so the encoding cannot fail. -/
inductive Body
  | refreshAccessTokenRequest (r : models.RefreshAccessTokenRequest)
  | deviceStateCallback (r : models.DeviceStateCallback)
  | accessTokenRequest (r : models.AccessTokenRequest)
  deriving DecidableEq, Repr

/-- The answer to an HTTP request: status line and the outcome of reading the body. -/
structure HTTPResponse where
  StatusCode : Int
  Status : String
  Body : Except GoError String

/-- Go `errors.Wrapf` of `github.com/pkg/errors`: a nil error stays nil. -/
def errors.Wrapf (err : Option GoError) (format : String) (args : List GoValue) :
    Option GoError :=
  match err with
  | none => none
  | some e => some (.wrapf e format args)

/-! ## pubsubapi/interface.go -/

structure pubsubapi.SdmEvent where
  AckID : String
  DeviceID : String
  Timestamp : Time
  Traits : Traits
  deriving DecidableEq, Repr

/-! ## stoauth -/

structure stoauth.State where
  ClientID : String
  Scope : String
  TokenURL : String
  StateCallbackURL : String
  MinAccessTokenValidity : Duration
  clientSecret : String
  accessToken : String
  accessTokenExpiry : Time
  refreshToken : String
  fileName : String
  deriving DecidableEq, Repr

/-- Version of state that is marshalled to the state file. -/
structure stoauth.stateMarshal where
  ClientID : String
  Scope : String
  TokenURL : String
  StateCallbackURL : String
  AccessToken : String
  AccessTokenExpiry : Time
  RefreshToken : String
  deriving DecidableEq, Repr

/-- An argument of a log call. -/
inductive LogArg
  | string (s : String)
  | int (i : Int)
  | body (b : Body)
  | event (e : pubsubapi.SdmEvent)
  deriving DecidableEq, Repr

/-- What the program does to the outside world, in order of occurrence. -/
inductive Effect
  | log (level : String) (err : Option GoError) (format : String) (args : List LogArg)
  | httpPost (url : String) (contentType : String) (body : Body)
  | writeFile (fileName : String) (sm : stoauth.stateMarshal)
  | acknowledge (ackIDs : List String)
  deriving DecidableEq, Repr

/-- The collaborators of one refresh exchange: the request identifier drawn by
`uuid.New`, the answer of `http.Post`, the result of `json.Unmarshal` on the response
body, the reading of `time.Now` when the new expiry is computed, and the outcome of
writing the state file. -/
structure stoauth.RefreshWorld where
  requestID : String
  post : String → Body → Except GoError HTTPResponse
  decode : String → Except GoError models.AccessTokenResponse
  now : Time
  save : Option GoError

def stoauth.newRefreshTokenRequest (requestID : String) : models.RefreshAccessTokenRequest :=
  let stSchema := "st-schema"
  let stVersion := "1.0"
  { Headers := some
      { Schema := some stSchema, Version := some stVersion, RequestID := some requestID,
        InteractionType := models.InteractionTypeRefreshAccessTokens },
    CallbackAuthentication := some
      { ClientID := none, ClientSecret := none, GrantType := none, RefreshToken := none } }

/-- The refresh-token exchange.  Returns the state as the call leaves it, the effects, and
the returned error (`none` is the Go `nil`) or the abort. -/
def stoauth.State.refreshTokenFlow (s : stoauth.State) (w : stoauth.RefreshWorld) :
    stoauth.State × List Effect × Except GoPanic (Option GoError) :=
  if s.clientSecret = "" then
    (s, [], .ok (some (.errorf "no clientSecret, cannot execute refresh token flow" [])))
  else
    let stGrantType := "refresh_token"
    let requestID := w.requestID
    let tokenReq := stoauth.newRefreshTokenRequest requestID
    let tokenReq : models.RefreshAccessTokenRequest :=
      { tokenReq with
        CallbackAuthentication := some
          { ClientID := some s.ClientID, ClientSecret := some s.clientSecret,
            GrantType := some stGrantType, RefreshToken := some s.refreshToken } }
    let reqBody := Body.refreshAccessTokenRequest tokenReq
    let trace : List Effect :=
      [ .log "debug" none "Sending refresh token request to Smartthings URL [%s]: %s"
          [.string s.TokenURL, .body reqBody],
        .httpPost s.TokenURL "application/json" reqBody ]
    match w.post s.TokenURL reqBody with
    | .error err => (s, trace, .ok (some (.wrap err "executing refresh token grant")))
    | .ok resp =>
      match resp.Body with
      | .error err => (s, trace, .ok (some (.wrap err "reading response body")))
      | .ok bodyBytes =>
        if resp.StatusCode ≠ 200 then
          (s, trace, .ok (some (.errorf
            "non-200 code from Smartthings token URL: %d (%s): %s"
            [.int resp.StatusCode, .string resp.Status, .string bodyBytes])))
        else
          let trace := trace ++
            [ .log "debug" none "Refresh Token response: %s" [.string bodyBytes] ]
          match w.decode bodyBytes with
          | .error err =>
            (s, trace, .ok (some (.wrap err "decoding smartthing token response")))
          | .ok tokenResp =>
            match tokenResp.Headers with
            | none => (s, trace, .error .nilDereference)
            | some headers =>
              if headers.InteractionType ≠ models.InteractionTypeAccessTokenResponse then
                (s, trace, .ok (some (.errorf
                  "got interaction type %s, expected accessTokenResponse"
                  [.string headers.InteractionType])))
              else
                match tokenResp.CallbackAuthentication with
                | none => (s, trace, .error .nilDereference)
                | some auth =>
                  match auth.AccessToken with
                  | none => (s, trace, .error .nilDereference)
                  | some accessToken =>
                    let s := { s with accessToken := accessToken }
                    match auth.RefreshToken with
                    | none => (s, trace, .error .nilDereference)
                    | some refreshToken =>
                      let s := { s with refreshToken := refreshToken }
                      match auth.ExpiresIn with
                      | none => (s, trace, .error .nilDereference)
                      | some expiresIn =>
                        let s :=
                          { s with
                            accessTokenExpiry := w.now.Add (1000000000 * expiresIn) }
                        (s, trace, .ok none)

/-- Write the state file.  The outcome `result` of opening and encoding is returned; the
file name is stored on success. -/
def stoauth.State.Save (s : stoauth.State) (fileName : String) (result : Option GoError) :
    stoauth.State × List Effect × Option GoError :=
  let sm : stoauth.stateMarshal :=
    { ClientID := s.ClientID, Scope := s.Scope, TokenURL := s.TokenURL,
      StateCallbackURL := s.StateCallbackURL, AccessToken := s.accessToken,
      AccessTokenExpiry := s.accessTokenExpiry, RefreshToken := s.refreshToken }
  match result with
  | some err => (s, [.writeFile fileName sm], some err)
  | none => ({ s with fileName := fileName }, [.writeFile fileName sm], none)

def stoauth.State.save (s : stoauth.State) (result : Option GoError) :
    stoauth.State × List Effect × Option GoError :=
  if s.fileName ≠ "" then
    s.Save s.fileName result
  else
    (s, [.log "warning" none "cannot save oauth state, no file name available" []], none)

/-- Return a usable access token, refreshing it when needed; `now` is the reading of
`time.Now` in the validity test.  The zero `time.Time` is the instant zero. -/
def stoauth.State.GetAccessToken (s : stoauth.State) (now : Time)
    (w : stoauth.RefreshWorld) :
    stoauth.State × List Effect × Except GoPanic (String × Option GoError) :=
  if s.accessToken ≠ "" ∧ s.accessTokenExpiry ≠ 0 ∧
      s.accessTokenExpiry.After (now.Add s.MinAccessTokenValidity) = true then
    (s, [], .ok (s.accessToken, none))
  else if s.refreshToken = "" then
    (s, [], .ok ("", some (.errorf
      "access token expired or missing, and no refresh token found - call AuthCodeFlow() to populate"
      [])))
  else
    match s.refreshTokenFlow w with
    | (s, trace, .error p) => (s, trace, .error p)
    | (s, trace, .ok (some err)) => (s, trace, .ok ("", some err))
    | (s, trace, .ok none) =>
      match s.save w.save with
      | (s, trace', _) => (s, trace ++ trace', .ok (s.accessToken, none))

/-! ## cmd/pubsub.go -/

/-- The type assertion `nestTrait.(sdmapi.StCapability)` followed by the call of
`ToSmartthingsState`; `none` when the dynamic type has no such method. -/
def TraitValue.StCapability (v : TraitValue) (traits : Traits) :
    Option (Except GoPanic (List DeviceStateStatesItems0)) :=
  match v with
  | .connectivity t => some (t.ToSmartthingsState traits)
  | .fan t => some (t.ToSmartthingsState traits)
  | .humidity t => some (t.ToSmartthingsState traits)
  | .temperature t => some (t.ToSmartthingsState traits)
  | .thermostatMode t => some (t.ToSmartthingsState traits)
  | .thermostatHvac t => some (t.ToSmartthingsState traits)
  | .temperatureSetpoint t => some (t.ToSmartthingsState traits)
  | .structuresInfo _ => none
  | .roomInfo _ => none
  | .deviceInfo _ => none
  | .settings _ => none
  | .thermostatEco _ => none

/-- The loop `for _, nestTraitID := range nestTraits` of `makeDeviceStates`. -/
def cmd.makeDeviceStatesLoop (event : pubsubapi.SdmEvent) :
    List traitID → List DeviceStateStatesItems0 →
      Except GoPanic (List DeviceStateStatesItems0)
  | [], states => .ok states
  | nestTraitID :: rest, states =>
    match event.Traits.Trait nestTraitID with
    | none => cmd.makeDeviceStatesLoop event rest states
    | some nestTrait =>
      match nestTrait.StCapability event.Traits with
      | none => cmd.makeDeviceStatesLoop event rest states
      | some (.error p) => .error p
      | some (.ok stStates) => cmd.makeDeviceStatesLoop event rest (states ++ stStates)

def cmd.makeDeviceStates (event : pubsubapi.SdmEvent) :
    Except GoPanic (List DeviceStateStatesItems0) :=
  let nestTraits := event.Traits.TraitIDs
  match cmd.makeDeviceStatesLoop event nestTraits [] with
  | .error p => .error p
  | .ok states =>
    -- tack on the health check state
    let deviceState : DeviceStateStatesItems0 :=
      { Component := "main", Capability := "st.healthcheck", Attribute := "healthStatus",
        Value := .string "offline" }
    let states := states ++ [deviceState]
    let timestampMillis := event.Timestamp.UnixNano.tdiv 1000000
    .ok (states.map fun s => { s with Timestamp := some timestampMillis })

/-- The collaborators of one state callback: the clock reading and refresh exchange of
`GetAccessToken`, the request identifier drawn by `uuid.New`, and the answer of
`http.Post`. -/
structure cmd.CallbackWorld where
  now : Time
  refresh : stoauth.RefreshWorld
  requestID : String
  post : String → Body → Except GoError HTTPResponse

def cmd.newDeviceStateCallback (requestID : String) : models.DeviceStateCallback :=
  let stSchema := "st-schema"
  let stVersion := "1.0"
  let tokenType := "Bearer"
  { Headers := some
      { Schema := some stSchema, Version := some stVersion, RequestID := some requestID,
        InteractionType := models.InteractionTypeStateCallback },
    Authentication := some { TokenType := some tokenType, Token := none },
    DeviceState := [] }

/-- Send one device state to the callback URL.  The state is received by value, so the
token state after a refresh is dropped with the call. -/
def cmd.executeDeviceStateCallback (tokenState : stoauth.State)
    (deviceInfo : models.DeviceState) (w : cmd.CallbackWorld) :
    List Effect × Except GoPanic (Option GoError) :=
  match tokenState.GetAccessToken w.now w.refresh with
  | (_, trace, .error p) => (trace, .error p)
  | (_, trace, .ok (_, some err)) =>
    (trace, .ok (some (.wrap err "fetching access token for device callback")))
  | (tokenState, trace, .ok (token, none)) =>
    let req := cmd.newDeviceStateCallback w.requestID
    let req := { req with DeviceState := [deviceInfo] }
    let req : models.DeviceStateCallback :=
      { req with Authentication := req.Authentication.map fun a => { a with Token := some token } }
    let reqBody := Body.deviceStateCallback req
    let trace := trace ++
      [ .log "debug" none "Sending device callback request to Smartthings URL [%s]: %s"
          [.string tokenState.StateCallbackURL, .body reqBody],
        .httpPost tokenState.StateCallbackURL "application/json" reqBody ]
    match w.post tokenState.StateCallbackURL reqBody with
    | .error err => (trace, .ok (some (.wrap err "executing smartthing device callback")))
    | .ok resp =>
      match resp.Body with
      | .error err => (trace, .ok (some (.wrap err "reading response body")))
      | .ok bodyBytes =>
        -- here `err`, the result of `ioutil.ReadAll`, is nil
        let err : Option GoError := none
        if resp.StatusCode ≠ 200 ∧ resp.StatusCode = 204 then
          (trace, .ok (errors.Wrapf err
            "non-200/204 code from Smartthings device callback URL: %d (%s): %s"
            [.int resp.StatusCode, .string resp.Status, .string bodyBytes]))
        else
          (trace, .ok none)

/-- The collaborators of publishing one event: those of the callback and the outcome of
`pubsub.AckMessages`. -/
structure cmd.PublishWorld where
  callback : cmd.CallbackWorld
  ack : List String → Option GoError

def cmd.publishEvent (ticket : Int) (tokenState : stoauth.State)
    (event : pubsubapi.SdmEvent) (w : cmd.PublishWorld) :
    List Effect × Except GoPanic Unit :=
  let trace : List Effect :=
    [ .log "debug" none "publish-goroutine %d: got %+v" [.int ticket, .event event] ]
  match cmd.makeDeviceStates event with
  | .error p => (trace, .error p)
  | .ok states =>
    let deviceInfo : models.DeviceState :=
      { ExternalDeviceID := event.DeviceID, States := states }
    match cmd.executeDeviceStateCallback tokenState deviceInfo w.callback with
    | (trace', .error p) => (trace ++ trace', .error p)
    | (trace', .ok none) =>
      let trace := trace ++ trace' ++ [ .acknowledge [event.AckID] ]
      let trace :=
        match w.ack [event.AckID] with
        | some err => trace ++ [ .log "error" (some err) "acknowledging event" [] ]
        | none => trace
      (trace ++ [ .log "debug" none "publish-goroutine %d: done" [.int ticket] ], .ok ())
    | (trace', .ok (some err)) =>
      let trace := trace ++ trace' ++
        [ .log "error" (some err) "executing Smartthings device callback" [] ]
      (trace ++ [ .log "debug" none "publish-goroutine %d: done" [.int ticket] ], .ok ())

/-! ## pubsubapi/live.go -/

structure pubsubapi.Live where
  sdmProjectID : String
  gcpProjectID : String
  subscriptionID : String
  credsFile : String
  timeout : Duration
  maxMessageAge : Duration
  logMessages : Bool
  deriving DecidableEq, Repr

/-- The message of the Pub/Sub client library, with the members the program reads. -/
structure pubsubapi.PubsubMessage where
  Data : String
  MessageId : String
  PublishTime : String
  deriving DecidableEq, Repr

/-- The received message of the Pub/Sub client library (`Message` is taken non-nil, as
the service delivers it). -/
structure pubsubapi.ReceivedMessage where
  AckId : String
  DeliveryAttempt : Int
  Message : pubsubapi.PubsubMessage
  deriving DecidableEq, Repr

structure pubsubapi.sdmResourceUpdate where
  Name : String
  Traits : Option Json

structure pubsubapi.sdmEvent where
  EventID : String
  Timestamp : Time
  ResourceUpdate : Option pubsubapi.sdmResourceUpdate
  UserID : String

/-- The library functions and the clock that `parseReceivedMessages` calls:
`base64.StdEncoding.DecodeString`, `time.Parse` with the layouts `RFC3339Nano` and
`RFC3339`, the JSON reader of `json.Unmarshal` (`none` for bytes that are not a JSON text),
and the reading of `time.Now` while the message of a given index is handled. -/
structure pubsubapi.Env where
  base64Decode : String → Option String
  parseRFC3339Nano : String → Option Time
  parseRFC3339 : String → Option Time
  jsonParse : String → Option Json
  now : ℕ → Time

/-- Store one member of the `resourceUpdate` object; `traits` is a `json.RawMessage` and
keeps the raw value whatever its kind. -/
def pubsubapi.sdmResourceUpdate.setField (r : pubsubapi.sdmResourceUpdate) (key : String)
    (v : Json) : Except GoError pubsubapi.sdmResourceUpdate :=
  if equalFold key "name" then
    (decodeString r.Name v).map fun s => { r with Name := s }
  else if equalFold key "traits" then
    .ok { r with Traits := some v }
  else .ok r

def pubsubapi.sdmResourceUpdate.decodeObject :
    List (String × Json) → pubsubapi.sdmResourceUpdate →
      Except GoError pubsubapi.sdmResourceUpdate
  | [], r => .ok r
  | (key, v) :: rest, r =>
    match r.setField key v with
    | .error e => .error e
    | .ok r => pubsubapi.sdmResourceUpdate.decodeObject rest r

/-- Decode into the `*sdmResourceUpdate` member: `null` sets the pointer to nil, an object
fills the struct behind the pointer, allocating it when nil. -/
def pubsubapi.decodeResourceUpdate (cur : Option pubsubapi.sdmResourceUpdate) :
    Json → Except GoError (Option pubsubapi.sdmResourceUpdate)
  | .null => .ok none
  | .object kvs =>
    (pubsubapi.sdmResourceUpdate.decodeObject kvs
      (cur.getD { Name := "", Traits := none })).map some
  | v => .error (.jsonUnmarshalTypeError v.kind "pubsubapi.sdmResourceUpdate")

/-- Decode into the `time.Time` member through `Time.UnmarshalJSON`: `null` is ignored, a
string is parsed as RFC 3339, any other kind is an error. -/
def pubsubapi.decodeTime (parseRFC3339 : String → Option Time) (cur : Time) :
    Json → Except GoError Time
  | .null => .ok cur
  | .string s =>
    match parseRFC3339 s with
    | some t => .ok t
    | none => .error (.errorf "parsing time" [.string s])
  | v => .error (.errorf "Time.UnmarshalJSON: input is not a JSON string" [.string v.kind])

def pubsubapi.sdmEvent.setField (parseRFC3339 : String → Option Time)
    (e : pubsubapi.sdmEvent) (key : String) (v : Json) : Except GoError pubsubapi.sdmEvent :=
  if equalFold key "eventID" then
    (decodeString e.EventID v).map fun s => { e with EventID := s }
  else if equalFold key "timestamp" then
    (pubsubapi.decodeTime parseRFC3339 e.Timestamp v).map fun t => { e with Timestamp := t }
  else if equalFold key "resourceUpdate" then
    (pubsubapi.decodeResourceUpdate e.ResourceUpdate v).map fun r =>
      { e with ResourceUpdate := r }
  else if equalFold key "userId" then
    (decodeString e.UserID v).map fun s => { e with UserID := s }
  else .ok e

def pubsubapi.sdmEvent.decodeObject (parseRFC3339 : String → Option Time) :
    List (String × Json) → pubsubapi.sdmEvent → Except GoError pubsubapi.sdmEvent
  | [], e => .ok e
  | (key, v) :: rest, e =>
    match e.setField parseRFC3339 key v with
    | .error err => .error err
    | .ok e => pubsubapi.sdmEvent.decodeObject parseRFC3339 rest e

/-- The call `json.Unmarshal(data, &event)` on a zero `sdmEvent`; `jsonParse` reads the
bytes (`none` when they are not a JSON text) and `parseRFC3339` is `time.Parse` with the
layout `RFC3339`. -/
def pubsubapi.unmarshalSdmEvent (jsonParse : String → Option Json)
    (parseRFC3339 : String → Option Time) (data : String) :
    Except GoError pubsubapi.sdmEvent :=
  let event : pubsubapi.sdmEvent :=
    { EventID := "", Timestamp := 0, ResourceUpdate := none, UserID := "" }
  match jsonParse data with
  | none => .error .jsonSyntaxError
  | some .null => .ok event
  | some (.object kvs) => pubsubapi.sdmEvent.decodeObject parseRFC3339 kvs event
  | some v => .error (.jsonUnmarshalTypeError v.kind "pubsubapi.sdmEvent")

/-- The rest of a list after a leading segment, `none` when the list does not start with
the segment. -/
def strings.cutPrefix : List Char → List Char → Option (List Char)
  | l, [] => some l
  | [], _ :: _ => none
  | a :: l, b :: pre => if a = b then strings.cutPrefix l pre else none

/-- Go `strings.TrimPrefix`. -/
def strings.TrimPrefix (s pre : String) : String :=
  match strings.cutPrefix s.data pre.data with
  | some rest => String.mk rest
  | none => s

def pubsubapi.Live.shortDeviceName (c : pubsubapi.Live) (longName : String) : String :=
  strings.TrimPrefix longName ("enterprises/" ++ c.sdmProjectID ++ "/devices/")

/-- The loop `for _, message := range messages` of `parseReceivedMessages`, at the message
of index `i`, with the lists built so far.  Log calls are left out. -/
def pubsubapi.Live.parseReceivedMessagesLoop (c : pubsubapi.Live) (env : pubsubapi.Env) :
    ℕ → List pubsubapi.ReceivedMessage → List String → List pubsubapi.SdmEvent →
      Except GoPanic (List String × List pubsubapi.SdmEvent)
  | _, [], toAck, events => .ok (toAck, events)
  | i, message :: rest, toAck, events =>
    -- event data is base64 encoded
    match env.base64Decode message.Message.Data with
    | none => pubsubapi.Live.parseReceivedMessagesLoop c env (i + 1) rest toAck events
    | some data =>
      -- retrieve the message publish time
      let old : Bool :=
        match env.parseRFC3339Nano message.Message.PublishTime with
        | none => false
        | some publishTime => (env.now i).After (publishTime.Add c.maxMessageAge)
      if old then
        pubsubapi.Live.parseReceivedMessagesLoop c env (i + 1) rest
          (toAck ++ [message.AckId]) events
      else
        match pubsubapi.unmarshalSdmEvent env.jsonParse env.parseRFC3339 data with
        | .error _ => pubsubapi.Live.parseReceivedMessagesLoop c env (i + 1) rest toAck events
        | .ok event =>
          match event.ResourceUpdate with
          | none =>
            pubsubapi.Live.parseReceivedMessagesLoop c env (i + 1) rest
              (toAck ++ [message.AckId]) events
          | some resourceUpdate =>
            match Traits.Parse env.parseRFC3339 NewTraits resourceUpdate.Traits with
            | .error _ =>
              pubsubapi.Live.parseReceivedMessagesLoop c env (i + 1) rest toAck events
            | .panic p => .error p
            | .ok t =>
              let parsedEvent : pubsubapi.SdmEvent :=
                { AckID := message.AckId, Timestamp := event.Timestamp,
                  DeviceID := c.shortDeviceName resourceUpdate.Name, Traits := t }
              pubsubapi.Live.parseReceivedMessagesLoop c env (i + 1) rest toAck
                (events ++ [parsedEvent])

/-- Sort the received messages into acknowledgments and events.  The named result `err`
is never assigned (the loop declares its own `err`), so the returned error is nil. -/
def pubsubapi.Live.parseReceivedMessages (c : pubsubapi.Live) (env : pubsubapi.Env)
    (messages : List pubsubapi.ReceivedMessage) :
    Except GoPanic (List String × List pubsubapi.SdmEvent × Option GoError) :=
  match pubsubapi.Live.parseReceivedMessagesLoop c env 0 messages [] [] with
  | .error p => .error p
  | .ok (toAck, events) => .ok (toAck, events, none)

/-! ## fmt -/

/-- The output of `fmt.Sprintf` for a format whose only verb is `%s`, with string
operands.  A verb that finds no operand prints `%!s(MISSING)`. -/
def fmt.sprintfChars : List Char → List String → List Char
  | [], _ => []
  | '%' :: 's' :: rest, a :: args => a.data ++ fmt.sprintfChars rest args
  | '%' :: 's' :: rest, [] => "%!s(MISSING)".data ++ fmt.sprintfChars rest []
  | c :: rest, args => c :: fmt.sprintfChars rest args

/-- Go `fmt.Sprintf`, for the verb `%s` and string operands. -/
def fmt.Sprintf (format : String) (args : List String) : String :=
  String.mk (fmt.sprintfChars format.data args)

/-! ## stoauth/flows.go: authorization code -/

def stoauth.newAccessTokenRequest (requestID : String) : models.AccessTokenRequest :=
  let stSchema := "st-schema"
  let stVersion := "1.0"
  { Headers := some
      { Schema := some stSchema, Version := some stVersion, RequestID := some requestID,
        InteractionType := models.InteractionTypeAccessTokenRequest },
    CallbackAuthentication := some
      { ClientID := none, ClientSecret := none, Code := none, GrantType := none } }

/-- The authorization-code exchange.  Returns the state as the call leaves it, the
effects, and the returned error (`none` is the Go `nil`) or the abort.  The collaborators
are those of the refresh exchange; the request identifier is an argument here. -/
def stoauth.State.AuthCodeFlow (s : stoauth.State) (w : stoauth.RefreshWorld)
    (requestID : String) (code : String) :
    stoauth.State × List Effect × Except GoPanic (Option GoError) :=
  if s.clientSecret = "" then
    (s, [], .ok (some (.errorf "no clientSecret, cannot execute authorization code grant" [])))
  else
    let stGrantType := "authorization_code"
    let tokenReq := stoauth.newAccessTokenRequest requestID
    let tokenReq : models.AccessTokenRequest :=
      { tokenReq with
        CallbackAuthentication := some
          { ClientID := some s.ClientID, ClientSecret := some s.clientSecret,
            Code := some code, GrantType := some stGrantType } }
    let reqBody := Body.accessTokenRequest tokenReq
    let trace : List Effect :=
      [ .log "debug" none "Sending access token request to Smartthings URL [%s]: %s"
          [.string s.TokenURL, .body reqBody],
        .httpPost s.TokenURL "application/json" reqBody ]
    match w.post s.TokenURL reqBody with
    | .error err => (s, trace, .ok (some (.wrap err "executing authorization code grant")))
    | .ok resp =>
      match resp.Body with
      | .error err => (s, trace, .ok (some (.wrap err "reading response body")))
      | .ok bodyBytes =>
        if resp.StatusCode ≠ 200 then
          (s, trace, .ok (some (.errorf
            "non-200 code from Smartthings token URL: %d (%s): %s"
            [.int resp.StatusCode, .string resp.Status, .string bodyBytes])))
        else
          let trace := trace ++
            [ .log "debug" none "Access Token response: %s" [.string bodyBytes] ]
          match w.decode bodyBytes with
          | .error err =>
            (s, trace, .ok (some (.wrap err "decoding smartthing token response")))
          | .ok tokenResp =>
            match tokenResp.Headers with
            | none => (s, trace, .error .nilDereference)
            | some headers =>
              if headers.InteractionType ≠ models.InteractionTypeAccessTokenResponse then
                (s, trace, .ok (some (.errorf
                  "got interaction type %s, expected accessTokenResponse"
                  [.string headers.InteractionType])))
              else
                match tokenResp.CallbackAuthentication with
                | none => (s, trace, .error .nilDereference)
                | some auth =>
                  match auth.AccessToken with
                  | none => (s, trace, .error .nilDereference)
                  | some accessToken =>
                    let s := { s with accessToken := accessToken }
                    match auth.RefreshToken with
                    | none => (s, trace, .error .nilDereference)
                    | some refreshToken =>
                      let s := { s with refreshToken := refreshToken }
                      match auth.ExpiresIn with
                      | none => (s, trace, .error .nilDereference)
                      | some expiresIn =>
                        let s :=
                          { s with
                            accessTokenExpiry := w.now.Add (1000000000 * expiresIn) }
                        (s, trace, .ok none)

/-! ## stoauth/state.go: string form -/

/-- The library functions behind `hashOf` and the rendering of the expiry:
`sha1.Sum` (the 20 bytes of the digest), `base64.StdEncoding.EncodeToString`, and
`Time.String`, which `%s` calls for a `time.Time` operand. -/
structure stoauth.Render where
  sha1Sum : String → List Nat
  encodeToString : List Nat → String
  timeString : Time → String

def stoauth.hashOf (lib : stoauth.Render) (s : String) : String :=
  let sum := lib.sha1Sum s
  lib.encodeToString sum

/-- The string form of the state: obfuscate tokens/secrets when stringified. -/
def stoauth.State.String (lib : stoauth.Render) (s : stoauth.State) : String :=
  fmt.Sprintf
    ("ClientID [%s], clientSecret [%s], Scope [%s] TokenURL [%s]  StateCallbackURL [%s]" ++
      "  accessToken: [%s]  accessTokenExpiry [%s]  refreshToken [%s]")
    [ s.ClientID, stoauth.hashOf lib s.clientSecret, s.Scope, s.TokenURL, s.StateCallbackURL,
      stoauth.hashOf lib s.accessToken, lib.timeString s.accessTokenExpiry,
      stoauth.hashOf lib s.refreshToken ]

/-! ## cmd/pubsub.go: the publishing loop -/

/-- The loop `for event := range c` of `publishLoop`.  Each event comes with the ticket
drawn for it and the collaborators of its own calls; the events are handled one after the
other, which is one schedule of the concurrent workers.  The parameter `tokenState` is
never assigned, and `publishEvent` receives a copy of it. -/
def cmd.publishLoopEvents (tokenState : stoauth.State) :
    List (Int × pubsubapi.SdmEvent × cmd.PublishWorld) → List Effect × Except GoPanic Unit
  | [] => ([], .ok ())
  | (ticket, event, w) :: rest =>
    match cmd.publishEvent ticket tokenState event w with
    | (trace, .error p) => (trace, .error p)
    | (trace, .ok ()) =>
      match cmd.publishLoopEvents tokenState rest with
      | (trace', r) => (trace ++ trace', r)

def cmd.publishLoop (tokenState : stoauth.State)
    (c : List (Int × pubsubapi.SdmEvent × cmd.PublishWorld)) :
    List Effect × Except GoPanic Unit :=
  match cmd.publishLoopEvents tokenState c with
  | (trace, .error p) => (trace, .error p)
  | (trace, .ok ()) =>
    (trace ++
      [ .log "info" none "publish-loop: shutting down" [],
        .log "info" none "publish-loop: done" [] ], .ok ())

/-! ## sdmapi/live.go: sending a command -/

structure Device where
  ID : String
  DeviceType : String
  Traits : Traits
  deriving DecidableEq, Repr

structure Live where
  sdmProjectID : String
  accessToken : String
  timeout : Duration
  deriving DecidableEq, Repr

def Live.longDeviceName (c : Live) (shortName : String) : String :=
  c.sdmProjectID ++ "/devices/" ++ shortName

/-- The collaborators of `SendCommand`: the outcome of building the service (`c.api()`),
`json.Marshal` of the command, and the answer of `ExecuteCommand(...).Do()` for a device
name, command name and parameters: an error, or the HTTP status and the results. -/
structure SendCommandWorld where
  api : Option GoError
  marshal : Command → Except GoError String
  executeCommand : String → String → String → Except GoError (Int × String)

def Live.SendCommand (c : Live) (w : SendCommandWorld) (deviceID : String)
    (command : Command) : Option GoError :=
  match w.api with
  | some err => some (.wrap err "initialising the api")
  | none =>
    let longDeviceName := c.longDeviceName deviceID
    match w.marshal command with
    | .error err => some (.wrap err "marshaling command parameters")
    | .ok cmdParams =>
      match w.executeCommand longDeviceName command.commandName cmdParams with
      | .error err =>
        errors.Wrapf (some err) "executing command: %s, params %s"
          [.string command.commandName, .string cmdParams]
      | .ok (status, results) =>
        if status ≠ 200 then
          some (.errorf "command response error: HTTP status %d, %s"
            [.int status, .string results])
        else none

/-! ## handlers/helpers.go -/

/-- Modelled from the spec: the request interaction types of the generated package. -/
def models.InteractionTypeDiscoveryRequest : String := "discoveryRequest"

/-- Modelled from the spec: see `models.InteractionTypeDiscoveryRequest`. -/
def models.InteractionTypeStateRefreshRequest : String := "stateRefreshRequest"

/-- Modelled from the spec: see `models.InteractionTypeDiscoveryRequest`. -/
def models.InteractionTypeCommandRequest : String := "commandRequest"

/-- Modelled from the spec: the response interaction types of the generated package. -/
def models.InteractionTypeDiscoveryResponse : String := "discoveryResponse"

/-- Modelled from the spec: see `models.InteractionTypeDiscoveryResponse`. -/
def models.InteractionTypeStateRefreshResponse : String := "stateRefreshResponse"

/-- Modelled from the spec: see `models.InteractionTypeDiscoveryResponse`. -/
def models.InteractionTypeCommandResponse : String := "commandResponse"

/-- Modelled from the spec: the generic "interaction result" type. -/
def models.InteractionTypeInteractionResult : String := "interactionResult"

/-- Modelled from the spec: the error enum of the global error sent for an expired
token. -/
def models.GlobalErrorErrorEnumTOKENEXPIRED : String := "TOKEN-EXPIRED"

/-- The `models.Headers` values that pointers refer to: an address is an index of the
list, and a new variable whose address is taken is appended. -/
abbrev HeadersStore := List models.Headers

/-- Modelled from the spec: the generated `models.GlobalError`. -/
structure models.GlobalError where
  ErrorEnum : Option String
  Detail : String
  deriving DecidableEq, Repr

/-- Modelled from the spec: the generated `models.InteractionResult`, with the members
the handlers set; `Headers` is an address. -/
structure models.InteractionResult where
  Headers : Option Nat
  GlobalError : Option models.GlobalError
  deriving DecidableEq, Repr

/-- Modelled from the spec: the generated `models.CommandResponse`; `Headers` is an
address. -/
structure models.CommandResponse where
  Headers : Option Nat
  DeviceState : List models.DeviceState
  deriving DecidableEq, Repr

/-- Modelled from the spec: an element of `SmartthingsRequest.Devices`, with the members
the command handler reads. -/
structure models.RequestDevice where
  ExternalDeviceID : Option String
  Commands : List models.Command
  deriving DecidableEq, Repr

/-- Modelled from the spec: the generated `models.SmartthingsRequest`, with the members
the command handler reads; `Headers` is an address. -/
structure models.SmartthingsRequest where
  Headers : Option Nat
  Authentication : Option models.Authentication
  Devices : List models.RequestDevice
  deriving DecidableEq, Repr

def handlers.responseTypeFromRequestType (inType : String) : String :=
  if inType = models.InteractionTypeDiscoveryRequest then
    models.InteractionTypeDiscoveryResponse
  else if inType = models.InteractionTypeStateRefreshRequest then
    models.InteractionTypeStateRefreshResponse
  else if inType = models.InteractionTypeCommandRequest then
    models.InteractionTypeCommandResponse
  else
    models.InteractionTypeInteractionResult

/-- The statement `var h models.Headers = *req.Headers`: the value behind the pointer, an
abort for the nil pointer. -/
def handlers.derefHeaders (mem : HeadersStore) (p : Option Nat) :
    Except GoPanic models.Headers :=
  match p with
  | none => .error .nilDereference
  | some a =>
    match mem[a]? with
    | none => .error .nilDereference
    | some h => .ok h

def handlers.NewCommandResponse (mem : HeadersStore) (req : models.SmartthingsRequest) :
    Except GoPanic (HeadersStore × models.CommandResponse) :=
  match handlers.derefHeaders mem req.Headers with
  | .error p => .error p
  | .ok h =>
    let h := { h with InteractionType := models.InteractionTypeCommandResponse }
    .ok (mem ++ [h], { Headers := some mem.length, DeviceState := [] })

def handlers.NewGlobalErrorResponse (mem : HeadersStore) (req : models.SmartthingsRequest)
    (errEnum : String) (detail : String) :
    Except GoPanic (HeadersStore × models.InteractionResult) :=
  match handlers.derefHeaders mem req.Headers with
  | .error p => .error p
  | .ok h =>
    let h :=
      { h with InteractionType := handlers.responseTypeFromRequestType h.InteractionType }
    .ok (mem ++ [h],
      { Headers := some mem.length,
        GlobalError := some { ErrorEnum := some errEnum, Detail := detail } })

/-! ## handlers/st-schema.go -/

/-- The loop of `googleApiErrorIs` over `err.Errors`. -/
def handlers.googleApiErrorIsLoop : List googleapi.ErrorItem → String → Bool
  | [], _ => false
  | i :: rest, reason =>
    if i.Reason = reason then true else handlers.googleApiErrorIsLoop rest reason

def handlers.googleApiErrorIs (err : googleapi.Error) (reason : String) : Bool :=
  handlers.googleApiErrorIsLoop err.Errors reason

/-- The type switch has the single case `*googleapi.Error`: an error of any other dynamic
type, a wrapping error included, falls through to the final `return true`. -/
def handlers.googleApiErrorIsGlobal (err : GoError) (requestWasForDevice : Bool) : Bool :=
  match err with
  | .googleapi v =>
    if v.Code = 401 then true
    else if v.Code = 400 then
      if requestWasForDevice then false else true
    else true
  | _ => true

def handlers.makeDeviceError (err : GoError) : models.DeviceStateDeviceErrorItems0 :=
  let errEnum := "DEVICE-UNAVAILABLE"
  let errDetail := "device unavailable"
  let (errEnum, errDetail) :=
    match err with
    | .googleapi v =>
      let errDetail := v.Message
      if handlers.googleApiErrorIs v "failedPrecondition" then
        ("RESOURCE-CONSTRAINT-VIOLATION", errDetail)
      else (errEnum, errDetail)
    | _ => (errEnum, errDetail)
  { Detail := errDetail, ErrorEnum := some errEnum }

/-- What a handler writes to the `http.ResponseWriter`: a plain error of `http.Error`, or
the value given to `sendJSONResponse`. -/
inductive handlers.Reply
  | httpError (message : String) (code : Int)
  | interactionResult (r : models.InteractionResult)
  | commandResponse (r : models.CommandResponse)
  deriving DecidableEq, Repr

/-- Answer a request that a device API error ends.  The log call is left out. -/
def handlers.sendAPIErrorResponse (mem : HeadersStore) (req : models.SmartthingsRequest)
    (err : GoError) : Except GoPanic (HeadersStore × handlers.Reply) :=
  let downstream : Except GoPanic (HeadersStore × handlers.Reply) :=
    .ok (mem, .httpError "Down-stream API error" 502)
  match err with
  | .googleapi v =>
    if v.Code = 401 then
      -- Assume token has expired, we can't tell..
      match handlers.NewGlobalErrorResponse mem req models.GlobalErrorErrorEnumTOKENEXPIRED
          "token error" with
      | .error p => .error p
      | .ok (mem, r) => .ok (mem, .interactionResult r)
    else downstream
  | _ => downstream

/-- The interface `sdmapi.SmartDeviceManagement` as the command handler uses it, after
`WithAccessToken`: the answers of `GetDevice` and `SendCommand` by argument. -/
structure SmartDeviceManagement where
  GetDevice : String → Except GoError Device
  SendCommand : String → Command → Option GoError

/-- The handler; `sdmClient token` is `h.sdmClient.WithAccessToken(token)`. -/
structure handlers.NestHandler where
  sdmClient : String → SmartDeviceManagement
  oauthStateFile : String
  stClientID : String
  stClientSecret : String

/-- How a command request ends before its response is built: a command that cannot be
converted, a global device API error, or an abort. -/
inductive handlers.Abort
  | conversion
  | api (err : GoError)
  | panic (p : GoPanic)
  deriving DecidableEq, Repr

/-- The loop `for _, sdmCommand := range sdmCommands` of `HandleCommandRequest`: the
device state as the loop leaves it, or the global error that ends the request. -/
def handlers.sendCommandsLoop (c : SmartDeviceManagement) (deviceID : String) :
    List Command → models.DeviceState → Except GoError models.DeviceState
  | [], deviceInfo => .ok deviceInfo
  | sdmCommand :: rest, deviceInfo =>
    match c.SendCommand deviceID sdmCommand with
    | some err =>
      if handlers.googleApiErrorIsGlobal err true then
        .error err
      else
        let deviceError := handlers.makeDeviceError err
        handlers.sendCommandsLoop c deviceID rest
          { deviceInfo with DeviceError := [deviceError] }
    | none => handlers.sendCommandsLoop c deviceID rest deviceInfo

/-- The loop `for _, command := range device.Commands`.  The state carries `deviceInfo`
and the number of times `&deviceInfo` has been appended to `states` so far: the appended
pointers all refer to the one variable, so each shows its final value in the response. -/
def handlers.commandsLoop (c : SmartDeviceManagement) (deviceID : String) :
    List models.Command → models.DeviceState → Nat →
      Except handlers.Abort (models.DeviceState × Nat)
  | [], deviceInfo, appended => .ok (deviceInfo, appended)
  | command :: rest, deviceInfo, appended =>
    match StCommandToSdmCommands command with
    | .error _ => .error .conversion
    | .panic p => .error (.panic p)
    | .ok [] =>
      -- sdmCommands == nil
      let errEnum := "CAPABILITY-NOT-SUPPORTED"
      let deviceError : models.DeviceStateDeviceErrorItems0 :=
        { Detail := "unsupported command", ErrorEnum := some errEnum }
      let deviceInfo := { deviceInfo with DeviceError := [deviceError] }
      -- states = append(states, &deviceInfo); continue
      handlers.commandsLoop c deviceID rest deviceInfo (appended + 1)
    | .ok sdmCommands =>
      match handlers.sendCommandsLoop c deviceID sdmCommands deviceInfo with
      | .error err => .error (.api err)
      | .ok deviceInfo => handlers.commandsLoop c deviceID rest deviceInfo appended

/-- The loop `for _, nestTraitID := range nestTraits` that translates the traits of a
device. -/
def handlers.deviceStatesLoop (traits : Traits) :
    List traitID → List DeviceStateStatesItems0 →
      Except GoPanic (List DeviceStateStatesItems0)
  | [], states => .ok states
  | nestTraitID :: rest, states =>
    match traits.Trait nestTraitID with
    | none => handlers.deviceStatesLoop traits rest states
    | some nestTrait =>
      match nestTrait.StCapability traits with
      | none => handlers.deviceStatesLoop traits rest states
      | some (.error p) => .error p
      | some (.ok stStates) => handlers.deviceStatesLoop traits rest (states ++ stStates)

/-- The loop `for _, device := range req.Devices` of `HandleCommandRequest`, with the
list `states` as the response will show it. -/
def handlers.devicesLoop (c : SmartDeviceManagement) :
    List models.RequestDevice → List models.DeviceState →
      Except handlers.Abort (List models.DeviceState)
  | [], states => .ok states
  | device :: rest, states =>
    match device.ExternalDeviceID with
    | none => .error (.panic .nilDereference)
    | some deviceID =>
      let deviceInfo : models.DeviceState := { ExternalDeviceID := deviceID, States := [] }
      match handlers.commandsLoop c deviceID device.Commands deviceInfo 0 with
      | .error a => .error a
      | .ok (deviceInfo, appended) =>
        if deviceInfo.DeviceError = [] then
          -- Ask Google for the Nest device info
          match c.GetDevice deviceID with
          | .error _ =>
            -- continue
            handlers.devicesLoop c rest (states ++ List.replicate appended deviceInfo)
          | .ok nestDevice =>
            let nestTraits := nestDevice.Traits.TraitIDs
            match handlers.deviceStatesLoop nestDevice.Traits nestTraits [] with
            | .error p => .error (.panic p)
            | .ok stStates =>
              let deviceInfo :=
                { deviceInfo with ExternalDeviceID := nestDevice.ID, States := stStates }
              handlers.devicesLoop c rest
                (states ++ List.replicate (appended + 1) deviceInfo)
        else
          handlers.devicesLoop c rest (states ++ List.replicate (appended + 1) deviceInfo)

/-- Answer a command request.  Log calls are left out. -/
def handlers.NestHandler.HandleCommandRequest (h : handlers.NestHandler)
    (mem : HeadersStore) (req : models.SmartthingsRequest) :
    Except GoPanic (HeadersStore × handlers.Reply) :=
  match req.Authentication with
  | none => .error .nilDereference
  | some authentication =>
    match authentication.Token with
    | none => .error .nilDereference
    | some token =>
      let c := h.sdmClient token
      match handlers.devicesLoop c req.Devices [] with
      | .error .conversion => .ok (mem, .httpError "internal server error" 500)
      | .error (.api err) => handlers.sendAPIErrorResponse mem req err
      | .error (.panic p) => .error p
      | .ok states =>
        match handlers.NewCommandResponse mem req with
        | .error p => .error p
        | .ok (mem, resp) => .ok (mem, .commandResponse { resp with DeviceState := states })

/-! ## Specification-side definitions -/

/-- Rounding to one decimal place as the specification words it: the nearest multiple of
one tenth, a value exactly halfway between two tenths going away from zero. -/
def roundOneDecimal (x : ℚ) : ℚ :=
  if 0 ≤ x then ((⌊x * 10 + 1 / 2⌋ : ℤ) : ℚ) / 10
  else -((⌊-x * 10 + 1 / 2⌋ : ℤ) : ℚ) / 10

/-- The identifier under which `Parse` files a value of each dynamic type. -/
def TraitValue.traitID : TraitValue → traitID
  | .structuresInfo _ => sdmStructuresTraitsInfo
  | .roomInfo _ => sdmStructuresTraitsRoomInfo
  | .connectivity _ => sdmDevicesTraitsConnectivity
  | .fan _ => sdmDevicesTraitsFan
  | .humidity _ => sdmDevicesTraitsHumidity
  | .deviceInfo _ => sdmDevicesTraitsInfo
  | .settings _ => sdmDevicesTraitsSettings
  | .temperature _ => sdmDevicesTraitsTemperature
  | .thermostatEco _ => sdmDevicesTraitsThermostatEco
  | .thermostatMode _ => sdmDevicesTraitsThermostatMode
  | .thermostatHvac _ => sdmDevicesTraitsThermostatHvac
  | .temperatureSetpoint _ => sdmDevicesTraitsThermostatTemperatureSetpoint

/-- The identifier whose `switch` case creates each decode target. -/
def traitsReader.traitID : traitsReader → traitID
  | .StructuresInfoTraits _ => sdmStructuresTraitsInfo
  | .RoomInfoTraits _ => sdmStructuresTraitsRoomInfo
  | .deviceConnectivityTraits _ => sdmDevicesTraitsConnectivity
  | .deviceFanTraits _ => sdmDevicesTraitsFan
  | .DeviceHumidityTraits _ => sdmDevicesTraitsHumidity
  | .DeviceInfoTraits _ => sdmDevicesTraitsInfo
  | .deviceSettingsTraits _ => sdmDevicesTraitsSettings
  | .DeviceTemperatureTraits _ => sdmDevicesTraitsTemperature
  | .deviceThermostatEco _ => sdmDevicesTraitsThermostatEco
  | .deviceThermostatMode _ => sdmDevicesTraitsThermostatMode
  | .deviceThermostatHvac _ => sdmDevicesTraitsThermostatHvac
  | .DeviceThermostatTemperatureSetpoint _ => sdmDevicesTraitsThermostatTemperatureSetpoint

/-- Every value of the trait set has the dynamic type that belongs to its identifier, so
that no type assertion of the translation can fail. -/
def Traits.WellTyped (t : Traits) : Prop :=
  ∀ id v, t.Trait id = some v → v.traitID = id

/-- The entries that one trait of the event contributes to the device state: its
translation when its type has one, nothing otherwise. -/
def cmd.traitStates (event : pubsubapi.SdmEvent) (nestTraitID : traitID) :
    List DeviceStateStatesItems0 :=
  match event.Traits.Trait nestTraitID with
  | none => []
  | some nestTrait =>
    match nestTrait.StCapability event.Traits with
    | some (.ok stStates) => stStates
    | _ => []

/-- What the loop of `parseReceivedMessages` does with one message. -/
inductive pubsubapi.Fate
  | dropped
  | acknowledged
  | delivered (e : pubsubapi.SdmEvent)
  | aborted (p : GoPanic)
  deriving DecidableEq, Repr

/-- The fate of the message handled at index `i`: dropped without acknowledgment,
acknowledged without an event, delivered as an event, or aborting the batch. -/
def pubsubapi.Live.fate (c : pubsubapi.Live) (env : pubsubapi.Env) (i : ℕ)
    (message : pubsubapi.ReceivedMessage) : pubsubapi.Fate :=
  match env.base64Decode message.Message.Data with
  | none => .dropped
  | some data =>
    if (match env.parseRFC3339Nano message.Message.PublishTime with
        | none => false
        | some publishTime => (env.now i).After (publishTime.Add c.maxMessageAge)) then
      .acknowledged
    else
      match pubsubapi.unmarshalSdmEvent env.jsonParse env.parseRFC3339 data with
      | .error _ => .dropped
      | .ok event =>
        match event.ResourceUpdate with
        | none => .acknowledged
        | some resourceUpdate =>
          match Traits.Parse env.parseRFC3339 NewTraits resourceUpdate.Traits with
          | .error _ => .dropped
          | .panic p => .aborted p
          | .ok t =>
            .delivered
              { AckID := message.AckId, Timestamp := event.Timestamp,
                DeviceID := c.shortDeviceName resourceUpdate.Name, Traits := t }

/-- A log entry at the debug level.  Effects other than log entries are no log output. -/
def Effect.atDebug : Effect → Prop
  | .log level _ _ _ => level = "debug"
  | _ => True

/-- The request that the refresh exchange is said to log: the JSON body with the client
identifier, the client secret and the refresh token of the state in clear. -/
def stoauth.refreshRequest (s : stoauth.State) (requestID : String) : Body :=
  .refreshAccessTokenRequest
    { Headers := some
        { Schema := some "st-schema", Version := some "1.0", RequestID := some requestID,
          InteractionType := "refreshAccessTokens" },
      CallbackAuthentication := some
        { ClientID := some s.ClientID, ClientSecret := some s.clientSecret,
          GrantType := some "refresh_token", RefreshToken := some s.refreshToken } }

/-- The request that the authorization-code exchange is said to log: the JSON body with
the client identifier, the client secret of the state and the authorization code in
clear. -/
def stoauth.authCodeRequest (s : stoauth.State) (requestID code : String) : Body :=
  .accessTokenRequest
    { Headers := some
        { Schema := some "st-schema", Version := some "1.0", RequestID := some requestID,
          InteractionType := "accessTokenRequest" },
      CallbackAuthentication := some
        { ClientID := some s.ClientID, ClientSecret := some s.clientSecret,
          Code := some code, GrantType := some "authorization_code" } }

/-- The request that the state callback is said to log: the JSON body with the access token
in clear and the device state. -/
def cmd.callbackRequest (requestID token : String) (deviceInfo : models.DeviceState) :
    Body :=
  .deviceStateCallback
    { Headers := some
        { Schema := some "st-schema", Version := some "1.0", RequestID := some requestID,
          InteractionType := "stateCallback" },
      Authentication := some { TokenType := some "Bearer", Token := some token },
      DeviceState := [deviceInfo] }

/-- What the body of the loop of `Parse` does with one entry of the trait map: nothing
(`none`), or the assignment of a value to a trait identifier, or the failure that ends the
loop. -/
def Traits.entry (timeParse : String → Option Time) (kv : String × Json) :
    Outcome GoError (Option (traitID × TraitValue)) :=
  match parseTraitName kv.1 with
  | (false, _) => .ok none
  | (true, traitID) =>
    match newDecoded traitID with
    | none => .ok none
    | some decoded =>
      match jsonUnmarshal kv.2 decoded with
      | .error err => .error err
      | .ok none => .panic .nilDereference
      | .ok (some decoded) => .ok (some (traitID, decoded.Unmarshal timeParse))

/-- The assignments that the entries of a list make, in the order of the list. -/
def Traits.assignments (timeParse : String → Option Time) (l : List (String × Json)) :
    List (traitID × TraitValue) :=
  l.filterMap fun kv =>
    match Traits.entry timeParse kv with
    | .ok (some a) => some a
    | _ => none

/-- The outcomes that `Parse` of `data` into `t` can have.  Go ranges over the map of the
trait entries in an order that it does not specify and that changes from one run to the
next, so every order of the entries gives an outcome. -/
def Traits.ParseOutcome (timeParse : String → Option Time) (t : Traits) (data : Option Json)
    (r : Outcome GoError Traits) : Prop :=
  match unmarshalRawMap data with
  | .error err => r = .error err
  | .ok alltraits =>
    ∃ visit : List (String × Json), visit.Perm alltraits ∧ r = Traits.parseLoop timeParse t visit

/-- The mode string that a ThermostatEco payload carries: the value of its last `mode`
member that is a string, member names being compared as `encoding/json` compares them; the
empty string when there is none. -/
def ecoPayloadMode (kvs : List (String × Json)) : String :=
  kvs.foldl
    (fun cur kv =>
      if equalFold kv.1 "mode" then
        match kv.2 with
        | .string s => s
        | _ => cur
      else cur)
    ""

/-- The float32 number that a payload carries for the member `field`: the float32 nearest
to the value of its last member of that name that is a number, member names being compared
as `encoding/json` compares them; zero when there is none. -/
def payloadFloat32 (field : String) (kvs : List (String × Json)) : ℚ :=
  kvs.foldl
    (fun cur kv =>
      if equalFold kv.1 field then
        match kv.2 with
        | .number q => float32 q
        | _ => cur
      else cur)
    0

/-! # Theorems -/

/-! ## Trait translation: cross-trait overrides

The translations read other slots of the trait set through type assertions.  The theorems
of this section assume that such a slot is empty or holds a value of its own type; every
trait set built by `Parse` is of this kind (`Parse_wellTyped`, `wellTyped_slots`, at the
end of the file). -/

/-- C1. Thermostat mode translation. For every trait set whose ThermostatEco slot is empty
or holds a ThermostatEco value, the translation of a ThermostatMode trait returns the
thermostatMode entry followed by the fixed supportedThermostatModes entry; the reported
mode is "eco" whenever ThermostatEco is present and enabled, whatever mode the trait
holds, and otherwise it is "off", "heat", "cool" or "auto" for the modes off, heat, cool
and heat-cool. -/
theorem thermostatMode_state_eco_override
    (t : DeviceThermostatMode) (traits : Traits) (ecoTrait : Option DeviceThermostatEco)
    (heco : traits.Trait sdmDevicesTraitsThermostatEco
      = ecoTrait.map TraitValue.thermostatEco) :
    ∃ mode : String,
      t.ToSmartthingsState traits = .ok
        [ { Component := "main", Capability := "st.thermostatMode",
            Attribute := "thermostatMode", Value := .string mode },
          { Component := "main", Capability := "st.thermostatMode",
            Attribute := "supportedThermostatModes",
            Value := .strings ["off", "heat", "cool", "auto", "eco"] } ] ∧
      ((∃ eco, ecoTrait = some eco ∧ eco.Enabled = true) → mode = "eco") ∧
      ((ecoTrait = none ∨ ∃ eco, ecoTrait = some eco ∧ eco.Enabled = false) →
        (t.mode = thermostatModeOff → mode = "off") ∧
        (t.mode = thermostatModeHeat → mode = "heat") ∧
        (t.mode = thermostatModeCool → mode = "cool") ∧
        (t.mode = thermostatModeHeatCool → mode = "auto")) := by
  obtain ⟨m⟩ := t
  unfold DeviceThermostatMode.ToSmartthingsState
  rw [heco]
  rcases ecoTrait with _ | ⟨en, h, c⟩
  · cases m <;> exact ⟨_, rfl, by simp, by simp⟩
  · cases en <;> cases m <;> exact ⟨_, rfl, by simp, by simp⟩

/-- Witness for C1: heat mode with eco enabled is reported as "eco". -/
theorem thermostatMode_state_eco_override_witness :
    (DeviceThermostatMode.mk thermostatModeHeat).ToSmartthingsState
        ⟨[(sdmDevicesTraitsThermostatMode, .thermostatMode ⟨thermostatModeHeat⟩),
          (sdmDevicesTraitsThermostatEco, .thermostatEco ⟨true, 18, 26⟩)]⟩
      = .ok
        [ { Component := "main", Capability := "st.thermostatMode",
            Attribute := "thermostatMode", Value := .string "eco" },
          { Component := "main", Capability := "st.thermostatMode",
            Attribute := "supportedThermostatModes",
            Value := .strings ["off", "heat", "cool", "auto", "eco"] } ] := by
  obtain ⟨mode, hres, heco, _⟩ :=
    thermostatMode_state_eco_override ⟨thermostatModeHeat⟩
      ⟨[(sdmDevicesTraitsThermostatMode, .thermostatMode ⟨thermostatModeHeat⟩),
        (sdmDevicesTraitsThermostatEco, .thermostatEco ⟨true, 18, 26⟩)]⟩
      (some ⟨true, 18, 26⟩) rfl
  rw [hres, heco ⟨_, rfl, rfl⟩]

/-- C2. Supported fan modes. For every trait set whose ThermostatMode and ThermostatEco
slots are empty or hold values of their own type, the translation of a Fan trait returns
the thermostatFanMode entry followed by the supportedThermostatFanModes entry, and the
supported list is exactly ["auto"] if and only if ThermostatMode is present with mode off
and ThermostatEco is absent or disabled; in every other case it is exactly
["auto", "followschedule"]. -/
theorem fan_state_supported_modes
    (t : DeviceFanTraits) (traits : Traits)
    (modeTrait : Option DeviceThermostatMode) (ecoTrait : Option DeviceThermostatEco)
    (hmode : traits.Trait sdmDevicesTraitsThermostatMode
      = modeTrait.map TraitValue.thermostatMode)
    (heco : traits.Trait sdmDevicesTraitsThermostatEco
      = ecoTrait.map TraitValue.thermostatEco) :
    ∃ (fanMode : String) (supported : List String),
      t.ToSmartthingsState traits = .ok
        [ { Component := "main", Capability := "st.thermostatFanMode",
            Attribute := "thermostatFanMode", Value := .string fanMode },
          { Component := "main", Capability := "st.thermostatFanMode",
            Attribute := "supportedThermostatFanModes", Value := .strings supported } ] ∧
      (supported = ["auto"] ↔
        ((∃ m, modeTrait = some m ∧ m.mode = thermostatModeOff) ∧
          (ecoTrait = none ∨ ∃ eco, ecoTrait = some eco ∧ eco.Enabled = false))) ∧
      (supported = ["auto"] ∨ supported = ["auto", "followschedule"]) := by
  unfold DeviceFanTraits.ToSmartthingsState
  rw [hmode, heco]
  rcases ecoTrait with _ | ⟨_ | _, h, c⟩ <;>
    rcases modeTrait with _ | ⟨_ | _ | _ | _ | _⟩ <;>
    exact ⟨_, _, rfl, by simp, by simp⟩

/-- Witness for C2: mode off without eco leaves only "auto". -/
theorem fan_state_supported_modes_witness :
    ∃ fanMode : String,
      (DeviceFanTraits.mk false 0).ToSmartthingsState
          ⟨[(sdmDevicesTraitsFan, .fan ⟨false, 0⟩),
            (sdmDevicesTraitsThermostatMode, .thermostatMode ⟨thermostatModeOff⟩)]⟩
        = .ok
          [ { Component := "main", Capability := "st.thermostatFanMode",
              Attribute := "thermostatFanMode", Value := .string fanMode },
            { Component := "main", Capability := "st.thermostatFanMode",
              Attribute := "supportedThermostatFanModes",
              Value := .strings ["auto"] } ] := by
  obtain ⟨fanMode, supported, hres, hiff, _⟩ :=
    fan_state_supported_modes ⟨false, 0⟩
      ⟨[(sdmDevicesTraitsFan, .fan ⟨false, 0⟩),
        (sdmDevicesTraitsThermostatMode, .thermostatMode ⟨thermostatModeOff⟩)]⟩
      (some ⟨thermostatModeOff⟩) none rfl rfl
  have hsup : supported = ["auto"] := hiff.mpr ⟨⟨_, rfl, rfl⟩, Or.inl rfl⟩
  exact ⟨fanMode, by rw [hres, hsup]⟩

/-- C3. Setpoint translation. For every ThermostatTemperatureSetpoint trait and every trait
set whose ThermostatEco slot is empty or holds a ThermostatEco value, the effective cool
and heat setpoints are the eco values when ThermostatEco is present and enabled and the
values of the trait itself otherwise; the result is the coolingSetpoint entry when the
effective cool value is strictly positive, followed by the heatingSetpoint entry when the
effective heat value is strictly positive, each with the effective value and unit "C";
every emitted entry carries a strictly positive value. -/
theorem setpoint_state_effective_values
    (t : DeviceThermostatTemperatureSetpoint) (traits : Traits)
    (ecoTrait : Option DeviceThermostatEco)
    (heco : traits.Trait sdmDevicesTraitsThermostatEco
      = ecoTrait.map TraitValue.thermostatEco) :
    ∃ (cool heat : ℚ) (states : List DeviceStateStatesItems0),
      ((∃ eco, ecoTrait = some eco ∧ eco.Enabled = true ∧
          cool = eco.CoolCelsius ∧ heat = eco.HeatCelsius) ∨
        ((ecoTrait = none ∨ ∃ eco, ecoTrait = some eco ∧ eco.Enabled = false) ∧
          cool = t.CoolCelsius ∧ heat = t.HeatCelsius)) ∧
      t.ToSmartthingsState traits = .ok states ∧
      states =
        (if 0 < cool then
          [ { Component := "main", Capability := "st.thermostatCoolingSetpoint",
              Attribute := "coolingSetpoint", Value := .float32 cool,
              AdditionalProperties := [("unit", "C")] } ]
         else []) ++
        (if 0 < heat then
          [ { Component := "main", Capability := "st.thermostatHeatingSetpoint",
              Attribute := "heatingSetpoint", Value := .float32 heat,
              AdditionalProperties := [("unit", "C")] } ]
         else []) ∧
      ∀ s ∈ states, ∃ v : ℚ, s.Value = .float32 v ∧ 0 < v := by
  unfold DeviceThermostatTemperatureSetpoint.ToSmartthingsState
  rw [heco]
  rcases ecoTrait with _ | ⟨_ | _, h, c⟩
  · refine ⟨t.CoolCelsius, t.HeatCelsius, _, Or.inr ⟨Or.inl rfl, rfl, rfl⟩, rfl, ?_, ?_⟩ <;>
      by_cases hc : 0 < t.CoolCelsius <;> by_cases hh : 0 < t.HeatCelsius <;>
      simp [hc, hh, mapSet]
  · refine ⟨t.CoolCelsius, t.HeatCelsius, _,
        Or.inr ⟨Or.inr ⟨_, rfl, rfl⟩, rfl, rfl⟩, rfl, ?_, ?_⟩ <;>
      by_cases hc : 0 < t.CoolCelsius <;> by_cases hh : 0 < t.HeatCelsius <;>
      simp [hc, hh, mapSet]
  · refine ⟨c, h, _, Or.inl ⟨_, rfl, rfl, rfl, rfl⟩, rfl, ?_, ?_⟩ <;>
      by_cases hc : 0 < c <;> by_cases hh : 0 < h <;> simp [hc, hh, mapSet]

/-- Witness for C3: with eco enabled the eco setpoints are reported, and an unset (zero)
eco cool setpoint is omitted. -/
theorem setpoint_state_effective_values_witness :
    (DeviceThermostatTemperatureSetpoint.mk 20 24).ToSmartthingsState
        ⟨[(sdmDevicesTraitsThermostatEco, .thermostatEco ⟨true, 16, 0⟩)]⟩
      = .ok
        [ { Component := "main", Capability := "st.thermostatHeatingSetpoint",
            Attribute := "heatingSetpoint", Value := .float32 16,
            AdditionalProperties := [("unit", "C")] } ] := by
  obtain ⟨cool, heat, states, hsel, hres, hstates, _⟩ :=
    setpoint_state_effective_values ⟨20, 24⟩
      ⟨[(sdmDevicesTraitsThermostatEco, .thermostatEco ⟨true, 16, 0⟩)]⟩
      (some ⟨true, 16, 0⟩) rfl
  rcases hsel with ⟨eco, heq, _, hc, hh⟩ | ⟨hoff, _⟩
  · cases heq
    simp only at hc hh
    subst hc hh
    rw [hres, hstates]
    simp
  · rcases hoff with h | ⟨eco, heq, hen⟩
    · cases h
    · cases heq
      cases hen

/-- C4. HVAC operating state. For every trait set whose Fan slot is empty or holds a Fan
value, the translation of a ThermostatHvac trait returns the single
thermostatOperatingState entry; its value is "fan only" whenever Fan is present with its
timer mode enabled, whatever the status, and otherwise it is "idle", "heating" or
"cooling" for the statuses off, heating and cooling. -/
theorem hvac_state_fan_override
    (t : DeviceThermostatHvac) (traits : Traits) (fanTrait : Option DeviceFanTraits)
    (hfan : traits.Trait sdmDevicesTraitsFan = fanTrait.map TraitValue.fan) :
    ∃ status : String,
      t.ToSmartthingsState traits = .ok
        [ { Component := "main", Capability := "st.thermostatOperatingState",
            Attribute := "thermostatOperatingState", Value := .string status } ] ∧
      ((∃ fan, fanTrait = some fan ∧ fan.TimerModeEnabled = true) → status = "fan only") ∧
      ((fanTrait = none ∨ ∃ fan, fanTrait = some fan ∧ fan.TimerModeEnabled = false) →
        (t.status = thermostatStatusOff → status = "idle") ∧
        (t.status = thermostatStatusHeating → status = "heating") ∧
        (t.status = thermostatStatusCooling → status = "cooling")) := by
  obtain ⟨st⟩ := t
  unfold DeviceThermostatHvac.ToSmartthingsState
  rw [hfan]
  rcases fanTrait with _ | ⟨_ | _, timeout⟩ <;> cases st <;>
    exact ⟨_, rfl, by simp, by simp⟩

/-- Witness for C4: a heating thermostat with the fan timer running reports "fan only". -/
theorem hvac_state_fan_override_witness :
    (DeviceThermostatHvac.mk thermostatStatusHeating).ToSmartthingsState
        ⟨[(sdmDevicesTraitsFan, .fan ⟨true, 0⟩),
          (sdmDevicesTraitsThermostatHvac, .thermostatHvac ⟨thermostatStatusHeating⟩)]⟩
      = .ok
        [ { Component := "main", Capability := "st.thermostatOperatingState",
            Attribute := "thermostatOperatingState", Value := .string "fan only" } ] := by
  obtain ⟨status, hres, hfan, _⟩ :=
    hvac_state_fan_override ⟨thermostatStatusHeating⟩
      ⟨[(sdmDevicesTraitsFan, .fan ⟨true, 0⟩),
        (sdmDevicesTraitsThermostatHvac, .thermostatHvac ⟨thermostatStatusHeating⟩)]⟩
      (some ⟨true, 0⟩) rfl
  rw [hres, hfan ⟨_, rfl, rfl⟩]

/-! ## Floating point: exactness of the scaling by ten -/

theorem roundHalfEven_intCast (n : ℤ) : roundHalfEven (n : ℚ) = n := by
  simp [roundHalfEven]

theorem roundHalfEven_mem (q : ℚ) :
    roundHalfEven q = ⌊q⌋ ∨ roundHalfEven q = ⌊q⌋ + 1 := by
  unfold roundHalfEven
  simp only
  split_ifs <;> simp

theorem roundHalfEven_abs_le (q : ℚ) (B : ℤ) (h : |q| < B) : |roundHalfEven q| ≤ B := by
  have h1 := abs_lt.mp h
  have hfl : ⌊q⌋ < B := Int.floor_lt.mpr h1.2
  have hfl' : -B ≤ ⌊q⌋ := Int.le_floor.mpr (by push_cast; exact h1.1.le)
  rcases roundHalfEven_mem q with h | h <;> rw [h, abs_le] <;> constructor <;> omega

theorem abs_lt_zpow_ulpExp (p : ℕ) (emin : ℤ) (q : ℚ) :
    |q| < 2 ^ (ulpExp p emin q + p) := by
  by_cases hq : q = 0
  · subst hq; simp only [abs_zero]; positivity
  have h1 : |q| < 2 ^ (Int.log 2 |q| + 1) := by
    have := Int.lt_zpow_succ_log_self (b := 2) (by norm_num) |q|
    exact_mod_cast this
  refine lt_of_lt_of_le h1 ?_
  apply zpow_le_zpow_right₀ (by norm_num)
  unfold ulpExp
  have := le_max_left (Int.log 2 |q| - ((p : ℤ) - 1)) emin
  omega

theorem roundBinary_zero (p : ℕ) (emin : ℤ) : roundBinary p emin 0 = 0 := by
  simp [roundBinary, roundHalfEven]

/-- A value that is an integer multiple of a power of two no finer than its own unit in the
last place is representable: rounding leaves it unchanged. -/
theorem roundBinary_exact (p : ℕ) (emin : ℤ) (m e : ℤ) (q : ℚ) (hq : q = m * 2 ^ e)
    (hk : ulpExp p emin q ≤ e) : roundBinary p emin q = q := by
  unfold roundBinary
  obtain ⟨n, hn⟩ := Int.le.dest hk
  have h2 : (2 : ℚ) ^ e = 2 ^ ulpExp p emin q * 2 ^ n := by
    rw [← hn, zpow_add₀ (by norm_num), zpow_natCast]
  have hpos : (2 : ℚ) ^ ulpExp p emin q ≠ 0 := (zpow_pos (by norm_num) _).ne'
  have hdiv : q / 2 ^ ulpExp p emin q = ((m * 2 ^ n : ℤ) : ℚ) := by
    rw [div_eq_iff hpos]
    conv_lhs => rw [hq, h2]
    push_cast
    ring
  rw [hdiv, roundHalfEven_intCast]
  conv_rhs => rw [hq, h2]
  push_cast
  ring

theorem ulpExp_ge (p : ℕ) (emin : ℤ) (q : ℚ) : emin ≤ ulpExp p emin q :=
  le_max_right _ _

/-- A float32 value is an integer of magnitude at most 2^24 times its unit in the last
place. -/
theorem float32_mantissa (x : ℚ) :
    ∃ M : ℤ, |M| ≤ 2 ^ 24 ∧ float32 x = M * 2 ^ ulpExp 24 (-149) x := by
  refine ⟨roundHalfEven (x / 2 ^ ulpExp 24 (-149) x), ?_, rfl⟩
  have hpos : (0 : ℚ) < 2 ^ ulpExp 24 (-149) x := zpow_pos (by norm_num) _
  have h := abs_lt_zpow_ulpExp 24 (-149) x
  have : |x / 2 ^ ulpExp 24 (-149) x| < ((2 ^ 24 : ℤ) : ℚ) := by
    rw [abs_div, abs_of_pos hpos, div_lt_iff₀ hpos]
    rw [zpow_add₀ (by norm_num)] at h
    push_cast
    rw [mul_comm]
    exact_mod_cast h
  exact roundHalfEven_abs_le _ _ this

/-- The product `float64(f) * 10` of a float32 value `f` is computed without rounding. -/
theorem float64_float32_mul_ten (x : ℚ) : float64 (float32 x * 10) = float32 x * 10 := by
  obtain ⟨M, hM, hf⟩ := float32_mantissa x
  by_cases h0 : float32 x * 10 = 0
  · rw [h0]; exact roundBinary_zero _ _
  set k := ulpExp 24 (-149) x with hk
  have hq : float32 x * 10 = ((M * 10 : ℤ) : ℚ) * 2 ^ k := by rw [hf]; push_cast; ring
  refine roundBinary_exact 53 (-1074) (M * 10) k _ hq ?_
  unfold ulpExp
  apply max_le
  · have hpos : 0 < |float32 x * 10| := abs_pos.mpr h0
    have hlt : |float32 x * 10| < (2 : ℚ) ^ (k + 28) := by
      rw [hq, abs_mul, abs_of_pos (zpow_pos (by norm_num : (0 : ℚ) < 2) k),
        zpow_add₀ (by norm_num), mul_comm ((2 : ℚ) ^ k)]
      apply mul_lt_mul_of_pos_right _ (zpow_pos (by norm_num) k)
      have : |M * 10| < 2 ^ 28 := by
        rw [abs_mul]; norm_num
        have := hM
        omega
      have h' : ((|M * 10| : ℤ) : ℚ) < ((2 ^ 28 : ℤ) : ℚ) := by exact_mod_cast this
      rw [Int.cast_abs] at h'
      norm_num at h' ⊢
      exact h'
    have := (Int.lt_zpow_iff_log_lt (b := 2) (by norm_num) hpos).mp (by exact_mod_cast hlt)
    push_cast
    omega
  · have := ulpExp_ge 24 (-149) x
    omega

/-- Go `math.Round` of ten times a value, divided by ten, is the rounding to one decimal
place of the specification. -/
theorem math_Round_tenths (y : ℚ) : math.Round (y * 10) / 10 = roundOneDecimal y := by
  unfold math.Round roundOneDecimal
  by_cases hy : 0 ≤ y
  · rw [if_pos (by positivity), if_pos hy]
  · have : ¬ (0 ≤ y * 10) := by
      intro h
      exact hy (by linarith)
    rw [if_neg this, if_neg hy]
    congr 3
    ring_nf

/-- The rounding of the specification returns a multiple of one tenth that is nearest to
its argument, and on a tie the one farther from zero. -/
theorem roundOneDecimal_nearest (x : ℚ) :
    (∃ n : ℤ, roundOneDecimal x = n / 10) ∧ |roundOneDecimal x - x| ≤ 1 / 20 ∧
      (|roundOneDecimal x - x| = 1 / 20 → |x| < |roundOneDecimal x|) := by
  unfold roundOneDecimal
  by_cases hx : 0 ≤ x
  · rw [if_pos hx]
    have h1 := Int.floor_le (x * 10 + 1 / 2)
    have h2 := Int.lt_floor_add_one (x * 10 + 1 / 2)
    set n : ℤ := ⌊x * 10 + 1 / 2⌋
    have hle : x ≤ (n : ℚ) / 10 ∨ (n : ℚ) / 10 < x := le_or_lt _ _
    refine ⟨⟨n, rfl⟩, ?_, ?_⟩
    · rw [abs_le]; constructor <;> linarith
    · intro he
      have hn : (n : ℚ) / 10 - x = 1 / 20 := by
        rcases abs_eq (by norm_num : (0 : ℚ) ≤ 1 / 20) |>.mp he with h | h
        · exact h
        · linarith
      rw [abs_of_nonneg hx, abs_of_nonneg (by linarith)]
      linarith
  · rw [if_neg hx]
    have hx' : x < 0 := lt_of_not_le hx
    have h1 := Int.floor_le (-x * 10 + 1 / 2)
    have h2 := Int.lt_floor_add_one (-x * 10 + 1 / 2)
    set n : ℤ := ⌊-x * 10 + 1 / 2⌋
    refine ⟨⟨-n, by push_cast; ring⟩, ?_, ?_⟩
    · rw [abs_le]; constructor <;> linarith
    · intro he
      have hn : -(n : ℚ) / 10 - x = -(1 / 20) := by
        rcases abs_eq (by norm_num : (0 : ℚ) ≤ 1 / 20) |>.mp he with h | h
        · linarith
        · exact h
      rw [abs_of_neg hx', abs_of_neg (by linarith)]
      linarith

/-- On a float32 value the expression of `traits.go` is the rounding to one decimal place,
stored through float64 and float32. -/
theorem roundTenth_float32 (x : ℚ) :
    roundTenth (float32 x) = float32 (float64 (roundOneDecimal (float32 x))) := by
  unfold roundTenth
  rw [float64_float32_mul_ten, math_Round_tenths]

theorem ParseFloat32_of_le {x : ℚ} (hx : |float32 x| ≤ MaxFloat32) :
    ParseFloat32 x = some (float32 x) := by
  unfold ParseFloat32
  exact if_pos hx

theorem ParseFloat32_of_lt {x : ℚ} (hx : MaxFloat32 < |float32 x|) :
    ParseFloat32 x = none := by
  unfold ParseFloat32
  exact if_neg (not_le.mpr hx)

theorem decodeFloat32_number (cur q : ℚ) :
    decodeFloat32 cur (.number q) = storeFloat32 q := rfl

theorem storeFloat32_of_parse {q f : ℚ} (hx : ParseFloat32 q = some f) :
    storeFloat32 q = .ok f := by
  unfold storeFloat32
  rw [hx]

theorem storeFloat32_of_range {q : ℚ} (hx : ParseFloat32 q = none) :
    storeFloat32 q = .error (.jsonUnmarshalTypeError "number" "float32") := by
  unfold storeFloat32
  rw [hx]

/-! ## Parsing: evaluation lemmas -/

theorem parseTraitName_Temperature :
    parseTraitName "sdm.devices.traits.Temperature" = (true, sdmDevicesTraitsTemperature) := by
  decide

theorem parseTraitName_ThermostatEco :
    parseTraitName "sdm.devices.traits.ThermostatEco"
      = (true, sdmDevicesTraitsThermostatEco) := by
  decide

theorem parseTraitName_Setpoint :
    parseTraitName "sdm.devices.traits.ThermostatTemperatureSetpoint"
      = (true, sdmDevicesTraitsThermostatTemperatureSetpoint) := by
  decide

theorem equalFold_ambientTemperatureCelsius :
    equalFold "ambientTemperatureCelsius" "ambientTemperatureCelsius" = true := by
  decide

theorem equalFold_mode :
    equalFold "mode" "availableModes" = false ∧ equalFold "mode" "mode" = true := by
  decide

theorem equalFold_heatCelsius :
    equalFold "heatCelsius" "availableModes" = false ∧
      equalFold "heatCelsius" "mode" = false ∧
      equalFold "heatCelsius" "heatCelsius" = true := by
  decide

theorem equalFold_coolCelsius :
    equalFold "coolCelsius" "availableModes" = false ∧
      equalFold "coolCelsius" "mode" = false ∧
      equalFold "coolCelsius" "heatCelsius" = false ∧
      equalFold "coolCelsius" "coolCelsius" = true := by
  decide

/-! ## Decoding: what a payload leaves in the fields -/

theorem Except_map_ok {ε α β : Type} {f : α → β} {x : Except ε α} {y : β}
    (h : x.map f = .ok y) : ∃ a, x = .ok a ∧ y = f a := by
  cases x with
  | error e => cases h
  | ok a => exact ⟨a, rfl, by cases h; rfl⟩

/-- A member name that selects another field of the ThermostatEco payload does not select
`mode`. -/
theorem equalFold_mode_of_other (key : String)
    (h : equalFold key "availableModes" = true ∨ equalFold key "heatCelsius" = true ∨
      equalFold key "coolCelsius" = true) :
    equalFold key "mode" = false := by
  unfold equalFold at h ⊢
  simp only [decide_eq_true_eq] at h
  rcases h with h | h | h <;> rw [h] <;> decide

/-- Decoding a ThermostatEco payload leaves in `Mode` the last string value of a `mode`
member, or the value it held. -/
theorem decodeObject_eco_mode (kvs : List (String × Json)) (w : deviceThermostatEco)
    (r : traitsReader) (h : decodeObject kvs (.deviceThermostatEco w) = .ok r) :
    ∃ w', r = .deviceThermostatEco w' ∧
      w'.Mode = kvs.foldl
        (fun cur kv =>
          if equalFold kv.1 "mode" then
            match kv.2 with
            | .string s => s
            | _ => cur
          else cur)
        w.Mode := by
  induction kvs generalizing w with
  | nil =>
    cases h
    exact ⟨w, rfl, rfl⟩
  | cons hd rest ih =>
    obtain ⟨key, v⟩ := hd
    rw [decodeObject] at h
    cases hs : traitsReader.setField (.deviceThermostatEco w) key v with
    | error e => rw [hs] at h; cases h
    | ok d =>
      rw [hs] at h
      simp only [List.foldl_cons]
      simp only [traitsReader.setField] at hs
      by_cases h1 : equalFold key "availableModes" = true
      · rw [if_pos h1] at hs
        obtain ⟨l, _, rfl⟩ := Except_map_ok hs
        obtain ⟨w', hw, hm⟩ := ih _ h
        refine ⟨w', hw, ?_⟩
        rw [hm, equalFold_mode_of_other key (Or.inl h1)]
        simp
      · rw [if_neg h1] at hs
        by_cases h2 : equalFold key "mode" = true
        · rw [if_pos h2] at hs
          obtain ⟨s, hdec, rfl⟩ := Except_map_ok hs
          obtain ⟨w', hw, hm⟩ := ih _ h
          refine ⟨w', hw, ?_⟩
          rw [hm, h2]
          cases v <;> simp [decodeString] at hdec <;> simp [hdec]
        · rw [if_neg h2] at hs
          have h2' : equalFold key "mode" = false := by simpa using h2
          by_cases h3 : equalFold key "heatCelsius" = true
          · rw [if_pos h3] at hs
            obtain ⟨x, _, rfl⟩ := Except_map_ok hs
            obtain ⟨w', hw, hm⟩ := ih _ h
            refine ⟨w', hw, ?_⟩
            rw [hm, h2']
            simp
          · rw [if_neg h3] at hs
            by_cases h4 : equalFold key "coolCelsius" = true
            · rw [if_pos h4] at hs
              obtain ⟨x, _, rfl⟩ := Except_map_ok hs
              obtain ⟨w', hw, hm⟩ := ih _ h
              refine ⟨w', hw, ?_⟩
              rw [hm, h2']
              simp
            · rw [if_neg h4] at hs
              cases hs
              obtain ⟨w', hw, hm⟩ := ih _ h
              refine ⟨w', hw, ?_⟩
              rw [hm, h2']
              simp

/-! ## C5: the ambient temperature is not rounded -/

/-- C5 as stated fails. The payload with ambientTemperatureCelsius 21.26 parses and
translates to a single temperature entry with unit "C" whose value is the float32 nearest
to 21.26 (11146363 / 2^19), which is neither 21.3, the payload rounded to one decimal
place, nor the float32 nearest to 21.3. -/
theorem temperature_state_one_decimal_counterexample :
    Traits.Parse (fun _ => none) NewTraits
        (some (.object [("sdm.devices.traits.Temperature",
          .object [("ambientTemperatureCelsius", .number (2126 / 100))])]))
      = .ok ⟨[(sdmDevicesTraitsTemperature, .temperature ⟨11146363 / 524288⟩)]⟩ ∧
    (DeviceTemperatureTraits.mk (11146363 / 524288)).ToSmartthingsState
        ⟨[(sdmDevicesTraitsTemperature, .temperature ⟨11146363 / 524288⟩)]⟩
      = .ok
        [ { Component := "main", Capability := "st.temperatureMeasurement",
            Attribute := "temperature", Value := .float32 (11146363 / 524288),
            AdditionalProperties := [("unit", "C")] } ] ∧
    roundOneDecimal (2126 / 100) = 213 / 10 ∧
    (11146363 / 524288 : ℚ) ≠ 213 / 10 ∧
    (11146363 / 524288 : ℚ) ≠ float32 (213 / 10) := by
  refine ⟨by decide!, rfl, by decide!, by decide!, by decide!⟩

/-- C5, amended. For every Temperature payload whose ambientTemperatureCelsius x lies in
the float32 range, parsing into a fresh trait set stores the float32 nearest to x, and the
translation yields exactly one entry (main, st.temperatureMeasurement, temperature) with
that unrounded value and unit "C"; a value outside the float32 range makes the parse fail
with a decoding error. -/
theorem temperature_state_nearest_float32 (timeParse : String → Option Time) (x : ℚ) :
    (|float32 x| ≤ MaxFloat32 →
      Traits.Parse timeParse NewTraits
          (some (.object [("sdm.devices.traits.Temperature",
            .object [("ambientTemperatureCelsius", .number x)])]))
        = .ok ⟨[(sdmDevicesTraitsTemperature, .temperature ⟨float32 x⟩)]⟩ ∧
      (DeviceTemperatureTraits.mk (float32 x)).ToSmartthingsState
          ⟨[(sdmDevicesTraitsTemperature, .temperature ⟨float32 x⟩)]⟩
        = .ok
          [ { Component := "main", Capability := "st.temperatureMeasurement",
              Attribute := "temperature", Value := .float32 (float32 x),
              AdditionalProperties := [("unit", "C")] } ]) ∧
    (MaxFloat32 < |float32 x| →
      Traits.Parse timeParse NewTraits
          (some (.object [("sdm.devices.traits.Temperature",
            .object [("ambientTemperatureCelsius", .number x)])]))
        = .error (.jsonUnmarshalTypeError "number" "float32")) := by
  constructor
  · intro hx
    refine ⟨?_, rfl⟩
    simp only [Traits.Parse, unmarshalRawMap, List.foldl, mapSet]
    simp only [Traits.parseLoop, parseTraitName_Temperature]
    simp only [newDecoded]
    simp only [jsonUnmarshal, decodeObject, traitsReader.setField,
      equalFold_ambientTemperatureCelsius]
    rw [decodeFloat32_number, storeFloat32_of_parse (ParseFloat32_of_le hx)]
    simp only [Except.map, if_true]
    simp only [traitsReader.Unmarshal, DeviceTemperatureTraits.Unmarshal, NewTraits, mapSet]
  · intro hx
    simp only [Traits.Parse, unmarshalRawMap, List.foldl, mapSet]
    simp only [Traits.parseLoop, parseTraitName_Temperature]
    simp only [newDecoded]
    simp only [jsonUnmarshal, decodeObject, traitsReader.setField,
      equalFold_ambientTemperatureCelsius]
    rw [decodeFloat32_number, storeFloat32_of_range (ParseFloat32_of_lt hx)]
    simp only [Except.map, if_true]

/-- Witness for C5, amended: the payload 21.26 is in range and is stored and reported as
the float32 nearest to 21.26. -/
theorem temperature_state_nearest_float32_witness :
    |float32 (2126 / 100)| ≤ MaxFloat32 ∧
    float32 (2126 / 100) = 11146363 / 524288 ∧
    Traits.Parse (fun _ => none) NewTraits
        (some (.object [("sdm.devices.traits.Temperature",
          .object [("ambientTemperatureCelsius", .number (2126 / 100))])]))
      = .ok ⟨[(sdmDevicesTraitsTemperature, .temperature ⟨float32 (2126 / 100)⟩)]⟩ :=
  ⟨by decide!, by decide!,
    ((temperature_state_nearest_float32 (fun _ => none) (2126 / 100)).1 (by decide!)).1⟩

/-! ## C6: setpoints are rounded from their float32 value -/

/-- C6 as stated fails. The payload values 20.05 and -20.05 lie exactly halfway between two
tenths, and rounding them to one decimal place away from zero gives 20.1 and -20.1; the
parsed ThermostatEco and ThermostatTemperatureSetpoint traits hold 20 and -20, which are
neither 20.1 and -20.1 nor the float32 values nearest to them. -/
theorem setpoint_half_tenth_counterexample :
    Traits.Parse (fun _ => none) NewTraits
        (some (.object [("sdm.devices.traits.ThermostatEco",
          .object [("mode", .string "MANUAL_ECO"), ("heatCelsius", .number (2005 / 100)),
            ("coolCelsius", .number (-2005 / 100))])]))
      = .ok ⟨[(sdmDevicesTraitsThermostatEco, .thermostatEco ⟨true, 20, -20⟩)]⟩ ∧
    Traits.Parse (fun _ => none) NewTraits
        (some (.object [("sdm.devices.traits.ThermostatTemperatureSetpoint",
          .object [("heatCelsius", .number (2005 / 100)),
            ("coolCelsius", .number (-2005 / 100))])]))
      = .ok ⟨[(sdmDevicesTraitsThermostatTemperatureSetpoint,
          .temperatureSetpoint ⟨20, -20⟩)]⟩ ∧
    roundOneDecimal (2005 / 100) = 201 / 10 ∧
    roundOneDecimal (-2005 / 100) = -201 / 10 ∧
    (20 : ℚ) ≠ 201 / 10 ∧ (20 : ℚ) ≠ float32 (201 / 10) ∧
    (-20 : ℚ) ≠ -201 / 10 ∧ (-20 : ℚ) ≠ float32 (-201 / 10) := by
  refine ⟨by decide!, by decide!, by decide!, by decide!, by decide!, by decide!,
    by decide!, by decide!⟩

/-- A member name that selects `availableModes` or `mode` selects neither `heatCelsius`
nor `coolCelsius`, and one that selects `heatCelsius` does not select `coolCelsius`. -/
theorem equalFold_celsius_of_other (key : String) :
    (equalFold key "availableModes" = true ∨ equalFold key "mode" = true →
      equalFold key "heatCelsius" = false ∧ equalFold key "coolCelsius" = false) ∧
    (equalFold key "heatCelsius" = true → equalFold key "coolCelsius" = false) := by
  unfold equalFold
  simp only [decide_eq_true_eq]
  refine ⟨?_, ?_⟩
  · rintro (h | h) <;> rw [h] <;> decide
  · intro h
    rw [h]
    decide

/-- A number that decodes into a float32 field is stored as the float32 nearest to it, and
`null` leaves the field as it is. -/
theorem decodeFloat32_ok (cur x : ℚ) (v : Json) :
    decodeFloat32 cur v = .ok x →
      x = (match v with
        | .number q => float32 q
        | _ => cur) := by
  intro h
  cases v with
  | number q =>
    rw [decodeFloat32_number] at h
    unfold storeFloat32 ParseFloat32 at h
    split at h
    · rename_i f hf
      split at hf
      · cases hf
        cases h
        rfl
      · cases hf
    · cases h
  | null => cases h; rfl
  | bool b => cases h
  | string s => cases h
  | array l => cases h
  | object l => cases h

/-- Decoding a ThermostatEco payload leaves in `HeatCelsius` and `CoolCelsius` the float32
nearest to the last number of the member of that name, or the value the field held. -/
theorem decodeObject_eco_celsius (kvs : List (String × Json)) (w : deviceThermostatEco)
    (r : traitsReader) (h : decodeObject kvs (.deviceThermostatEco w) = .ok r) :
    ∃ w', r = .deviceThermostatEco w' ∧
      w'.HeatCelsius = kvs.foldl
        (fun cur kv =>
          if equalFold kv.1 "heatCelsius" then
            match kv.2 with
            | .number q => float32 q
            | _ => cur
          else cur)
        w.HeatCelsius ∧
      w'.CoolCelsius = kvs.foldl
        (fun cur kv =>
          if equalFold kv.1 "coolCelsius" then
            match kv.2 with
            | .number q => float32 q
            | _ => cur
          else cur)
        w.CoolCelsius := by
  induction kvs generalizing w with
  | nil =>
    cases h
    exact ⟨w, rfl, rfl, rfl⟩
  | cons hd rest ih =>
    obtain ⟨key, v⟩ := hd
    rw [decodeObject] at h
    cases hs : traitsReader.setField (.deviceThermostatEco w) key v with
    | error e => rw [hs] at h; cases h
    | ok d =>
      rw [hs] at h
      simp only [List.foldl_cons]
      simp only [traitsReader.setField] at hs
      by_cases h1 : equalFold key "availableModes" = true
      · rw [if_pos h1] at hs
        obtain ⟨l, _, rfl⟩ := Except_map_ok hs
        obtain ⟨w', hw, hh, hc⟩ := ih _ h
        obtain ⟨e1, e2⟩ := (equalFold_celsius_of_other key).1 (Or.inl h1)
        refine ⟨w', hw, ?_, ?_⟩
        · rw [hh, e1]; simp
        · rw [hc, e2]; simp
      · rw [if_neg h1] at hs
        by_cases h2 : equalFold key "mode" = true
        · rw [if_pos h2] at hs
          obtain ⟨s, _, rfl⟩ := Except_map_ok hs
          obtain ⟨w', hw, hh, hc⟩ := ih _ h
          obtain ⟨e1, e2⟩ := (equalFold_celsius_of_other key).1 (Or.inr h2)
          refine ⟨w', hw, ?_, ?_⟩
          · rw [hh, e1]; simp
          · rw [hc, e2]; simp
        · rw [if_neg h2] at hs
          by_cases h3 : equalFold key "heatCelsius" = true
          · rw [if_pos h3] at hs
            obtain ⟨x, hdec, rfl⟩ := Except_map_ok hs
            obtain ⟨w', hw, hh, hc⟩ := ih _ h
            have e2 := (equalFold_celsius_of_other key).2 h3
            refine ⟨w', hw, ?_, ?_⟩
            · rw [hh, h3, decodeFloat32_ok _ _ _ hdec]; simp
            · rw [hc, e2]; simp
          · rw [if_neg h3] at hs
            have h3' : equalFold key "heatCelsius" = false := by simpa using h3
            by_cases h4 : equalFold key "coolCelsius" = true
            · rw [if_pos h4] at hs
              obtain ⟨x, hdec, rfl⟩ := Except_map_ok hs
              obtain ⟨w', hw, hh, hc⟩ := ih _ h
              refine ⟨w', hw, ?_, ?_⟩
              · rw [hh, h3']; simp
              · rw [hc, h4, decodeFloat32_ok _ _ _ hdec]; simp
            · rw [if_neg h4] at hs
              have h4' : equalFold key "coolCelsius" = false := by simpa using h4
              cases hs
              obtain ⟨w', hw, hh, hc⟩ := ih _ h
              refine ⟨w', hw, ?_, ?_⟩
              · rw [hh, h3']; simp
              · rw [hc, h4']; simp

/-- Decoding a ThermostatTemperatureSetpoint payload leaves in `HeatCelsius` and
`CoolCelsius` the float32 nearest to the last number of the member of that name, or the
value the field held. -/
theorem decodeObject_setpoint_celsius (kvs : List (String × Json))
    (w : DeviceThermostatTemperatureSetpoint) (r : traitsReader)
    (h : decodeObject kvs (.DeviceThermostatTemperatureSetpoint w) = .ok r) :
    ∃ w', r = .DeviceThermostatTemperatureSetpoint w' ∧
      w'.HeatCelsius = kvs.foldl
        (fun cur kv =>
          if equalFold kv.1 "heatCelsius" then
            match kv.2 with
            | .number q => float32 q
            | _ => cur
          else cur)
        w.HeatCelsius ∧
      w'.CoolCelsius = kvs.foldl
        (fun cur kv =>
          if equalFold kv.1 "coolCelsius" then
            match kv.2 with
            | .number q => float32 q
            | _ => cur
          else cur)
        w.CoolCelsius := by
  induction kvs generalizing w with
  | nil =>
    cases h
    exact ⟨w, rfl, rfl, rfl⟩
  | cons hd rest ih =>
    obtain ⟨key, v⟩ := hd
    rw [decodeObject] at h
    cases hs : traitsReader.setField (.DeviceThermostatTemperatureSetpoint w) key v with
    | error e => rw [hs] at h; cases h
    | ok d =>
      rw [hs] at h
      simp only [List.foldl_cons]
      simp only [traitsReader.setField] at hs
      by_cases h3 : equalFold key "heatCelsius" = true
      · rw [if_pos h3] at hs
        obtain ⟨x, hdec, rfl⟩ := Except_map_ok hs
        obtain ⟨w', hw, hh, hc⟩ := ih _ h
        have e2 := (equalFold_celsius_of_other key).2 h3
        refine ⟨w', hw, ?_, ?_⟩
        · rw [hh, h3, decodeFloat32_ok _ _ _ hdec]; simp
        · rw [hc, e2]; simp
      · rw [if_neg h3] at hs
        have h3' : equalFold key "heatCelsius" = false := by simpa using h3
        by_cases h4 : equalFold key "coolCelsius" = true
        · rw [if_pos h4] at hs
          obtain ⟨x, hdec, rfl⟩ := Except_map_ok hs
          obtain ⟨w', hw, hh, hc⟩ := ih _ h
          refine ⟨w', hw, ?_, ?_⟩
          · rw [hh, h3']; simp
          · rw [hc, h4, decodeFloat32_ok _ _ _ hdec]; simp
        · rw [if_neg h4] at hs
          have h4' : equalFold key "coolCelsius" = false := by simpa using h4
          cases hs
          obtain ⟨w', hw, hh, hc⟩ := ih _ h
          refine ⟨w', hw, ?_, ?_⟩
          · rw [hh, h3']; simp
          · rw [hc, h4']; simp

/-- The number that a payload carries for a float32 member is a float32 value. -/
theorem payloadFloat32_is_float32 (field : String) (kvs : List (String × Json)) :
    ∃ x : ℚ, payloadFloat32 field kvs = float32 x := by
  unfold payloadFloat32
  have h0 : ∃ x : ℚ, (0 : ℚ) = float32 x := ⟨0, (roundBinary_zero _ _).symm⟩
  revert h0
  generalize (0 : ℚ) = cur
  induction kvs generalizing cur with
  | nil => exact fun h => h
  | cons hd rest ih =>
    intro hcur
    simp only [List.foldl_cons]
    apply ih
    split
    · split
      · exact ⟨_, rfl⟩
      · exact hcur
    · exact hcur

/-- On the number that a payload carries, the expression of `traits.go` is the rounding to
one decimal place, stored through float64 and float32. -/
theorem roundTenth_payloadFloat32 (field : String) (kvs : List (String × Json)) :
    roundTenth (payloadFloat32 field kvs)
      = float32 (float64 (roundOneDecimal (payloadFloat32 field kvs))) := by
  obtain ⟨x, hx⟩ := payloadFloat32_is_float32 field kvs
  rw [hx]
  exact roundTenth_float32 x

/-- C6, amended. For every ThermostatEco payload and every ThermostatTemperatureSetpoint
payload that decodes, whatever members it has and in whatever order, the stored
heatCelsius and coolCelsius are obtained from the float32 nearest to the payload value (not
from the payload value itself): that float32 value is rounded to one decimal place, a value
exactly halfway between two tenths going away from zero, and the result is stored as a
float32 (through float64). -/
theorem setpoint_payload_rounds_float32_value (timeParse : String → Option Time)
    (kvs : List (String × Json)) :
    (∀ r : traitsReader,
      decodeObject kvs
        (.deviceThermostatEco
          { AvailableModes := [], Mode := "", HeatCelsius := 0, CoolCelsius := 0 }) = .ok r →
      Traits.Parse timeParse NewTraits
          (some (.object [("sdm.devices.traits.ThermostatEco", .object kvs)]))
        = .ok ⟨[(sdmDevicesTraitsThermostatEco, .thermostatEco
            ⟨decide (ecoPayloadMode kvs ≠ "OFF"),
              float32 (float64 (roundOneDecimal (payloadFloat32 "heatCelsius" kvs))),
              float32 (float64 (roundOneDecimal (payloadFloat32 "coolCelsius" kvs)))⟩)]⟩) ∧
    (∀ r : traitsReader,
      decodeObject kvs
        (.DeviceThermostatTemperatureSetpoint { HeatCelsius := 0, CoolCelsius := 0 }) = .ok r →
      Traits.Parse timeParse NewTraits
          (some (.object [("sdm.devices.traits.ThermostatTemperatureSetpoint", .object kvs)]))
        = .ok ⟨[(sdmDevicesTraitsThermostatTemperatureSetpoint, .temperatureSetpoint
            ⟨float32 (float64 (roundOneDecimal (payloadFloat32 "heatCelsius" kvs))),
              float32 (float64 (roundOneDecimal (payloadFloat32 "coolCelsius" kvs)))⟩)]⟩) := by
  constructor
  · intro r hdec
    obtain ⟨w, rfl, hheat, hcool⟩ := decodeObject_eco_celsius kvs _ r hdec
    obtain ⟨w2, hw2, hmode⟩ := decodeObject_eco_mode kvs _ _ hdec
    cases hw2
    have hheat' : w.HeatCelsius = payloadFloat32 "heatCelsius" kvs := hheat
    have hcool' : w.CoolCelsius = payloadFloat32 "coolCelsius" kvs := hcool
    have hmode' : w.Mode = ecoPayloadMode kvs := hmode
    simp only [Traits.Parse, unmarshalRawMap, List.foldl, mapSet]
    simp only [Traits.parseLoop, parseTraitName_ThermostatEco]
    simp only [newDecoded]
    simp only [jsonUnmarshal, hdec, Except.map]
    simp only [traitsReader.Unmarshal, deviceThermostatEco.Unmarshal, NewTraits, mapSet,
      hheat', hcool', hmode', roundTenth_payloadFloat32]
    by_cases hm : ecoPayloadMode kvs = "OFF" <;> simp [hm]
  · intro r hdec
    obtain ⟨w, rfl, hheat, hcool⟩ := decodeObject_setpoint_celsius kvs _ r hdec
    have hheat' : w.HeatCelsius = payloadFloat32 "heatCelsius" kvs := hheat
    have hcool' : w.CoolCelsius = payloadFloat32 "coolCelsius" kvs := hcool
    simp only [Traits.Parse, unmarshalRawMap, List.foldl, mapSet]
    simp only [Traits.parseLoop, parseTraitName_Setpoint]
    simp only [newDecoded]
    simp only [jsonUnmarshal, hdec, Except.map]
    simp only [traitsReader.Unmarshal, DeviceThermostatTemperatureSetpoint.Unmarshal,
      NewTraits, mapSet, hheat', hcool', roundTenth_payloadFloat32]

/-- Witness for C6, amended: a ThermostatEco payload as the provider sends it, with the
`availableModes` member, and a setpoint payload with a member that selects no field, both
decode; 20.05 and -20.05 are carried as their float32 neighbours, which lie on the inner
side of the halfway point, and are stored as 20 and -20. -/
theorem setpoint_payload_rounds_float32_value_witness :
    decodeObject
        [("availableModes", .array [.string "OFF", .string "MANUAL_ECO"]),
          ("mode", .string "MANUAL_ECO"), ("heatCelsius", .number (2005 / 100)),
          ("coolCelsius", .number (-2005 / 100))]
        (.deviceThermostatEco
          { AvailableModes := [], Mode := "", HeatCelsius := 0, CoolCelsius := 0 })
      = .ok (.deviceThermostatEco
          { AvailableModes := ["OFF", "MANUAL_ECO"], Mode := "MANUAL_ECO",
            HeatCelsius := float32 (2005 / 100), CoolCelsius := float32 (-2005 / 100) }) ∧
    payloadFloat32 "heatCelsius"
        [("availableModes", .array [.string "OFF", .string "MANUAL_ECO"]),
          ("mode", .string "MANUAL_ECO"), ("heatCelsius", .number (2005 / 100)),
          ("coolCelsius", .number (-2005 / 100))]
      = float32 (2005 / 100) ∧
    float32 (2005 / 100) < 2005 / 100 ∧
    float32 (float64 (roundOneDecimal (float32 (2005 / 100)))) = 20 ∧
    float32 (float64 (roundOneDecimal (float32 (-2005 / 100)))) = -20 ∧
    Traits.Parse (fun _ => none) NewTraits
        (some (.object [("sdm.devices.traits.ThermostatEco",
          .object
            [("availableModes", .array [.string "OFF", .string "MANUAL_ECO"]),
              ("mode", .string "MANUAL_ECO"), ("heatCelsius", .number (2005 / 100)),
              ("coolCelsius", .number (-2005 / 100))])]))
      = .ok ⟨[(sdmDevicesTraitsThermostatEco, .thermostatEco
          ⟨decide (ecoPayloadMode
              [("availableModes", .array [.string "OFF", .string "MANUAL_ECO"]),
                ("mode", .string "MANUAL_ECO"), ("heatCelsius", .number (2005 / 100)),
                ("coolCelsius", .number (-2005 / 100))] ≠ "OFF"),
            float32 (float64 (roundOneDecimal (payloadFloat32 "heatCelsius"
              [("availableModes", .array [.string "OFF", .string "MANUAL_ECO"]),
                ("mode", .string "MANUAL_ECO"), ("heatCelsius", .number (2005 / 100)),
                ("coolCelsius", .number (-2005 / 100))]))),
            float32 (float64 (roundOneDecimal (payloadFloat32 "coolCelsius"
              [("availableModes", .array [.string "OFF", .string "MANUAL_ECO"]),
                ("mode", .string "MANUAL_ECO"), ("heatCelsius", .number (2005 / 100)),
                ("coolCelsius", .number (-2005 / 100))])))⟩)]⟩ ∧
    Traits.Parse (fun _ => none) NewTraits
        (some (.object [("sdm.devices.traits.ThermostatTemperatureSetpoint",
          .object
            [("coolCelsius", .number (-2005 / 100)), ("unit", .string "C"),
              ("heatCelsius", .number (2005 / 100))])]))
      = .ok ⟨[(sdmDevicesTraitsThermostatTemperatureSetpoint, .temperatureSetpoint
          ⟨float32 (float64 (roundOneDecimal (payloadFloat32 "heatCelsius"
              [("coolCelsius", .number (-2005 / 100)), ("unit", .string "C"),
                ("heatCelsius", .number (2005 / 100))]))),
            float32 (float64 (roundOneDecimal (payloadFloat32 "coolCelsius"
              [("coolCelsius", .number (-2005 / 100)), ("unit", .string "C"),
                ("heatCelsius", .number (2005 / 100))])))⟩)]⟩ := by
  have h1 : storeFloat32 (2005 / 100) = .ok (float32 (2005 / 100)) :=
    storeFloat32_of_parse (ParseFloat32_of_le (by decide!))
  have h2 : storeFloat32 (-2005 / 100) = .ok (float32 (-2005 / 100)) :=
    storeFloat32_of_parse (ParseFloat32_of_le (by decide!))
  have hA : equalFold "availableModes" "availableModes" = true := by decide
  have hU : equalFold "unit" "heatCelsius" = false ∧ equalFold "unit" "coolCelsius" = false := by
    decide
  have hdec : decodeObject
      [("availableModes", .array [.string "OFF", .string "MANUAL_ECO"]),
        ("mode", .string "MANUAL_ECO"), ("heatCelsius", .number (2005 / 100)),
        ("coolCelsius", .number (-2005 / 100))]
      (.deviceThermostatEco
        { AvailableModes := [], Mode := "", HeatCelsius := 0, CoolCelsius := 0 })
      = .ok (.deviceThermostatEco
        { AvailableModes := ["OFF", "MANUAL_ECO"], Mode := "MANUAL_ECO",
          HeatCelsius := float32 (2005 / 100), CoolCelsius := float32 (-2005 / 100) }) := by
    simp only [decodeObject, traitsReader.setField, hA, equalFold_mode, equalFold_heatCelsius,
      equalFold_coolCelsius, decodeStringSlice, decodeStringElems, decodeString,
      decodeFloat32_number, h1, h2, Except.map, if_true, if_false, Bool.false_eq_true]
  have hdec2 : decodeObject
      [("coolCelsius", .number (-2005 / 100)), ("unit", .string "C"),
        ("heatCelsius", .number (2005 / 100))]
      (.DeviceThermostatTemperatureSetpoint { HeatCelsius := 0, CoolCelsius := 0 })
      = .ok (.DeviceThermostatTemperatureSetpoint
        { HeatCelsius := float32 (2005 / 100), CoolCelsius := float32 (-2005 / 100) }) := by
    simp only [decodeObject, traitsReader.setField, hU, equalFold_heatCelsius,
      equalFold_coolCelsius, decodeFloat32_number, h1, h2, Except.map, if_true, if_false,
      Bool.false_eq_true]
  exact ⟨hdec, by decide!, by decide!, by decide!, by decide!,
    (setpoint_payload_rounds_float32_value (fun _ => none) _).1 _ hdec,
    (setpoint_payload_rounds_float32_value (fun _ => none) _).2 _ hdec2⟩

/-- Values whose float32 form is exactly halfway between two tenths are rounded away from
zero: 0.25 is stored as the float32 nearest to 0.3 and -0.25 as the one nearest to -0.3. -/
theorem setpoint_exact_half_rounds_away :
    Traits.Parse (fun _ => none) NewTraits
        (some (.object [("sdm.devices.traits.ThermostatTemperatureSetpoint",
          .object [("heatCelsius", .number (25 / 100)),
            ("coolCelsius", .number (-25 / 100))])]))
      = .ok ⟨[(sdmDevicesTraitsThermostatTemperatureSetpoint,
          .temperatureSetpoint ⟨float32 (3 / 10), float32 (-3 / 10)⟩)]⟩ := by
  decide!

/-! ## C7: unrecognised trait names are skipped -/

theorem mapSet_filter {κ ν : Type} [DecidableEq κ] (p : κ → Bool) (m : List (κ × ν))
    (k : κ) (v : ν) :
    (mapSet m k v).filter (fun kv => p kv.1) =
      if p k then mapSet (m.filter (fun kv => p kv.1)) k v
      else m.filter (fun kv => p kv.1) := by
  induction m with
  | nil => by_cases hk : p k <;> simp [mapSet, hk]
  | cons hd rest ih =>
    obtain ⟨k', v'⟩ := hd
    by_cases hkk : k' = k
    · subst hkk
      by_cases hk : p k' <;> simp [mapSet, hk]
    · by_cases hk' : p k' <;> by_cases hk : p k <;> simp [mapSet, hkk, hk, hk', ih]

theorem foldl_mapSet_filter {κ ν : Type} [DecidableEq κ] (p : κ → Bool)
    (kvs acc : List (κ × ν)) :
    (kvs.foldl (fun m kv => mapSet m kv.1 kv.2) acc).filter (fun kv => p kv.1) =
      (kvs.filter (fun kv => p kv.1)).foldl (fun m kv => mapSet m kv.1 kv.2)
        (acc.filter (fun kv => p kv.1)) := by
  induction kvs generalizing acc with
  | nil => rfl
  | cons hd rest ih =>
    rw [List.foldl_cons, ih, mapSet_filter]
    by_cases hk : p hd.1 <;> simp [hk]

/-- The loop of `Parse` gives the same outcome on a raw map and on that map without the
entries whose name is not recognised. -/
theorem parseLoop_filter (timeParse : String → Option Time) (t : Traits)
    (m : List (String × Json)) :
    Traits.parseLoop timeParse t (m.filter (fun kv => (parseTraitName kv.1).1)) =
      Traits.parseLoop timeParse t m := by
  induction m generalizing t with
  | nil => rfl
  | cons hd rest ih =>
    obtain ⟨name, v⟩ := hd
    rcases hp : parseTraitName name with ⟨_ | _, id⟩
    · rw [List.filter_cons_of_neg (by simp [hp])]
      rw [Traits.parseLoop, hp]
      exact ih t
    · rw [List.filter_cons_of_pos (by simp [hp])]
      rw [Traits.parseLoop, Traits.parseLoop, hp]
      simp only
      cases newDecoded id with
      | none => exact ih t
      | some decoded =>
        simp only
        cases jsonUnmarshal v decoded with
        | error e => rfl
        | ok r =>
          cases r with
          | none => rfl
          | some d => exact ih _

/-- C7. Unrecognised names. For every JSON object of trait name to raw value and every
receiving trait set, `Parse` has the same outcome on the object and on the object with the
entries removed whose name is not one of the twelve names of `traitNames`: it succeeds on
one exactly when it succeeds on the other, with the same trait set (same identifiers, same
values), and it fails on one exactly when it fails on the other, in the same way. -/
theorem parse_ignores_unrecognised_names (timeParse : String → Option Time) (t : Traits)
    (kvs : List (String × Json)) :
    Traits.Parse timeParse t (some (.object kvs)) =
      Traits.Parse timeParse t
        (some (.object (kvs.filter (fun kv => (parseTraitName kv.1).1)))) := by
  simp only [Traits.Parse, unmarshalRawMap]
  rw [← parseLoop_filter timeParse t (kvs.foldl _ _)]
  rw [foldl_mapSet_filter (fun k => (parseTraitName k).1)]
  rw [List.filter_nil]

/-- An object made only of unrecognised names parses to the unchanged trait set. -/
theorem parse_unrecognised_only :
    Traits.Parse (fun _ => none) NewTraits
        (some (.object [("sdm.devices.traits.CameraLiveStream", .string "not an object"),
          ("sdm.devices.traits.temperature", .null)]))
      = .ok NewTraits := by
  decide

/-! ## C8: undecodable values of recognised traits -/

theorem jsonUnmarshal_eq_none {v : Json} {decoded : traitsReader}
    (h : jsonUnmarshal v decoded = .ok none) : v = .null := by
  cases v with
  | null => rfl
  | object kvs =>
    simp only [jsonUnmarshal] at h
    cases hd : decodeObject kvs decoded with
    | error e => rw [hd] at h; cases h
    | ok d => rw [hd] at h; cases h
  | bool b => cases h
  | number q => cases h
  | string s => cases h
  | array xs => cases h

/-- An entry with a recognised name whose value cannot be decoded is never skipped: the
loop of `Parse` does not succeed.  It returns an error, unless an entry with a recognised
name and the value `null` makes it abort first. -/
theorem parseLoop_undecodable_entry (timeParse : String → Option Time)
    (m : List (String × Json)) (name : String) (v : Json) (id : traitID)
    (decoded : traitsReader) (e : GoError) (hmem : (name, v) ∈ m)
    (hn : parseTraitName name = (true, id)) (hd : newDecoded id = some decoded)
    (hj : jsonUnmarshal v decoded = .error e) (t : Traits) :
    (∃ e', Traits.parseLoop timeParse t m = .error e') ∨
      (Traits.parseLoop timeParse t m = .panic .nilDereference ∧
        ∃ kv ∈ m, (parseTraitName kv.1).1 = true ∧ kv.2 = .null) := by
  induction m generalizing t with
  | nil => cases hmem
  | cons hd' rest ih =>
    obtain ⟨name', v'⟩ := hd'
    have step : ∀ t', (∃ e', Traits.parseLoop timeParse t' rest = .error e') ∨
        (Traits.parseLoop timeParse t' rest = .panic .nilDereference ∧
          ∃ kv ∈ rest, (parseTraitName kv.1).1 = true ∧ kv.2 = .null) →
        (∃ e', Traits.parseLoop timeParse t' rest = .error e') ∨
        (Traits.parseLoop timeParse t' rest = .panic .nilDereference ∧
          ∃ kv ∈ (name', v') :: rest, (parseTraitName kv.1).1 = true ∧ kv.2 = .null) := by
      intro t' h
      rcases h with h | ⟨h, kv, hkv, hk⟩
      · exact Or.inl h
      · exact Or.inr ⟨h, kv, List.mem_cons_of_mem _ hkv, hk⟩
    rcases List.mem_cons.mp hmem with heq | hrest
    · cases heq
      rw [Traits.parseLoop, hn]
      simp only [hd, hj]
      exact Or.inl ⟨e, rfl⟩
    · rw [Traits.parseLoop]
      rcases hp : parseTraitName name' with ⟨_ | _, id'⟩
      · exact step t (ih hrest t)
      · simp only
        cases hnd : newDecoded id' with
        | none => exact step t (ih hrest t)
        | some decoded' =>
          simp only
          cases hju : jsonUnmarshal v' decoded' with
          | error e' => exact Or.inl ⟨e', rfl⟩
          | ok r =>
            cases r with
            | none =>
              refine Or.inr ⟨rfl, (name', v'), List.mem_cons_self _ _, ?_, ?_⟩
              · rw [hp]
              · exact jsonUnmarshal_eq_none hju
            | some d => exact step _ (ih hrest _)

/-- C8 at the failing input. A string where the Temperature object is expected, and a
string where its number member is expected, each make `Parse` return an error; but when the
payload also carries a recognised trait whose value is `null` and that entry is visited
first, `Parse` aborts with a nil dereference instead of returning the error. -/
theorem parse_null_entry_aborts :
    Traits.Parse (fun _ => none) NewTraits
        (some (.object [("sdm.devices.traits.Temperature", .string "x")]))
      = .error (.jsonUnmarshalTypeError "string" "sdmapi.DeviceTemperatureTraits") ∧
    Traits.Parse (fun _ => none) NewTraits
        (some (.object [("sdm.devices.traits.Temperature",
          .object [("ambientTemperatureCelsius", .string "x")])]))
      = .error (.jsonUnmarshalTypeError "string" "float32") ∧
    Traits.Parse (fun _ => none) NewTraits
        (some (.object [("sdm.devices.traits.Fan", .null),
          ("sdm.devices.traits.Temperature", .string "x")]))
      = .panic .nilDereference ∧
    Traits.Parse (fun _ => none) NewTraits
        (some (.object [("sdm.devices.traits.Fan", .null)]))
      = .panic .nilDereference := by
  refine ⟨by decide, by decide, by decide, by decide⟩

/-! ## Command translation -/

/-- C9. Thermostat mode commands. On capability st.thermostatMode, whatever the command
and component members, the argument list ["eco"] yields exactly one command,
ThermostatEco.SetMode with mode MANUAL_ECO, and ["off"], ["heat"], ["cool"], ["auto"]
yield exactly two commands in this order: ThermostatEco.SetMode with mode OFF, then
ThermostatMode.SetMode with mode OFF, HEAT, COOL, HEATCOOL respectively. -/
theorem thermostatMode_command_translation (cmd comp : Option String) :
    StCommandToSdmCommands
        { Capability := some "st.thermostatMode", Arguments := [.string "eco"],
          Command := cmd, Component := comp }
      = .ok [ .thermostatEco
          { command := { command := "sdm.devices.commands.ThermostatEco.SetMode" },
            Mode := "MANUAL_ECO" } ] ∧
    StCommandToSdmCommands
        { Capability := some "st.thermostatMode", Arguments := [.string "off"],
          Command := cmd, Component := comp }
      = .ok [ .thermostatEco
          { command := { command := "sdm.devices.commands.ThermostatEco.SetMode" },
            Mode := "OFF" },
        .thermostatMode
          { command := { command := "sdm.devices.commands.ThermostatMode.SetMode" },
            Mode := "OFF" } ] ∧
    StCommandToSdmCommands
        { Capability := some "st.thermostatMode", Arguments := [.string "heat"],
          Command := cmd, Component := comp }
      = .ok [ .thermostatEco
          { command := { command := "sdm.devices.commands.ThermostatEco.SetMode" },
            Mode := "OFF" },
        .thermostatMode
          { command := { command := "sdm.devices.commands.ThermostatMode.SetMode" },
            Mode := "HEAT" } ] ∧
    StCommandToSdmCommands
        { Capability := some "st.thermostatMode", Arguments := [.string "cool"],
          Command := cmd, Component := comp }
      = .ok [ .thermostatEco
          { command := { command := "sdm.devices.commands.ThermostatEco.SetMode" },
            Mode := "OFF" },
        .thermostatMode
          { command := { command := "sdm.devices.commands.ThermostatMode.SetMode" },
            Mode := "COOL" } ] ∧
    StCommandToSdmCommands
        { Capability := some "st.thermostatMode", Arguments := [.string "auto"],
          Command := cmd, Component := comp }
      = .ok [ .thermostatEco
          { command := { command := "sdm.devices.commands.ThermostatEco.SetMode" },
            Mode := "OFF" },
        .thermostatMode
          { command := { command := "sdm.devices.commands.ThermostatMode.SetMode" },
            Mode := "HEATCOOL" } ] := by
  refine ⟨rfl, rfl, rfl, rfl, rfl⟩

/-- C10 at the failing input. With an empty argument list the three capabilities whose
reader tests the length with `!= 1` return an error and no commands, but st.thermostatMode,
whose reader tests `> 1`, indexes the empty list and aborts. -/
theorem thermostatMode_empty_arguments_abort :
    StCommandToSdmCommands { Capability := some "st.thermostatMode", Arguments := [] }
      = .panic .indexOutOfRange ∧
    StCommandToSdmCommands { Capability := some "st.thermostatFanMode", Arguments := [] }
      = .error (.wrap
          (.errorf
            "expected 1 argument for CommandThermostatFanModeSetThermostatFanMode, got %d"
            [.int 0])
          "unmarshaling smartthings command arguments") ∧
    StCommandToSdmCommands
        { Capability := some "st.thermostatHeatingSetpoint", Arguments := [] }
      = .error (.wrap
          (.errorf "expected 1 argument for CommandThermostatHeatingSetpoint, got %d"
            [.int 0])
          "unmarshaling smartthings command arguments") ∧
    StCommandToSdmCommands
        { Capability := some "st.thermostatCoolingSetpoint", Arguments := [] }
      = .error (.wrap
          (.errorf "expected 1 argument for CommandThermostatCoolingSetpoint, got %d"
            [.int 0])
          "unmarshaling smartthings command arguments") := by
  refine ⟨by decide, by decide, by decide, by decide⟩

/-- Apart from the empty list on st.thermostatMode, every argument list that is not a
single argument of the expected type makes the translation return an error. -/
theorem command_arguments_checked (cmd comp : Option String) (args : List GoValue) :
    ((¬ ∃ s, args = [.string s]) →
      ∃ e, StCommandToSdmCommands
        { Capability := some "st.thermostatFanMode", Arguments := args,
          Command := cmd, Component := comp } = .error e) ∧
    ((¬ ∃ x, args = [.float64 x]) → (¬ ∃ i, args = [.int i]) →
      (∃ e, StCommandToSdmCommands
        { Capability := some "st.thermostatHeatingSetpoint", Arguments := args,
          Command := cmd, Component := comp } = .error e) ∧
      (∃ e, StCommandToSdmCommands
        { Capability := some "st.thermostatCoolingSetpoint", Arguments := args,
          Command := cmd, Component := comp } = .error e)) ∧
    (args ≠ [] → (¬ ∃ s, args = [.string s]) →
      ∃ e, StCommandToSdmCommands
        { Capability := some "st.thermostatMode", Arguments := args,
          Command := cmd, Component := comp } = .error e) := by
  rcases args with _ | ⟨a, _ | ⟨b, rest⟩⟩
  · refine ⟨fun _ => ⟨_, rfl⟩, fun _ _ => ⟨⟨_, rfl⟩, ⟨_, rfl⟩⟩, fun h => absurd rfl h⟩
  · cases a with
    | string s =>
      refine ⟨fun h => absurd ⟨s, rfl⟩ h, fun _ _ => ⟨⟨_, rfl⟩, ⟨_, rfl⟩⟩,
        fun _ h => absurd ⟨s, rfl⟩ h⟩
    | float64 x =>
      refine ⟨fun _ => ⟨_, rfl⟩, fun h _ => absurd ⟨x, rfl⟩ h, fun _ _ => ⟨_, rfl⟩⟩
    | int i =>
      refine ⟨fun _ => ⟨_, rfl⟩, fun _ h => absurd ⟨i, rfl⟩ h, fun _ _ => ⟨_, rfl⟩⟩
    | nil =>
      refine ⟨fun _ => ⟨_, rfl⟩, fun _ _ => ⟨⟨_, rfl⟩, ⟨_, rfl⟩⟩, fun _ _ => ⟨_, rfl⟩⟩
    | bool b =>
      refine ⟨fun _ => ⟨_, rfl⟩, fun _ _ => ⟨⟨_, rfl⟩, ⟨_, rfl⟩⟩, fun _ _ => ⟨_, rfl⟩⟩
    | slice =>
      refine ⟨fun _ => ⟨_, rfl⟩, fun _ _ => ⟨⟨_, rfl⟩, ⟨_, rfl⟩⟩, fun _ _ => ⟨_, rfl⟩⟩
    | map =>
      refine ⟨fun _ => ⟨_, rfl⟩, fun _ _ => ⟨⟨_, rfl⟩, ⟨_, rfl⟩⟩, fun _ _ => ⟨_, rfl⟩⟩
  · refine ⟨fun _ => ⟨_, rfl⟩, fun _ _ => ⟨⟨_, rfl⟩, ⟨_, rfl⟩⟩, fun _ _ =>
      ⟨.wrap (.errorf "expected 1 argument for CommandThermostatModeSetMode, got %d"
        [.int (a :: b :: rest).length]) "unmarshaling smartthings command arguments", ?_⟩⟩
    simp [StCommandToSdmCommands, stCommandParamsReader.Unmarshal,
      stCommandThermostatModeSetMode.Unmarshal]

/-! ## Trait sets built by `Parse` are well typed -/

theorem mapGet_mapSet {κ ν : Type} [DecidableEq κ] (m : List (κ × ν)) (k k' : κ) (v : ν) :
    mapGet (mapSet m k v) k' = if k = k' then some v else mapGet m k' := by
  induction m with
  | nil => simp [mapSet, mapGet]
  | cons hd rest ih =>
    obtain ⟨k0, v0⟩ := hd
    by_cases h0 : k0 = k
    · subst h0
      by_cases h1 : k0 = k' <;> simp [mapSet, mapGet, h1]
    · by_cases h1 : k0 = k'
      · subst h1
        have : ¬ k = k0 := fun h => h0 h.symm
        simp [mapSet, mapGet, h0, this]
      · simp [mapSet, mapGet, h0, h1, ih]

theorem newDecoded_traitID {id : traitID} {decoded : traitsReader}
    (h : newDecoded id = some decoded) : decoded.traitID = id := by
  unfold newDecoded at h
  split at h <;> first | cases h; rfl | cases h

theorem setField_traitID {decoded decoded' : traitsReader} {key : String} {v : Json}
    (h : decoded.setField key v = .ok decoded') : decoded'.traitID = decoded.traitID := by
  cases decoded <;> simp only [traitsReader.setField] at h <;> split_ifs at h <;>
    first
    | (cases h; rfl)
    | (obtain ⟨a, _, rfl⟩ := Except_map_ok h; rfl)

theorem decodeObject_traitID {kvs : List (String × Json)} {decoded decoded' : traitsReader}
    (h : decodeObject kvs decoded = .ok decoded') : decoded'.traitID = decoded.traitID := by
  induction kvs generalizing decoded with
  | nil => cases h; rfl
  | cons hd rest ih =>
    obtain ⟨key, v⟩ := hd
    rw [decodeObject] at h
    cases hs : decoded.setField key v with
    | error e => rw [hs] at h; cases h
    | ok d =>
      rw [hs] at h
      rw [ih h, setField_traitID hs]

theorem jsonUnmarshal_traitID {v : Json} {decoded decoded' : traitsReader}
    (h : jsonUnmarshal v decoded = .ok (some decoded')) :
    decoded'.traitID = decoded.traitID := by
  cases v with
  | null => cases h
  | object kvs =>
    simp only [jsonUnmarshal] at h
    obtain ⟨a, ha, hb⟩ := Except_map_ok h
    cases hb
    exact decodeObject_traitID ha
  | bool b => cases h
  | number q => cases h
  | string s => cases h
  | array xs => cases h

theorem Unmarshal_traitID (timeParse : String → Option Time) (decoded : traitsReader) :
    (decoded.Unmarshal timeParse).traitID = decoded.traitID := by
  cases decoded <;> rfl

theorem wellTyped_NewTraits : NewTraits.WellTyped := by
  intro id v h
  cases h

/-- The loop of `Parse` stores every value under the identifier of its dynamic type. -/
theorem parseLoop_wellTyped (timeParse : String → Option Time) (m : List (String × Json))
    (t t' : Traits) (ht : t.WellTyped) (h : Traits.parseLoop timeParse t m = .ok t') :
    t'.WellTyped := by
  induction m generalizing t with
  | nil =>
    rw [Traits.parseLoop] at h
    cases h
    exact ht
  | cons hd rest ih =>
    obtain ⟨name, v⟩ := hd
    rw [Traits.parseLoop] at h
    rcases hp : parseTraitName name with ⟨_ | _, id⟩
    · rw [hp] at h
      exact ih t ht h
    · rw [hp] at h
      simp only at h
      cases hnd : newDecoded id with
      | none =>
        rw [hnd] at h
        exact ih t ht h
      | some decoded =>
        rw [hnd] at h
        simp only at h
        cases hju : jsonUnmarshal v decoded with
        | error e => rw [hju] at h; cases h
        | ok r =>
          rw [hju] at h
          cases r with
          | none => cases h
          | some d =>
            refine ih _ ?_ h
            intro id' v' hv'
            unfold Traits.Trait at hv'
            simp only [mapGet_mapSet] at hv'
            split_ifs at hv' with hid
            · cases hv'
              rw [Unmarshal_traitID, jsonUnmarshal_traitID hju, newDecoded_traitID hnd, hid]
            · exact ht id' v' hv'

/-- A trait set parsed into a well typed one is well typed. -/
theorem Parse_wellTyped (timeParse : String → Option Time) (data : Option Json)
    (t t' : Traits) (ht : t.WellTyped) (h : Traits.Parse timeParse t data = .ok t') :
    t'.WellTyped := by
  unfold Traits.Parse at h
  cases hm : unmarshalRawMap data with
  | error e => rw [hm] at h; cases h
  | ok alltraits =>
    rw [hm] at h
    exact parseLoop_wellTyped timeParse alltraits t t' ht h

/-- In a well typed trait set the slots read by the translation are empty or hold a value
of their own type. -/
theorem wellTyped_slots (t : Traits) (ht : t.WellTyped) :
    (∃ eco : Option DeviceThermostatEco,
      t.Trait sdmDevicesTraitsThermostatEco = eco.map TraitValue.thermostatEco) ∧
    (∃ mode : Option DeviceThermostatMode,
      t.Trait sdmDevicesTraitsThermostatMode = mode.map TraitValue.thermostatMode) ∧
    (∃ fan : Option DeviceFanTraits,
      t.Trait sdmDevicesTraitsFan = fan.map TraitValue.fan) := by
  refine ⟨?_, ?_, ?_⟩
  · cases h : t.Trait sdmDevicesTraitsThermostatEco with
    | none => exact ⟨none, rfl⟩
    | some v =>
      have := ht _ _ h
      cases v <;> first | exact ⟨some _, rfl⟩ | cases this
  · cases h : t.Trait sdmDevicesTraitsThermostatMode with
    | none => exact ⟨none, rfl⟩
    | some v =>
      have := ht _ _ h
      cases v <;> first | exact ⟨some _, rfl⟩ | cases this
  · cases h : t.Trait sdmDevicesTraitsFan with
    | none => exact ⟨none, rfl⟩
    | some v =>
      have := ht _ _ h
      cases v <;> first | exact ⟨some _, rfl⟩ | cases this

/-! ## Commands: fan mode and setpoints -/

/-- Integers below 2^53 in magnitude are float64 values. -/
theorem float64_intCast (n : ℤ) (hn : |n| < 2 ^ 53) : float64 (n : ℚ) = n := by
  by_cases h0 : n = 0
  · subst h0
    simpa using roundBinary_zero 53 (-1074)
  refine roundBinary_exact 53 (-1074) n 0 _ (by simp) ?_
  unfold ulpExp
  apply max_le
  · have hpos : (0 : ℚ) < |(n : ℚ)| := abs_pos.mpr (by exact_mod_cast h0)
    have hlt : |(n : ℚ)| < (2 : ℚ) ^ (53 : ℤ) := by
      have h' : ((|n| : ℤ) : ℚ) < ((2 ^ 53 : ℤ) : ℚ) := Int.cast_lt.mpr hn
      rw [Int.cast_abs] at h'
      norm_num at h' ⊢
      exact h'
    have := (Int.lt_zpow_iff_log_lt (b := 2) (x := 53) (by norm_num) hpos).mp
      (by exact_mod_cast hlt)
    push_cast
    omega
  · norm_num

/-- An hour is 3600 seconds, without rounding. -/
theorem Duration_Seconds_hour : Duration.Seconds (1000000000 * 3600) = 3600 := by
  unfold Duration.Seconds
  have h1 : (Int.tdiv (1000000000 * 3600 : Int) 1000000000) = 3600 := by decide
  have h2 : (Int.tmod (1000000000 * 3600 : Int) 1000000000) = 0 := by decide
  have e1 : ((1000000000 * 3600 : Duration).tdiv 1000000000) = 3600 := h1
  have e2 : ((1000000000 * 3600 : Duration).tmod 1000000000) = 0 := h2
  rw [e1, e2]
  have z : float64 (((0 : ℤ) : ℚ) / 1000000000) = 0 := by
    simpa using roundBinary_zero 53 (-1074)
  rw [z]
  have := float64_intCast 3600 (by norm_num)
  simpa using this

/-- The duration member of the fan command for the hour of `ToSdmCommands`. -/
theorem fan_duration_string :
    formatFloat0 (Duration.Seconds (1000000000 * 3600)) ++ "s" = "3600s" := by
  rw [Duration_Seconds_hour]
  unfold formatFloat0
  have h : roundHalfEven (3600 : ℚ) = 3600 := by
    have := roundHalfEven_intCast 3600
    simpa using this
  rw [h, if_neg (by norm_num)]
  decide

/-! ## C11: fan mode commands -/

/-- C11. `StCommandToSdmCommands` on capability `st.thermostatFanMode` with the single
string argument `s`, for every value of the command and component members: for
"followschedule" the result is exactly one `Fan.SetTimer` command with timer mode ON and
duration "3600s"; for "auto" it is exactly one `Fan.SetTimer` command with timer mode OFF
and no duration; for every other string the result is the wrapped "unsupported fan mode"
error and no commands. -/
theorem fanMode_command_translation (cmd comp : Option String) (s : String) :
    (s = "followschedule" →
      StCommandToSdmCommands
          { Capability := some "st.thermostatFanMode", Arguments := [.string s],
            Command := cmd, Component := comp }
        = .ok [ .fan
            { command := { command := "sdm.devices.commands.Fan.SetTimer" },
              TimerMode := "ON", Duration := "3600s" } ]) ∧
    (s = "auto" →
      StCommandToSdmCommands
          { Capability := some "st.thermostatFanMode", Arguments := [.string s],
            Command := cmd, Component := comp }
        = .ok [ .fan
            { command := { command := "sdm.devices.commands.Fan.SetTimer" },
              TimerMode := "OFF", Duration := "" } ]) ∧
    (s ≠ "followschedule" → s ≠ "auto" →
      StCommandToSdmCommands
          { Capability := some "st.thermostatFanMode", Arguments := [.string s],
            Command := cmd, Component := comp }
        = .error (.wrap (.errorf "unsupported fan mode: %s" [.string s])
            "unmarshaling smartthings command arguments")) := by
  refine ⟨?_, ?_, ?_⟩
  · rintro rfl
    have h : StCommandToSdmCommands
          { Capability := some "st.thermostatFanMode",
            Arguments := [.string "followschedule"], Command := cmd, Component := comp }
        = .ok [ .fan
            { command := { command := "sdm.devices.commands.Fan.SetTimer" },
              TimerMode := "ON",
              Duration := formatFloat0 (Duration.Seconds (1000000000 * 3600)) ++ "s" } ] :=
      rfl
    rw [h, fan_duration_string]
  · rintro rfl
    rfl
  · intro h1 h2
    simp [StCommandToSdmCommands, stCommandParamsReader.Unmarshal,
      stCommandThermostatFanModeSetThermostatFanMode.Unmarshal, h1, h2]

theorem fanMode_command_translation_witness :
    StCommandToSdmCommands
        { Capability := some "st.thermostatFanMode", Arguments := [.string "followschedule"],
          Command := some "setThermostatFanMode", Component := some "main" }
      = .ok [ .fan
          { command := { command := "sdm.devices.commands.Fan.SetTimer" },
            TimerMode := "ON", Duration := "3600s" } ] ∧
    StCommandToSdmCommands
        { Capability := some "st.thermostatFanMode", Arguments := [.string "auto"],
          Command := some "setThermostatFanMode", Component := some "main" }
      = .ok [ .fan
          { command := { command := "sdm.devices.commands.Fan.SetTimer" },
            TimerMode := "OFF", Duration := "" } ] ∧
    StCommandToSdmCommands
        { Capability := some "st.thermostatFanMode", Arguments := [.string "on"],
          Command := some "setThermostatFanMode", Component := some "main" }
      = .error (.wrap (.errorf "unsupported fan mode: %s" [.string "on"])
          "unmarshaling smartthings command arguments") :=
  ⟨(fanMode_command_translation _ _ "followschedule").1 rfl,
    (fanMode_command_translation _ _ "auto").2.1 rfl,
    (fanMode_command_translation _ _ "on").2.2 (by decide) (by decide)⟩

/-! ## C12: capabilities without a reader -/

/-- C12. For every capability name other than `st.thermostatMode`,
`st.thermostatFanMode`, `st.thermostatHeatingSetpoint` and `st.thermostatCoolingSetpoint`,
and for every argument list, command and component, `StCommandToSdmCommands` returns no
commands and no error. -/
theorem unknown_capability_no_commands (capability : String) (args : List GoValue)
    (cmd comp : Option String)
    (h1 : capability ≠ "st.thermostatMode") (h2 : capability ≠ "st.thermostatFanMode")
    (h3 : capability ≠ "st.thermostatHeatingSetpoint")
    (h4 : capability ≠ "st.thermostatCoolingSetpoint") :
    StCommandToSdmCommands
        { Capability := some capability, Arguments := args, Command := cmd,
          Component := comp } = .ok [] := by
  simp [StCommandToSdmCommands, h1, h2, h3, h4]

theorem unknown_capability_no_commands_witness :
    StCommandToSdmCommands
        { Capability := some "st.switch", Arguments := [.string "on", .float64 3],
          Command := some "on", Component := some "main" } = .ok [] :=
  unknown_capability_no_commands "st.switch" [.string "on", .float64 3] (some "on")
    (some "main") (by decide) (by decide) (by decide) (by decide)

/-! ## C13: setpoint commands carry the float32 value -/

/-- C13 as stated fails. The argument 20.1, which arrives as the float64 nearest to 20.1,
gives a `SetHeat` command whose `heatCelsius` is the float32 nearest to it,
20.1000003814697265625, which is not the argument. -/
theorem setpoint_command_float64_counterexample :
    float64 (201 / 10) = 2828823515942093 / 140737488355328 ∧
    StCommandToSdmCommands
        { Capability := some "st.thermostatHeatingSetpoint",
          Arguments := [.float64 (2828823515942093 / 140737488355328)] }
      = .ok [ .setpointHeat
          { command :=
              { command := "sdm.devices.commands.ThermostatTemperatureSetpoint.SetHeat" },
            HeatCelsius := 10538189 / 524288 } ] ∧
    (10538189 / 524288 : ℚ) ≠ 2828823515942093 / 140737488355328 := by
  refine ⟨by decide!, by decide!, by decide!⟩

/-- C13, amended. For every number `n` whose nearest float32 is finite,
`StCommandToSdmCommands` on `st.thermostatHeatingSetpoint` with arguments `[n]` returns
exactly one command, `ThermostatTemperatureSetpoint.SetHeat`, whose `heatCelsius` is the
float32 nearest to `n`, and on `st.thermostatCoolingSetpoint` exactly one command,
`ThermostatTemperatureSetpoint.SetCool`, whose `coolCelsius` is the float32 nearest to `n`.
The same holds for an argument of Go type `int`. -/
theorem setpoint_command_float32 (cmd comp : Option String) (n : ℚ) (i : ℤ)
    (_hn : |float32 n| ≤ MaxFloat32) (_hi : |float32 i| ≤ MaxFloat32) :
    StCommandToSdmCommands
        { Capability := some "st.thermostatHeatingSetpoint", Arguments := [.float64 n],
          Command := cmd, Component := comp }
      = .ok [ .setpointHeat
          { command :=
              { command := "sdm.devices.commands.ThermostatTemperatureSetpoint.SetHeat" },
            HeatCelsius := float32 n } ] ∧
    StCommandToSdmCommands
        { Capability := some "st.thermostatCoolingSetpoint", Arguments := [.float64 n],
          Command := cmd, Component := comp }
      = .ok [ .setpointCool
          { command :=
              { command := "sdm.devices.commands.ThermostatTemperatureSetpoint.SetCool" },
            CoolCelsius := float32 n } ] ∧
    StCommandToSdmCommands
        { Capability := some "st.thermostatHeatingSetpoint", Arguments := [.int i],
          Command := cmd, Component := comp }
      = .ok [ .setpointHeat
          { command :=
              { command := "sdm.devices.commands.ThermostatTemperatureSetpoint.SetHeat" },
            HeatCelsius := float32 i } ] ∧
    StCommandToSdmCommands
        { Capability := some "st.thermostatCoolingSetpoint", Arguments := [.int i],
          Command := cmd, Component := comp }
      = .ok [ .setpointCool
          { command :=
              { command := "sdm.devices.commands.ThermostatTemperatureSetpoint.SetCool" },
            CoolCelsius := float32 i } ] := by
  refine ⟨rfl, rfl, rfl, rfl⟩

theorem setpoint_command_float32_witness :
    float32 (41 / 2) = 41 / 2 ∧
    StCommandToSdmCommands
        { Capability := some "st.thermostatHeatingSetpoint", Arguments := [.float64 (41 / 2)],
          Command := some "setHeatingSetpoint", Component := some "main" }
      = .ok [ .setpointHeat
          { command :=
              { command := "sdm.devices.commands.ThermostatTemperatureSetpoint.SetHeat" },
            HeatCelsius := float32 (41 / 2) } ] :=
  ⟨by decide!,
    (setpoint_command_float32 (some "setHeatingSetpoint") (some "main") (41 / 2) 20
      (by decide!) (by decide!)).1⟩

/-! ## The state callback -/

/-- Whenever the token is obtained and the POST is answered with a readable body, the
callback returns no error, whatever the status code of the answer. -/
theorem executeDeviceStateCallback_status_ignored (tokenState : stoauth.State)
    (deviceInfo : models.DeviceState) (w : cmd.CallbackWorld) (resp : HTTPResponse)
    (bodyBytes : String) (st : stoauth.State) (trace : List Effect) (token : String)
    (htoken : tokenState.GetAccessToken w.now w.refresh = (st, trace, .ok (token, none)))
    (hpost : ∀ url body, w.post url body = .ok resp) (hbody : resp.Body = .ok bodyBytes) :
    (cmd.executeDeviceStateCallback tokenState deviceInfo w).2 = .ok none := by
  unfold cmd.executeDeviceStateCallback
  rw [htoken]
  simp only [hpost, hbody]
  by_cases h : resp.StatusCode ≠ 200 ∧ resp.StatusCode = 204
  · rw [if_pos h]
    rfl
  · rw [if_neg h]

/-- The event is acknowledged whenever the callback returns no error, and a callback error
ends the publication with the two log entries only. -/
theorem publishEvent_acknowledges (ticket : Int) (tokenState : stoauth.State)
    (event : pubsubapi.SdmEvent) (w : cmd.PublishWorld)
    (states : List DeviceStateStatesItems0) (hstates : cmd.makeDeviceStates event = .ok states) :
    ((cmd.executeDeviceStateCallback tokenState
        { ExternalDeviceID := event.DeviceID, States := states } w.callback).2 = .ok none →
      Effect.acknowledge [event.AckID] ∈ (cmd.publishEvent ticket tokenState event w).1) ∧
    (∀ err, (cmd.executeDeviceStateCallback tokenState
        { ExternalDeviceID := event.DeviceID, States := states } w.callback).2
          = .ok (some err) →
      (cmd.publishEvent ticket tokenState event w).1 =
        [ .log "debug" none "publish-goroutine %d: got %+v" [.int ticket, .event event] ] ++
        (cmd.executeDeviceStateCallback tokenState
          { ExternalDeviceID := event.DeviceID, States := states } w.callback).1 ++
        [ .log "error" (some err) "executing Smartthings device callback" [],
          .log "debug" none "publish-goroutine %d: done" [.int ticket] ]) := by
  constructor
  · intro h
    rcases hexec : cmd.executeDeviceStateCallback tokenState
        { ExternalDeviceID := event.DeviceID, States := states } w.callback with ⟨tr, r⟩
    rw [hexec] at h
    simp only at h
    subst h
    unfold cmd.publishEvent
    simp only [hstates, hexec]
    cases w.ack [event.AckID] <;> simp
  · intro err h
    rcases hexec : cmd.executeDeviceStateCallback tokenState
        { ExternalDeviceID := event.DeviceID, States := states } w.callback with ⟨tr, r⟩
    rw [hexec] at h
    simp only at h
    subst h
    unfold cmd.publishEvent
    simp only [hstates, hexec]
    simp

/-! ## C14: the callback status is not checked -/

/-- C14 fails at the status 500. With a cached access token and a callback URL that
answers HTTP 500 with a readable body, `executeDeviceStateCallback` returns no error, and
`publishEvent` acknowledges the event: the test `StatusCode != 200 && StatusCode == 204`
holds for the status 204 only, and there `errors.Wrapf` is given the nil error of the body
read and returns nil. -/
theorem callback_error_status_acknowledged :
    (cmd.executeDeviceStateCallback
        { ClientID := "client", Scope := "scope", TokenURL := "https://st/token",
          StateCallbackURL := "https://st/callback", MinAccessTokenValidity := 60000000000,
          clientSecret := "secret", accessToken := "token",
          accessTokenExpiry := unixEpoch + 7200000000000, refreshToken := "refresh",
          fileName := "" }
        { ExternalDeviceID := "abc", States := [] }
        { now := unixEpoch,
          refresh :=
            { requestID := "r1", post := fun _ _ => .error .jsonSyntaxError,
              decode := fun _ => .error .jsonSyntaxError, now := unixEpoch, save := none },
          requestID := "r2",
          post := fun _ _ =>
            .ok { StatusCode := 500, Status := "500 Internal Server Error",
                  Body := .ok "failure" } }).2 = .ok none ∧
    Effect.acknowledge ["ack-1"] ∈
      (cmd.publishEvent 1
        { ClientID := "client", Scope := "scope", TokenURL := "https://st/token",
          StateCallbackURL := "https://st/callback", MinAccessTokenValidity := 60000000000,
          clientSecret := "secret", accessToken := "token",
          accessTokenExpiry := unixEpoch + 7200000000000, refreshToken := "refresh",
          fileName := "" }
        { AckID := "ack-1", DeviceID := "abc", Timestamp := unixEpoch,
          Traits := NewTraits }
        { callback :=
            { now := unixEpoch,
              refresh :=
                { requestID := "r1", post := fun _ _ => .error .jsonSyntaxError,
                  decode := fun _ => .error .jsonSyntaxError, now := unixEpoch,
                  save := none },
              requestID := "r2",
              post := fun _ _ =>
                .ok { StatusCode := 500, Status := "500 Internal Server Error",
                      Body := .ok "failure" } },
          ack := fun _ => none }).1 := by
  refine ⟨rfl, by decide⟩

/-! ## Received messages -/

/-- One turn of the loop, by the fate of the message. -/
theorem parseReceivedMessagesLoop_cons (c : pubsubapi.Live) (env : pubsubapi.Env) (i : ℕ)
    (message : pubsubapi.ReceivedMessage) (rest : List pubsubapi.ReceivedMessage)
    (toAck : List String) (events : List pubsubapi.SdmEvent) :
    pubsubapi.Live.parseReceivedMessagesLoop c env i (message :: rest) toAck events =
      match c.fate env i message with
      | .dropped => pubsubapi.Live.parseReceivedMessagesLoop c env (i + 1) rest toAck events
      | .acknowledged =>
        pubsubapi.Live.parseReceivedMessagesLoop c env (i + 1) rest
          (toAck ++ [message.AckId]) events
      | .delivered e =>
        pubsubapi.Live.parseReceivedMessagesLoop c env (i + 1) rest toAck (events ++ [e])
      | .aborted p => .error p := by
  rw [pubsubapi.Live.parseReceivedMessagesLoop]
  unfold pubsubapi.Live.fate
  cases env.base64Decode message.Message.Data with
  | none => rfl
  | some data =>
    simp only
    cases env.parseRFC3339Nano message.Message.PublishTime with
    | none =>
      simp only [Bool.false_eq_true, if_false]
      cases pubsubapi.unmarshalSdmEvent env.jsonParse env.parseRFC3339 data with
      | error e => rfl
      | ok event =>
        simp only
        cases event.ResourceUpdate with
        | none => rfl
        | some ru =>
          simp only
          cases Traits.Parse env.parseRFC3339 NewTraits ru.Traits <;> rfl
    | some publishTime =>
      simp only
      by_cases hold : (env.now i).After (publishTime.Add c.maxMessageAge) = true
      · simp only [hold, if_true]
      · simp only [hold, if_false]
        cases pubsubapi.unmarshalSdmEvent env.jsonParse env.parseRFC3339 data with
        | error e => rfl
        | ok event =>
          simp only
          cases event.ResourceUpdate with
          | none => rfl
          | some ru =>
            simp only
            cases Traits.Parse env.parseRFC3339 NewTraits ru.Traits <;> rfl

/-- The lists built so far are only extended. -/
theorem parseReceivedMessagesLoop_acc (c : pubsubapi.Live) (env : pubsubapi.Env)
    (msgs : List pubsubapi.ReceivedMessage) (i : ℕ) (toAck : List String)
    (events : List pubsubapi.SdmEvent) :
    pubsubapi.Live.parseReceivedMessagesLoop c env i msgs toAck events =
      match pubsubapi.Live.parseReceivedMessagesLoop c env i msgs [] [] with
      | .error p => .error p
      | .ok (a, e) => .ok (toAck ++ a, events ++ e) := by
  induction msgs generalizing i toAck events with
  | nil => simp [pubsubapi.Live.parseReceivedMessagesLoop]
  | cons m rest ih =>
    rw [parseReceivedMessagesLoop_cons, parseReceivedMessagesLoop_cons]
    cases c.fate env i m with
    | dropped => exact ih _ _ _
    | aborted p => rfl
    | acknowledged =>
      simp only
      rw [ih (i + 1) (toAck ++ [m.AckId]) events, ih (i + 1) ([] ++ [m.AckId]) []]
      cases pubsubapi.Live.parseReceivedMessagesLoop c env (i + 1) rest [] [] with
      | error p => rfl
      | ok r => obtain ⟨a, e⟩ := r; simp
    | delivered ev =>
      simp only
      rw [ih (i + 1) toAck (events ++ [ev]), ih (i + 1) [] ([] ++ [ev])]
      cases pubsubapi.Live.parseReceivedMessagesLoop c env (i + 1) rest [] [] with
      | error p => rfl
      | ok r => obtain ⟨a, e⟩ := r; simp

/-- The loop over a concatenation is the loop over the second part, entered with the
result of the first. -/
theorem parseReceivedMessagesLoop_append (c : pubsubapi.Live) (env : pubsubapi.Env)
    (xs ys : List pubsubapi.ReceivedMessage) (i : ℕ) (toAck : List String)
    (events : List pubsubapi.SdmEvent) :
    pubsubapi.Live.parseReceivedMessagesLoop c env i (xs ++ ys) toAck events =
      match pubsubapi.Live.parseReceivedMessagesLoop c env i xs toAck events with
      | .error p => .error p
      | .ok (a, e) => pubsubapi.Live.parseReceivedMessagesLoop c env (i + xs.length) ys a e := by
  induction xs generalizing i toAck events with
  | nil => simp [pubsubapi.Live.parseReceivedMessagesLoop]
  | cons m rest ih =>
    rw [List.cons_append, parseReceivedMessagesLoop_cons, parseReceivedMessagesLoop_cons]
    have hlen : i + (m :: rest).length = i + 1 + rest.length := by
      simp only [List.length_cons]; omega
    rw [hlen]
    cases c.fate env i m with
    | dropped => exact ih _ _ _
    | aborted p => rfl
    | acknowledged => exact ih _ _ _
    | delivered ev => exact ih _ _ _

/-- The fate of a message depends on the clock only through the reading at its index. -/
theorem fate_clock (c : pubsubapi.Live) (env : pubsubapi.Env) (now' : ℕ → Time) (i j : ℕ)
    (m : pubsubapi.ReceivedMessage) (h : env.now i = now' j) :
    c.fate env i m = c.fate { env with now := now' } j m := by
  unfold pubsubapi.Live.fate
  simp only [h]

/-- The loop depends on the clock only through the readings at the indices it visits. -/
theorem parseReceivedMessagesLoop_clock (c : pubsubapi.Live) (env : pubsubapi.Env)
    (now' : ℕ → Time) (msgs : List pubsubapi.ReceivedMessage) (i j : ℕ)
    (toAck : List String) (events : List pubsubapi.SdmEvent)
    (h : ∀ k, k < msgs.length → env.now (i + k) = now' (j + k)) :
    pubsubapi.Live.parseReceivedMessagesLoop c env i msgs toAck events =
      pubsubapi.Live.parseReceivedMessagesLoop c { env with now := now' } j msgs toAck events := by
  induction msgs generalizing i j toAck events with
  | nil => simp [pubsubapi.Live.parseReceivedMessagesLoop]
  | cons m rest ih =>
    rw [parseReceivedMessagesLoop_cons, parseReceivedMessagesLoop_cons]
    have h0 : env.now i = now' j := by simpa using h 0 (by simp)
    rw [← fate_clock c env now' i j m h0]
    have hrest : ∀ k, k < rest.length → env.now (i + 1 + k) = now' (j + 1 + k) := by
      intro k hk
      have := h (k + 1) (by simp only [List.length_cons]; omega)
      rw [show i + 1 + k = i + (k + 1) by omega, show j + 1 + k = j + (k + 1) by omega]
      exact this
    cases c.fate env i m with
    | dropped => exact ih _ _ _ _ hrest
    | aborted p => rfl
    | acknowledged => exact ih _ _ _ _ hrest
    | delivered ev => exact ih _ _ _ _ hrest

/-- The loop of an ended batch gives the lists of `parseReceivedMessages`. -/
theorem parseReceivedMessages_eq_ok (c : pubsubapi.Live) (env : pubsubapi.Env)
    (msgs : List pubsubapi.ReceivedMessage) (a : List String) (e : List pubsubapi.SdmEvent)
    (err : Option GoError) (h : c.parseReceivedMessages env msgs = .ok (a, e, err)) :
    pubsubapi.Live.parseReceivedMessagesLoop c env 0 msgs [] [] = .ok (a, e) ∧ err = none := by
  unfold pubsubapi.Live.parseReceivedMessages at h
  cases hl : pubsubapi.Live.parseReceivedMessagesLoop c env 0 msgs [] [] with
  | error p => rw [hl] at h; cases h
  | ok r =>
    obtain ⟨a0, e0⟩ := r
    rw [hl] at h
    simp only [Except.ok.injEq, Prod.mk.injEq] at h
    obtain ⟨h1, h2, h3⟩ := h
    subst h1 h2 h3
    exact ⟨rfl, rfl⟩

/-- A batch around one message: the messages before it, then the message by its fate, then
the messages after it. -/
theorem parseReceivedMessagesLoop_around (c : pubsubapi.Live) (env : pubsubapi.Env)
    (pre post : List pubsubapi.ReceivedMessage) (m : pubsubapi.ReceivedMessage)
    (a1 : List String) (e1 : List pubsubapi.SdmEvent)
    (hpre : pubsubapi.Live.parseReceivedMessagesLoop c env 0 pre [] [] = .ok (a1, e1)) :
    pubsubapi.Live.parseReceivedMessagesLoop c env 0 (pre ++ m :: post) [] [] =
      match c.fate env pre.length m with
      | .dropped => pubsubapi.Live.parseReceivedMessagesLoop c env (pre.length + 1) post a1 e1
      | .acknowledged =>
        pubsubapi.Live.parseReceivedMessagesLoop c env (pre.length + 1) post
          (a1 ++ [m.AckId]) e1
      | .delivered e =>
        pubsubapi.Live.parseReceivedMessagesLoop c env (pre.length + 1) post a1 (e1 ++ [e])
      | .aborted p => .error p := by
  rw [parseReceivedMessagesLoop_append, hpre]
  simp only [Nat.zero_add]
  rw [parseReceivedMessagesLoop_cons]

/-- A message that is acknowledged without an event adds its ack ID, and nothing else, to
the result of the batch. -/
theorem parseReceivedMessages_acknowledged (c : pubsubapi.Live) (env : pubsubapi.Env)
    (pre post : List pubsubapi.ReceivedMessage) (m : pubsubapi.ReceivedMessage)
    (a1 a2 : List String) (e1 e2 : List pubsubapi.SdmEvent) (err1 err2 : Option GoError)
    (hfate : c.fate env pre.length m = .acknowledged)
    (hpre : c.parseReceivedMessages env pre = .ok (a1, e1, err1))
    (hpost : c.parseReceivedMessages
      { env with now := fun j => env.now (pre.length + 1 + j) } post = .ok (a2, e2, err2)) :
    c.parseReceivedMessages env (pre ++ m :: post) =
      .ok (a1 ++ [m.AckId] ++ a2, e1 ++ e2, none) := by
  have h1 := (parseReceivedMessages_eq_ok c env pre a1 e1 err1 hpre).1
  have h2 := (parseReceivedMessages_eq_ok c _ post a2 e2 err2 hpost).1
  rw [← parseReceivedMessagesLoop_clock c env (fun j => env.now (pre.length + 1 + j)) post
    (pre.length + 1) 0 [] [] (fun k _ => by simp only [Nat.zero_add])] at h2
  unfold pubsubapi.Live.parseReceivedMessages
  rw [parseReceivedMessagesLoop_around c env pre post m a1 e1 h1, hfate]
  simp only
  rw [parseReceivedMessagesLoop_acc, h2]

/-- A message that is dropped leaves the result of the batch as it is without the message,
the clock readings of the later messages apart. -/
theorem parseReceivedMessages_dropped (c : pubsubapi.Live) (env : pubsubapi.Env)
    (pre post : List pubsubapi.ReceivedMessage) (m : pubsubapi.ReceivedMessage)
    (hfate : c.fate env pre.length m = .dropped) :
    c.parseReceivedMessages env (pre ++ m :: post) =
      c.parseReceivedMessages
        { env with now := fun j => if j < pre.length then env.now j else env.now (j + 1) }
        (pre ++ post) := by
  unfold pubsubapi.Live.parseReceivedMessages
  have hpre := parseReceivedMessagesLoop_clock c env
    (fun j => if j < pre.length then env.now j else env.now (j + 1)) pre 0 0 [] []
    (fun k hk => by simp only [Nat.zero_add, hk, if_true])
  rw [parseReceivedMessagesLoop_append c env pre (m :: post),
    parseReceivedMessagesLoop_append c _ pre post, ← hpre]
  cases pubsubapi.Live.parseReceivedMessagesLoop c env 0 pre [] [] with
  | error p => rfl
  | ok r =>
    obtain ⟨a1, e1⟩ := r
    simp only [Nat.zero_add]
    rw [parseReceivedMessagesLoop_cons, hfate]
    simp only
    rw [parseReceivedMessagesLoop_clock c env
      (fun j => if j < pre.length then env.now j else env.now (j + 1)) post
      (pre.length + 1) pre.length a1 e1 (fun k _ => by
        have : ¬ (pre.length + k < pre.length) := by omega
        simp only [this, if_false]
        congr 1; omega)]

/-- Bytes that are not a JSON text make the decoding of the envelope fail. -/
theorem unmarshalSdmEvent_invalid_json (jsonParse : String → Option Json)
    (parseRFC3339 : String → Option Time) (data : String) (h : jsonParse data = none) :
    pubsubapi.unmarshalSdmEvent jsonParse parseRFC3339 data = .error .jsonSyntaxError := by
  unfold pubsubapi.unmarshalSdmEvent
  rw [h]

/-- The age test of the loop, as an inequality between instants. -/
theorem after_add_iff (now publishTime : Time) (d : Duration) :
    now.After (publishTime.Add d) = true ↔ publishTime + d < now := by
  simp [Time.After, Time.Add]

/-- A message whose data decodes and whose publish time is past the maximum age is
acknowledged. -/
theorem fate_stale (c : pubsubapi.Live) (env : pubsubapi.Env) (i : ℕ)
    (m : pubsubapi.ReceivedMessage) (data : String) (publishTime : Time)
    (hdata : env.base64Decode m.Message.Data = some data)
    (htime : env.parseRFC3339Nano m.Message.PublishTime = some publishTime)
    (hold : publishTime + c.maxMessageAge < env.now i) :
    c.fate env i m = .acknowledged := by
  unfold pubsubapi.Live.fate
  simp only [hdata, htime, (after_add_iff _ _ _).mpr hold, if_true]

/-- The age test fails for a message that is not stale. -/
theorem after_add_false (now publishTime : Time) (d : Duration)
    (h : ¬ publishTime + d < now) : now.After (publishTime.Add d) = false := by
  rw [← after_add_iff] at h
  simpa using h

/-- A message that is not stale and whose envelope has no resource update is acknowledged. -/
theorem fate_no_resource_update (c : pubsubapi.Live) (env : pubsubapi.Env) (i : ℕ)
    (m : pubsubapi.ReceivedMessage) (data : String) (event : pubsubapi.sdmEvent)
    (hdata : env.base64Decode m.Message.Data = some data)
    (hfresh : ∀ publishTime, env.parseRFC3339Nano m.Message.PublishTime = some publishTime →
      ¬ publishTime + c.maxMessageAge < env.now i)
    (hevent : pubsubapi.unmarshalSdmEvent env.jsonParse env.parseRFC3339 data = .ok event)
    (hnil : event.ResourceUpdate = none) :
    c.fate env i m = .acknowledged := by
  unfold pubsubapi.Live.fate
  simp only [hdata]
  cases h : env.parseRFC3339Nano m.Message.PublishTime with
  | none => simp only [Bool.false_eq_true, if_false, hevent, hnil]
  | some publishTime =>
    simp only [after_add_false _ _ _ (hfresh publishTime h), Bool.false_eq_true, if_false,
      hevent, hnil]

/-- A message whose data is not base64, or that is not stale and whose envelope does not
decode or whose traits do not parse, is dropped. -/
theorem fate_undecodable (c : pubsubapi.Live) (env : pubsubapi.Env) (i : ℕ)
    (m : pubsubapi.ReceivedMessage)
    (hbad : env.base64Decode m.Message.Data = none ∨
      ∃ data, env.base64Decode m.Message.Data = some data ∧
        (∀ publishTime, env.parseRFC3339Nano m.Message.PublishTime = some publishTime →
          ¬ publishTime + c.maxMessageAge < env.now i) ∧
        (env.jsonParse data = none ∨
          ∃ event resourceUpdate err,
            pubsubapi.unmarshalSdmEvent env.jsonParse env.parseRFC3339 data = .ok event ∧
            event.ResourceUpdate = some resourceUpdate ∧
            Traits.Parse env.parseRFC3339 NewTraits resourceUpdate.Traits = .error err)) :
    c.fate env i m = .dropped := by
  unfold pubsubapi.Live.fate
  rcases hbad with h | ⟨data, hdata, hfresh, h⟩
  · simp only [h]
  · simp only [hdata]
    cases hp : env.parseRFC3339Nano m.Message.PublishTime with
    | none =>
      simp only [Bool.false_eq_true, if_false]
      rcases h with h | ⟨event, ru, err, hevent, hru, hparse⟩
      · simp only [unmarshalSdmEvent_invalid_json _ _ _ h]
      · simp only [hevent, hru, hparse]
    | some publishTime =>
      simp only [after_add_false _ _ _ (hfresh publishTime hp), Bool.false_eq_true, if_false]
      rcases h with h | ⟨event, ru, err, hevent, hru, hparse⟩
      · simp only [unmarshalSdmEvent_invalid_json _ _ _ h]
      · simp only [hevent, hru, hparse]

/-! ## C15: stale messages -/

/-- C15 as stated fails. The data field is decoded before the publish time is read: a
message published an hour ago, with a maximum age of two minutes, whose data is not valid
base64 is dropped, and its ack ID is not in the list to acknowledge. -/
theorem stale_message_invalid_base64_counterexample :
    Time.After (unixEpoch + 3600000000000) (Time.Add unixEpoch 120000000000) = true ∧
    pubsubapi.Live.parseReceivedMessages
        { sdmProjectID := "sdm-project", gcpProjectID := "gcp-project",
          subscriptionID := "subscription", credsFile := "creds.json", timeout := 0,
          maxMessageAge := 120000000000, logMessages := false }
        { base64Decode := fun s => if s = "e30=" then some "\x7b\x7d" else none,
          parseRFC3339Nano := fun s =>
            if s = "1970-01-01T00:00:00Z" then some unixEpoch else none,
          parseRFC3339 := fun _ => none,
          jsonParse := fun s => if s = "\x7b\x7d" then some (.object []) else none,
          now := fun _ => unixEpoch + 3600000000000 }
        [ { AckId := "ack-1", DeliveryAttempt := 1,
            Message :=
              { Data := "!!!", MessageId := "1", PublishTime := "1970-01-01T00:00:00Z" } } ]
      = .ok ([], [], none) :=
  ⟨by decide, rfl⟩

/-- C15, amended. For every batch and every message in it whose data is valid base64 and
whose publish time parses and is older than the configured maximum age (the clock read
for the message is after publishTime + maxMessageAge), `parseReceivedMessages` puts the
ack ID of the message in the list to acknowledge, at the place of the message, and
produces no event for it, whatever the decoded data contains: when the messages before it
give the lists `a1`, `e1` and the messages after it, with the clock readings that follow,
give `a2`, `e2`, the batch gives `a1 ++ [AckId] ++ a2` and `e1 ++ e2`, with no error. -/
theorem stale_message_acknowledged (c : pubsubapi.Live) (env : pubsubapi.Env)
    (pre post : List pubsubapi.ReceivedMessage) (m : pubsubapi.ReceivedMessage)
    (data : String) (publishTime : Time)
    (a1 a2 : List String) (e1 e2 : List pubsubapi.SdmEvent) (err1 err2 : Option GoError)
    (hdata : env.base64Decode m.Message.Data = some data)
    (htime : env.parseRFC3339Nano m.Message.PublishTime = some publishTime)
    (hold : (env.now pre.length).After (publishTime.Add c.maxMessageAge) = true)
    (hpre : c.parseReceivedMessages env pre = .ok (a1, e1, err1))
    (hpost : c.parseReceivedMessages
      { env with now := fun j => env.now (pre.length + 1 + j) } post = .ok (a2, e2, err2)) :
    c.parseReceivedMessages env (pre ++ m :: post) =
      .ok (a1 ++ [m.AckId] ++ a2, e1 ++ e2, none) :=
  parseReceivedMessages_acknowledged c env pre post m a1 a2 e1 e2 err1 err2
    (fate_stale c env pre.length m data publishTime hdata htime
      ((after_add_iff _ _ _).mp hold))
    hpre hpost

theorem stale_message_acknowledged_witness :
    pubsubapi.Live.parseReceivedMessages
        { sdmProjectID := "sdm-project", gcpProjectID := "gcp-project",
          subscriptionID := "subscription", credsFile := "creds.json", timeout := 0,
          maxMessageAge := 120000000000, logMessages := false }
        { base64Decode := fun s => if s = "e30=" then some "\x7b\x7d" else none,
          parseRFC3339Nano := fun s =>
            if s = "1970-01-01T00:00:00Z" then some unixEpoch else none,
          parseRFC3339 := fun _ => none,
          jsonParse := fun s => if s = "\x7b\x7d" then some (.object []) else none,
          now := fun _ => unixEpoch + 3600000000000 }
        [ { AckId := "ack-0", DeliveryAttempt := 1,
            Message := { Data := "!!!", MessageId := "0", PublishTime := "" } },
          { AckId := "ack-1", DeliveryAttempt := 1,
            Message :=
              { Data := "e30=", MessageId := "1", PublishTime := "1970-01-01T00:00:00Z" } },
          { AckId := "ack-2", DeliveryAttempt := 1,
            Message := { Data := "e30=", MessageId := "2", PublishTime := "now" } } ]
      = .ok (["ack-1", "ack-2"], [], none) :=
  stale_message_acknowledged
    { sdmProjectID := "sdm-project", gcpProjectID := "gcp-project",
      subscriptionID := "subscription", credsFile := "creds.json", timeout := 0,
      maxMessageAge := 120000000000, logMessages := false }
    { base64Decode := fun s => if s = "e30=" then some "\x7b\x7d" else none,
      parseRFC3339Nano := fun s =>
        if s = "1970-01-01T00:00:00Z" then some unixEpoch else none,
      parseRFC3339 := fun _ => none,
      jsonParse := fun s => if s = "\x7b\x7d" then some (.object []) else none,
      now := fun _ => unixEpoch + 3600000000000 }
    [ { AckId := "ack-0", DeliveryAttempt := 1,
        Message := { Data := "!!!", MessageId := "0", PublishTime := "" } } ]
    [ { AckId := "ack-2", DeliveryAttempt := 1,
        Message := { Data := "e30=", MessageId := "2", PublishTime := "now" } } ]
    { AckId := "ack-1", DeliveryAttempt := 1,
      Message :=
        { Data := "e30=", MessageId := "1", PublishTime := "1970-01-01T00:00:00Z" } }
    "\x7b\x7d" unixEpoch [] ["ack-2"] [] [] none none rfl rfl (by decide) rfl rfl

/-! ## C16: envelopes without a resource update -/

/-- C16 as stated fails. A message that is not stale and whose envelope is the empty JSON
object, which has no `resourceUpdate` member, produces no event, and its ack ID is put in
the list to acknowledge. -/
theorem no_resource_update_counterexample :
    Time.After (unixEpoch + 3600000000000)
      (Time.Add (unixEpoch + 3590000000000) 120000000000) = false ∧
    pubsubapi.Live.parseReceivedMessages
        { sdmProjectID := "sdm-project", gcpProjectID := "gcp-project",
          subscriptionID := "subscription", credsFile := "creds.json", timeout := 0,
          maxMessageAge := 120000000000, logMessages := false }
        { base64Decode := fun s => if s = "e30=" then some "\x7b\x7d" else none,
          parseRFC3339Nano := fun s =>
            if s = "1970-01-01T00:59:50Z" then some (unixEpoch + 3590000000000) else none,
          parseRFC3339 := fun _ => none,
          jsonParse := fun s => if s = "\x7b\x7d" then some (.object []) else none,
          now := fun _ => unixEpoch + 3600000000000 }
        [ { AckId := "ack-1", DeliveryAttempt := 1,
            Message :=
              { Data := "e30=", MessageId := "1", PublishTime := "1970-01-01T00:59:50Z" } } ]
      = .ok (["ack-1"], [], none) :=
  ⟨by decide, rfl⟩

/-- C16, amended. For every batch and every message in it whose data is valid base64,
that is not stale (its publish time does not parse, or the clock read for the message is
not after publishTime + maxMessageAge) and whose envelope decodes to an event without
`resourceUpdate`, `parseReceivedMessages` produces no event for the message and puts its
ack ID in the list to acknowledge, at the place of the message: when the messages before
it give the lists `a1`, `e1` and the messages after it, with the clock readings that
follow, give `a2`, `e2`, the batch gives `a1 ++ [AckId] ++ a2` and `e1 ++ e2`, with no
error. -/
theorem no_resource_update_acknowledged (c : pubsubapi.Live) (env : pubsubapi.Env)
    (pre post : List pubsubapi.ReceivedMessage) (m : pubsubapi.ReceivedMessage)
    (data : String) (event : pubsubapi.sdmEvent)
    (a1 a2 : List String) (e1 e2 : List pubsubapi.SdmEvent) (err1 err2 : Option GoError)
    (hdata : env.base64Decode m.Message.Data = some data)
    (hfresh : ∀ publishTime, env.parseRFC3339Nano m.Message.PublishTime = some publishTime →
      (env.now pre.length).After (publishTime.Add c.maxMessageAge) = false)
    (hevent : pubsubapi.unmarshalSdmEvent env.jsonParse env.parseRFC3339 data = .ok event)
    (hnil : event.ResourceUpdate = none)
    (hpre : c.parseReceivedMessages env pre = .ok (a1, e1, err1))
    (hpost : c.parseReceivedMessages
      { env with now := fun j => env.now (pre.length + 1 + j) } post = .ok (a2, e2, err2)) :
    c.parseReceivedMessages env (pre ++ m :: post) =
      .ok (a1 ++ [m.AckId] ++ a2, e1 ++ e2, none) :=
  parseReceivedMessages_acknowledged c env pre post m a1 a2 e1 e2 err1 err2
    (fate_no_resource_update c env pre.length m data event hdata
      (fun publishTime h => by
        rw [← after_add_iff, hfresh publishTime h]
        exact Bool.false_ne_true)
      hevent hnil)
    hpre hpost

theorem no_resource_update_acknowledged_witness :
    pubsubapi.Live.parseReceivedMessages
        { sdmProjectID := "sdm-project", gcpProjectID := "gcp-project",
          subscriptionID := "subscription", credsFile := "creds.json", timeout := 0,
          maxMessageAge := 120000000000, logMessages := false }
        { base64Decode := fun s =>
            if s = "eyJldmVudElkIjoiZTEifQ==" then
              some "\x7b\x22eventId\x22:\x22e1\x22\x7d"
            else none,
          parseRFC3339Nano := fun s =>
            if s = "1970-01-01T00:59:50Z" then some (unixEpoch + 3590000000000) else none,
          parseRFC3339 := fun _ => none,
          jsonParse := fun s =>
            if s = "\x7b\x22eventId\x22:\x22e1\x22\x7d" then
              some (.object [("eventId", .string "e1")])
            else none,
          now := fun _ => unixEpoch + 3600000000000 }
        [ { AckId := "ack-1", DeliveryAttempt := 1,
            Message :=
              { Data := "eyJldmVudElkIjoiZTEifQ==", MessageId := "1",
                PublishTime := "1970-01-01T00:59:50Z" } },
          { AckId := "ack-2", DeliveryAttempt := 1,
            Message := { Data := "!!!", MessageId := "2", PublishTime := "" } } ]
      = .ok (["ack-1"], [], none) :=
  no_resource_update_acknowledged
    { sdmProjectID := "sdm-project", gcpProjectID := "gcp-project",
      subscriptionID := "subscription", credsFile := "creds.json", timeout := 0,
      maxMessageAge := 120000000000, logMessages := false }
    { base64Decode := fun s =>
        if s = "eyJldmVudElkIjoiZTEifQ==" then some "\x7b\x22eventId\x22:\x22e1\x22\x7d" else none,
      parseRFC3339Nano := fun s =>
        if s = "1970-01-01T00:59:50Z" then some (unixEpoch + 3590000000000) else none,
      parseRFC3339 := fun _ => none,
      jsonParse := fun s =>
        if s = "\x7b\x22eventId\x22:\x22e1\x22\x7d" then
          some (.object [("eventId", .string "e1")])
        else none,
      now := fun _ => unixEpoch + 3600000000000 }
    []
    [ { AckId := "ack-2", DeliveryAttempt := 1,
        Message := { Data := "!!!", MessageId := "2", PublishTime := "" } } ]
    { AckId := "ack-1", DeliveryAttempt := 1,
      Message :=
        { Data := "eyJldmVudElkIjoiZTEifQ==", MessageId := "1",
          PublishTime := "1970-01-01T00:59:50Z" } }
    "\x7b\x22eventId\x22:\x22e1\x22\x7d"
    { EventID := "e1", Timestamp := 0, ResourceUpdate := none, UserID := "" }
    [] [] [] [] none none rfl
    (fun publishTime h => by
      have h2 : publishTime = unixEpoch + 3590000000000 :=
        (Option.some.inj h).symm
      subst h2
      decide)
    rfl rfl rfl rfl

/-! ## C17: messages that cannot be decoded -/

/-- C17. For every batch and every message in it whose data is not valid base64, or that
is not stale and whose envelope is not valid JSON, or that is not stale and whose trait
data makes `Traits.Parse` return an error, `parseReceivedMessages` handles the batch
exactly as it handles the batch without the message (the later messages reading the clock
as they do in the full batch): the message adds no event and no acknowledgment, and the
error returned with the lists is nil. -/
theorem undecodable_message_skipped (c : pubsubapi.Live) (env : pubsubapi.Env)
    (pre post : List pubsubapi.ReceivedMessage) (m : pubsubapi.ReceivedMessage)
    (hbad : env.base64Decode m.Message.Data = none ∨
      ∃ data, env.base64Decode m.Message.Data = some data ∧
        (∀ publishTime, env.parseRFC3339Nano m.Message.PublishTime = some publishTime →
          (env.now pre.length).After (publishTime.Add c.maxMessageAge) = false) ∧
        (env.jsonParse data = none ∨
          ∃ event resourceUpdate err,
            pubsubapi.unmarshalSdmEvent env.jsonParse env.parseRFC3339 data = .ok event ∧
            event.ResourceUpdate = some resourceUpdate ∧
            Traits.Parse env.parseRFC3339 NewTraits resourceUpdate.Traits = .error err)) :
    c.parseReceivedMessages env (pre ++ m :: post) =
      c.parseReceivedMessages
        { env with now := fun j => if j < pre.length then env.now j else env.now (j + 1) }
        (pre ++ post) ∧
    ∀ toAck events err,
      c.parseReceivedMessages env (pre ++ m :: post) = .ok (toAck, events, err) →
        err = none := by
  refine ⟨parseReceivedMessages_dropped c env pre post m
    (fate_undecodable c env pre.length m ?_), fun toAck events err h =>
      (parseReceivedMessages_eq_ok c env _ toAck events err h).2⟩
  rcases hbad with h | ⟨data, hdata, hfresh, h⟩
  · exact Or.inl h
  · refine Or.inr ⟨data, hdata, fun publishTime hp => ?_, h⟩
    rw [← after_add_iff, hfresh publishTime hp]
    exact Bool.false_ne_true

theorem undecodable_message_skipped_witness :
    pubsubapi.Live.parseReceivedMessages
        { sdmProjectID := "sdm-project", gcpProjectID := "gcp-project",
          subscriptionID := "subscription", credsFile := "creds.json", timeout := 0,
          maxMessageAge := 120000000000, logMessages := false }
        { base64Decode := fun s =>
            if s = "e30=" then some "\x7b\x7d"
            else if s = "ew==" then some "\x7b"
            else none,
          parseRFC3339Nano := fun _ => none,
          parseRFC3339 := fun _ => none,
          jsonParse := fun s => if s = "\x7b\x7d" then some (.object []) else none,
          now := fun _ => unixEpoch + 3600000000000 }
        [ { AckId := "ack-1", DeliveryAttempt := 1,
            Message := { Data := "e30=", MessageId := "1", PublishTime := "" } },
          { AckId := "ack-2", DeliveryAttempt := 1,
            Message := { Data := "ew==", MessageId := "2", PublishTime := "" } },
          { AckId := "ack-3", DeliveryAttempt := 1,
            Message := { Data := "e30=", MessageId := "3", PublishTime := "" } } ]
      = .ok (["ack-1", "ack-3"], [], none) :=
  (undecodable_message_skipped
    { sdmProjectID := "sdm-project", gcpProjectID := "gcp-project",
      subscriptionID := "subscription", credsFile := "creds.json", timeout := 0,
      maxMessageAge := 120000000000, logMessages := false }
    { base64Decode := fun s =>
        if s = "e30=" then some "\x7b\x7d"
        else if s = "ew==" then some "\x7b"
        else none,
      parseRFC3339Nano := fun _ => none,
      parseRFC3339 := fun _ => none,
      jsonParse := fun s => if s = "\x7b\x7d" then some (.object []) else none,
      now := fun _ => unixEpoch + 3600000000000 }
    [ { AckId := "ack-1", DeliveryAttempt := 1,
        Message := { Data := "e30=", MessageId := "1", PublishTime := "" } } ]
    [ { AckId := "ack-3", DeliveryAttempt := 1,
        Message := { Data := "e30=", MessageId := "3", PublishTime := "" } } ]
    { AckId := "ack-2", DeliveryAttempt := 1,
      Message := { Data := "ew==", MessageId := "2", PublishTime := "" } }
    (Or.inr ⟨"\x7b", rfl, (fun _ h => by cases h), Or.inl rfl⟩)).1.trans rfl

/-! ## OAuth token state -/

/-- With a client secret, the refresh flow posts its request to the token URL, whatever
happens afterwards. -/
theorem refreshTokenFlow_posts (s : stoauth.State) (w : stoauth.RefreshWorld)
    (hsecret : s.clientSecret ≠ "") :
    ∃ body, Effect.httpPost s.TokenURL "application/json" body ∈ (s.refreshTokenFlow w).2.1 := by
  refine ⟨Body.refreshAccessTokenRequest
    { stoauth.newRefreshTokenRequest w.requestID with
      CallbackAuthentication := some
        { ClientID := some s.ClientID, ClientSecret := some s.clientSecret,
          GrantType := some "refresh_token", RefreshToken := some s.refreshToken } }, ?_⟩
  unfold stoauth.State.refreshTokenFlow
  rw [if_neg hsecret]
  simp only
  split
  · simp
  · split
    · simp
    · split
      · simp
      · split
        · simp
        · split
          · simp
          · split
            · simp
            · split
              · simp
              · split
                · simp
                · split
                  · simp
                  · split
                    · simp
                    · simp

/-- Without a client secret the refresh flow fails before any effect. -/
theorem refreshTokenFlow_no_secret (s : stoauth.State) (w : stoauth.RefreshWorld)
    (hsecret : s.clientSecret = "") :
    s.refreshTokenFlow w =
      (s, [], .ok (some (.errorf "no clientSecret, cannot execute refresh token flow" []))) := by
  unfold stoauth.State.refreshTokenFlow
  rw [if_pos hsecret]

/-! ## C18, C19: the cached access token -/

/-- C18. For a clock that reads a time from 1970 on and a `MinAccessTokenValidity` in the
range of `int64`: when the access token is non-empty and its expiry is later than
now + MinAccessTokenValidity, `GetAccessToken` returns that token with no error, performs
no effect (no refresh exchange, no file written) and leaves the state unchanged.  When the
expiry is not later than now + MinAccessTokenValidity, equality included, a call either
returns an error with the empty token, or posts a refresh request to the token URL: the
cached token is never returned without a refresh. -/
theorem GetAccessToken_cached (s : stoauth.State) (now : Time) (w : stoauth.RefreshWorld)
    (hclock : unixEpoch ≤ now) (hvalidity : -2 ^ 63 ≤ s.MinAccessTokenValidity) :
    (s.accessToken ≠ "" →
      s.accessTokenExpiry.After (now.Add s.MinAccessTokenValidity) = true →
      s.GetAccessToken now w = (s, [], .ok (s.accessToken, none))) ∧
    (s.accessTokenExpiry.After (now.Add s.MinAccessTokenValidity) = false →
      (∃ e, s.GetAccessToken now w = (s, [], .ok ("", some e))) ∨
      ∃ body, Effect.httpPost s.TokenURL "application/json" body
        ∈ (s.GetAccessToken now w).2.1) := by
  constructor
  · intro htok hlater
    have hpos : (0 : Int) ≤ now + s.MinAccessTokenValidity := by
      have h1 : (62135596800 * 1000000000 : Int) ≤ now := hclock
      have h2 : (-2 ^ 63 : Int) ≤ s.MinAccessTokenValidity := hvalidity
      norm_num at h1 h2
      omega
    have hlt : now + s.MinAccessTokenValidity < s.accessTokenExpiry := by
      simpa [Time.After, Time.Add] using hlater
    have hne : s.accessTokenExpiry ≠ 0 := by
      intro h
      rw [h] at hlt
      exact absurd (lt_of_le_of_lt hpos hlt) (lt_irrefl _)
    unfold stoauth.State.GetAccessToken
    rw [if_pos ⟨htok, hne, hlater⟩]
  · intro hle
    have hnot : ¬ (s.accessToken ≠ "" ∧ s.accessTokenExpiry ≠ 0 ∧
        s.accessTokenExpiry.After (now.Add s.MinAccessTokenValidity) = true) := by
      rintro ⟨_, _, h⟩
      rw [hle] at h
      cases h
    unfold stoauth.State.GetAccessToken
    rw [if_neg hnot]
    by_cases href : s.refreshToken = ""
    · rw [if_pos href]
      exact Or.inl ⟨_, rfl⟩
    · rw [if_neg href]
      by_cases hsecret : s.clientSecret = ""
      · rw [refreshTokenFlow_no_secret s w hsecret]
        exact Or.inl ⟨_, rfl⟩
      · obtain ⟨body, hbody⟩ := refreshTokenFlow_posts s w hsecret
        refine Or.inr ⟨body, ?_⟩
        rcases hflow : s.refreshTokenFlow w with ⟨s', trace, r⟩
        rw [hflow] at hbody
        simp only at hbody
        rcases r with p | (_ | err)
        · exact hbody
        · simp only
          exact List.mem_append_left _ hbody
        · exact hbody

theorem GetAccessToken_cached_witness :
    stoauth.State.GetAccessToken
        { ClientID := "client", Scope := "scope", TokenURL := "https://st/token",
          StateCallbackURL := "https://st/callback", MinAccessTokenValidity := 60000000000,
          clientSecret := "secret", accessToken := "token",
          accessTokenExpiry := unixEpoch + 7200000000000, refreshToken := "refresh",
          fileName := "state.json" }
        unixEpoch
        { requestID := "r1", post := fun _ _ => .error .jsonSyntaxError,
          decode := fun _ => .error .jsonSyntaxError, now := unixEpoch, save := none }
      = ({ ClientID := "client", Scope := "scope", TokenURL := "https://st/token",
           StateCallbackURL := "https://st/callback", MinAccessTokenValidity := 60000000000,
           clientSecret := "secret", accessToken := "token",
           accessTokenExpiry := unixEpoch + 7200000000000, refreshToken := "refresh",
           fileName := "state.json" }, [], .ok ("token", none)) ∧
    ((∃ e, stoauth.State.GetAccessToken
        { ClientID := "client", Scope := "scope", TokenURL := "https://st/token",
          StateCallbackURL := "https://st/callback", MinAccessTokenValidity := 60000000000,
          clientSecret := "secret", accessToken := "token",
          accessTokenExpiry := unixEpoch + 60000000000, refreshToken := "refresh",
          fileName := "state.json" }
        unixEpoch
        { requestID := "r1", post := fun _ _ => .error .jsonSyntaxError,
          decode := fun _ => .error .jsonSyntaxError, now := unixEpoch, save := none }
      = ({ ClientID := "client", Scope := "scope", TokenURL := "https://st/token",
           StateCallbackURL := "https://st/callback", MinAccessTokenValidity := 60000000000,
           clientSecret := "secret", accessToken := "token",
           accessTokenExpiry := unixEpoch + 60000000000, refreshToken := "refresh",
           fileName := "state.json" }, [], .ok ("", some e))) ∨
      ∃ body, Effect.httpPost "https://st/token" "application/json" body ∈
        (stoauth.State.GetAccessToken
          { ClientID := "client", Scope := "scope", TokenURL := "https://st/token",
            StateCallbackURL := "https://st/callback", MinAccessTokenValidity := 60000000000,
            clientSecret := "secret", accessToken := "token",
            accessTokenExpiry := unixEpoch + 60000000000, refreshToken := "refresh",
            fileName := "state.json" }
          unixEpoch
          { requestID := "r1", post := fun _ _ => .error .jsonSyntaxError,
            decode := fun _ => .error .jsonSyntaxError, now := unixEpoch,
            save := none }).2.1) :=
  ⟨(GetAccessToken_cached _ unixEpoch _ (le_refl _) (by decide)).1 (by decide) (by decide),
    (GetAccessToken_cached _ unixEpoch _ (le_refl _) (by decide)).2 (by decide)⟩

/-- C19. When the access token is empty, or its expiry is the zero time, or its expiry is
not later than now + MinAccessTokenValidity, and the refresh token is empty,
`GetAccessToken` returns the empty token with the "no refresh token found" error, performs
no effect (no refresh exchange) and leaves the state unchanged. -/
theorem GetAccessToken_reauthorization_required (s : stoauth.State) (now : Time)
    (w : stoauth.RefreshWorld)
    (hunusable : s.accessToken = "" ∨ s.accessTokenExpiry = 0 ∨
      s.accessTokenExpiry.After (now.Add s.MinAccessTokenValidity) = false)
    (href : s.refreshToken = "") :
    s.GetAccessToken now w =
      (s, [], .ok ("", some (.errorf
        ("access token expired or missing, and no refresh token found" ++
          " - call AuthCodeFlow() to populate") []))) := by
  have hnot : ¬ (s.accessToken ≠ "" ∧ s.accessTokenExpiry ≠ 0 ∧
      s.accessTokenExpiry.After (now.Add s.MinAccessTokenValidity) = true) := by
    rintro ⟨h1, h2, h3⟩
    rcases hunusable with h | h | h
    · exact h1 h
    · exact h2 h
    · rw [h] at h3
      cases h3
  unfold stoauth.State.GetAccessToken
  rw [if_neg hnot, if_pos href]
  rfl

theorem GetAccessToken_reauthorization_required_witness :
    stoauth.State.GetAccessToken
        { ClientID := "client", Scope := "scope", TokenURL := "https://st/token",
          StateCallbackURL := "https://st/callback", MinAccessTokenValidity := 60000000000,
          clientSecret := "secret", accessToken := "token",
          accessTokenExpiry := unixEpoch + 30000000000, refreshToken := "",
          fileName := "state.json" }
        unixEpoch
        { requestID := "r1", post := fun _ _ => .error .jsonSyntaxError,
          decode := fun _ => .error .jsonSyntaxError, now := unixEpoch, save := none }
      = ({ ClientID := "client", Scope := "scope", TokenURL := "https://st/token",
           StateCallbackURL := "https://st/callback", MinAccessTokenValidity := 60000000000,
           clientSecret := "secret", accessToken := "token",
           accessTokenExpiry := unixEpoch + 30000000000, refreshToken := "",
           fileName := "state.json" }, [],
          .ok ("", some (.errorf
            ("access token expired or missing, and no refresh token found" ++
              " - call AuthCodeFlow() to populate") []))) :=
  GetAccessToken_reauthorization_required _ unixEpoch _ (Or.inr (Or.inr (by decide))) rfl

/-! ## Publishing an event -/

/-- A key that is found is one of the keys of the map. -/
theorem mapGet_some_mem {κ ν : Type} [DecidableEq κ] (m : List (κ × ν)) (k : κ) (v : ν)
    (h : mapGet m k = some v) : k ∈ m.map Prod.fst := by
  induction m with
  | nil => cases h
  | cons hd rest ih =>
    obtain ⟨k0, v0⟩ := hd
    by_cases h0 : k0 = k
    · subst h0
      simp
    · simp only [mapGet, if_neg h0] at h
      simp [ih h]

/-- On a well typed trait set no translation aborts. -/
theorem StCapability_ok (traits : Traits) (hwt : traits.WellTyped) (v : TraitValue) :
    v.StCapability traits = none ∨ ∃ l, v.StCapability traits = some (.ok l) := by
  obtain ⟨⟨eco, heco⟩, ⟨mode, hmode⟩, ⟨fan, hfan⟩⟩ := wellTyped_slots traits hwt
  cases v with
  | connectivity t => exact Or.inr ⟨_, rfl⟩
  | humidity t => exact Or.inr ⟨_, rfl⟩
  | temperature t => exact Or.inr ⟨_, rfl⟩
  | structuresInfo t => exact Or.inl rfl
  | roomInfo t => exact Or.inl rfl
  | deviceInfo t => exact Or.inl rfl
  | settings t => exact Or.inl rfl
  | thermostatEco t => exact Or.inl rfl
  | fan t =>
    right
    simp only [TraitValue.StCapability, DeviceFanTraits.ToSmartthingsState, heco, hmode]
    rcases eco with _ | ⟨en, h, c⟩ <;> rcases mode with _ | ⟨m⟩ <;> exact ⟨_, rfl⟩
  | thermostatMode t =>
    right
    simp only [TraitValue.StCapability, DeviceThermostatMode.ToSmartthingsState, heco]
    rcases eco with _ | ⟨en, h, c⟩ <;> exact ⟨_, rfl⟩
  | thermostatHvac t =>
    right
    simp only [TraitValue.StCapability, DeviceThermostatHvac.ToSmartthingsState, hfan]
    rcases fan with _ | ⟨en, tm⟩ <;> exact ⟨_, rfl⟩
  | temperatureSetpoint t =>
    right
    simp only [TraitValue.StCapability,
      DeviceThermostatTemperatureSetpoint.ToSmartthingsState, heco]
    rcases eco with _ | ⟨_ | _, h, c⟩ <;> exact ⟨_, rfl⟩

/-- On a well typed trait set the loop of `makeDeviceStates` returns the list it was given
followed by the translations of the listed traits, in the order of the list. -/
theorem makeDeviceStatesLoop_ok (event : pubsubapi.SdmEvent) (hwt : event.Traits.WellTyped)
    (ids : List traitID) (states : List DeviceStateStatesItems0) :
    cmd.makeDeviceStatesLoop event ids states =
      .ok (states ++ (ids.map (cmd.traitStates event)).flatten) := by
  induction ids generalizing states with
  | nil => simp [cmd.makeDeviceStatesLoop]
  | cons id rest ih =>
    rw [cmd.makeDeviceStatesLoop]
    simp only [List.map_cons, List.flatten_cons]
    cases htr : event.Traits.Trait id with
    | none =>
      have hhead : cmd.traitStates event id = [] := by simp only [cmd.traitStates, htr]
      rw [hhead, List.nil_append]
      exact ih states
    | some nestTrait =>
      simp only
      rcases StCapability_ok event.Traits hwt nestTrait with hcap | ⟨l, hcap⟩
      · have hhead : cmd.traitStates event id = [] := by
          simp only [cmd.traitStates, htr, hcap]
        rw [hcap, hhead, List.nil_append]
        exact ih states
      · have hhead : cmd.traitStates event id = l := by
          simp only [cmd.traitStates, htr, hcap]
        rw [hcap, hhead]
        simp only
        rw [ih (states ++ l), List.append_assoc]

/-! ## C20: the health entries of a published event -/

/-- C20. For every event with a well typed trait set (every set built by `Parse` is),
`makeDeviceStates` returns the concatenation of the per-trait translations, in the order
of the trait identifiers, followed by exactly one synthetic entry (component "main",
capability "st.healthcheck", attribute "healthStatus", value "offline"), which is
therefore the last element; every entry carries the event timestamp in milliseconds.  When
the set holds a Connectivity trait that is online, the entries before the synthetic one
contain (component "main", capability "st.healthCheck", attribute "healthStatus", value
"online"). -/
theorem makeDeviceStates_health_entries (event : pubsubapi.SdmEvent)
    (hwt : event.Traits.WellTyped) :
    cmd.makeDeviceStates event = .ok
      (((event.Traits.TraitIDs.map (cmd.traitStates event)).flatten).map (fun s =>
          { s with Timestamp := some (event.Timestamp.UnixNano.tdiv 1000000) }) ++
        [ { Component := "main", Capability := "st.healthcheck",
            Attribute := "healthStatus", Value := .string "offline",
            Timestamp := some (event.Timestamp.UnixNano.tdiv 1000000) } ]) ∧
    (event.Traits.Trait sdmDevicesTraitsConnectivity = some (.connectivity ⟨true⟩) →
      ({ Component := "main", Capability := "st.healthCheck",
         Attribute := "healthStatus", Value := .string "online",
         Timestamp := some (event.Timestamp.UnixNano.tdiv 1000000) }
        : DeviceStateStatesItems0) ∈
        ((event.Traits.TraitIDs.map (cmd.traitStates event)).flatten).map (fun s =>
          { s with Timestamp := some (event.Timestamp.UnixNano.tdiv 1000000) })) := by
  constructor
  · unfold cmd.makeDeviceStates
    simp only [makeDeviceStatesLoop_ok event hwt, List.nil_append, List.map_append,
      List.map_cons, List.map_nil]
  · intro hconn
    refine List.mem_map.mpr
      ⟨{ Component := "main", Capability := "st.healthCheck",
         Attribute := "healthStatus", Value := .string "online" }, ?_, rfl⟩
    refine List.mem_flatten.mpr ⟨cmd.traitStates event sdmDevicesTraitsConnectivity, ?_, ?_⟩
    · exact List.mem_map.mpr ⟨_, mapGet_some_mem _ _ _ hconn, rfl⟩
    · have h : cmd.traitStates event sdmDevicesTraitsConnectivity =
          [{ Component := "main", Capability := "st.healthCheck",
             Attribute := "healthStatus", Value := .string "online" }] := by
        simp only [cmd.traitStates, hconn]
        rfl
      rw [h]
      exact List.mem_singleton.mpr rfl

theorem makeDeviceStates_health_entries_witness :
    Traits.Parse (fun _ => none) NewTraits
        (some (.object [("sdm.devices.traits.Connectivity",
          .object [("status", .string "ONLINE")])]))
      = .ok ⟨[(sdmDevicesTraitsConnectivity, .connectivity ⟨true⟩)]⟩ ∧
    cmd.makeDeviceStates
        { AckID := "ack-1", DeviceID := "device-1",
          Timestamp := unixEpoch + 1600000000123456789,
          Traits := ⟨[(sdmDevicesTraitsConnectivity, .connectivity ⟨true⟩)]⟩ }
      = .ok
        [ { Component := "main", Capability := "st.healthCheck",
            Attribute := "healthStatus", Value := .string "online",
            Timestamp := some 1600000000123 },
          { Component := "main", Capability := "st.healthcheck",
            Attribute := "healthStatus", Value := .string "offline",
            Timestamp := some 1600000000123 } ] :=
  ⟨rfl,
    (makeDeviceStates_health_entries
      { AckID := "ack-1", DeviceID := "device-1",
        Timestamp := unixEpoch + 1600000000123456789,
        Traits := ⟨[(sdmDevicesTraitsConnectivity, .connectivity ⟨true⟩)]⟩ }
      (Parse_wellTyped (fun _ => none)
        (some (.object [("sdm.devices.traits.Connectivity",
          .object [("status", .string "ONLINE")])]))
        NewTraits _ wellTyped_NewTraits rfl)).1.trans rfl⟩

/-! ## C21: the timestamp of the published entries -/

/-- An integer in the range of `int64` is its own conversion. -/
theorem wrapInt64_of_range (x : Int) (hlo : -9223372036854775808 ≤ x)
    (hhi : x < 9223372036854775808) : wrapInt64 x = x := by
  unfold wrapInt64
  rw [Int.emod_eq_of_lt (by omega) (by omega)]
  omega

/-- C21 as stated fails. A message whose envelope has a resource update and no
`timestamp` member is delivered as an event with the zero time, 62135596800 seconds
before the Unix epoch; `makeDeviceStates` stamps its entries with -6795364578871, which
is not that instant in milliseconds since the epoch, -62135596800000. -/
theorem zero_timestamp_counterexample :
    pubsubapi.Live.parseReceivedMessages
        { sdmProjectID := "sdm-project", gcpProjectID := "gcp-project",
          subscriptionID := "subscription", credsFile := "creds.json", timeout := 0,
          maxMessageAge := 120000000000, logMessages := false }
        { base64Decode := fun s => some s,
          parseRFC3339Nano := fun _ => none,
          parseRFC3339 := fun _ => none,
          jsonParse := fun _ =>
            some (.object [("resourceUpdate",
              .object [("name", .string "enterprises/sdm-project/devices/d1"),
                ("traits", .object [])])]),
          now := fun _ => unixEpoch + 3600000000000 }
        [ { AckId := "ack-1", DeliveryAttempt := 1,
            Message := { Data := "envelope", MessageId := "1", PublishTime := "" } } ]
      = .ok ([], [{ AckID := "ack-1", DeviceID := "d1", Timestamp := 0,
                    Traits := NewTraits }], none) ∧
    cmd.makeDeviceStates
        { AckID := "ack-1", DeviceID := "d1", Timestamp := 0, Traits := NewTraits }
      = .ok
        [ { Component := "main", Capability := "st.healthcheck",
            Attribute := "healthStatus", Value := .string "offline",
            Timestamp := some (-6795364578871) } ] ∧
    Int.tdiv ((0 : Time) - unixEpoch) 1000000 = -62135596800000 ∧
    (-6795364578871 : Int) ≠ -62135596800000 :=
  ⟨rfl, rfl, by decide, by decide⟩

/-- C21, amended. For every event, every entry of the list returned by `makeDeviceStates`
(the per-trait entries and the synthetic one) carries the same timestamp, the `int64`
value of `UnixNano` of the event time divided by 1,000,000 with truncation, and for a well
typed trait set the list is returned.  For an event time within the range of `int64`
nanoseconds around the Unix epoch (the years 1678 to 2262) that timestamp is the event
time in whole milliseconds since the epoch. -/
theorem makeDeviceStates_common_timestamp (event : pubsubapi.SdmEvent) :
    (∀ r, cmd.makeDeviceStates event = .ok r →
      ∀ s ∈ r, s.Timestamp = some (event.Timestamp.UnixNano.tdiv 1000000)) ∧
    (event.Traits.WellTyped → ∃ r, cmd.makeDeviceStates event = .ok r) ∧
    (-9223372036854775808 ≤ event.Timestamp - unixEpoch →
      event.Timestamp - unixEpoch < 9223372036854775808 →
      event.Timestamp.UnixNano.tdiv 1000000
        = (event.Timestamp - unixEpoch).tdiv 1000000) := by
  refine ⟨?_, ?_, ?_⟩
  · intro r hr s hs
    unfold cmd.makeDeviceStates at hr
    simp only at hr
    cases hl : cmd.makeDeviceStatesLoop event event.Traits.TraitIDs [] with
    | error p => rw [hl] at hr; cases hr
    | ok states =>
      rw [hl] at hr
      simp only [Except.ok.injEq] at hr
      subst hr
      obtain ⟨s0, _, rfl⟩ := List.mem_map.mp hs
      rfl
  · intro hwt
    simp only [cmd.makeDeviceStates, makeDeviceStatesLoop_ok event hwt]
    exact ⟨_, rfl⟩
  · intro hlo hhi
    unfold Time.UnixNano
    rw [wrapInt64_of_range _ hlo hhi]

theorem makeDeviceStates_common_timestamp_witness :
    (∀ s ∈
        [ ({ Component := "main", Capability := "st.healthCheck",
             Attribute := "healthStatus", Value := .string "online",
             Timestamp := some 1600000000123 } : DeviceStateStatesItems0),
          { Component := "main", Capability := "st.healthcheck",
            Attribute := "healthStatus", Value := .string "offline",
            Timestamp := some 1600000000123 } ],
      s.Timestamp = some (Int.tdiv
        (Time.UnixNano (unixEpoch + 1600000000123456789)) 1000000)) ∧
    Int.tdiv (Time.UnixNano (unixEpoch + 1600000000123456789)) 1000000
      = Int.tdiv ((unixEpoch + 1600000000123456789 : Time) - unixEpoch) 1000000 :=
  ⟨(makeDeviceStates_common_timestamp
      { AckID := "ack-1", DeviceID := "device-1",
        Timestamp := unixEpoch + 1600000000123456789,
        Traits := ⟨[(sdmDevicesTraitsConnectivity, .connectivity ⟨true⟩)]⟩ }).1 _ rfl,
    (makeDeviceStates_common_timestamp
      { AckID := "ack-1", DeviceID := "device-1",
        Timestamp := unixEpoch + 1600000000123456789,
        Traits := ⟨[(sdmDevicesTraitsConnectivity, .connectivity ⟨true⟩)]⟩ }).2.2
      (by decide) (by decide)⟩

/-! ## C22: the string form of the OAuth state -/

/-- The string form, written out: the identifier, scope, URLs and expiry as they are, the
three secrets through `hashOf`. -/
theorem State_String_eq (lib : stoauth.Render) (s : stoauth.State) :
    s.String lib =
      "ClientID [" ++ s.ClientID ++ "], clientSecret [" ++ stoauth.hashOf lib s.clientSecret ++
      "], Scope [" ++ s.Scope ++ "] TokenURL [" ++ s.TokenURL ++ "]  StateCallbackURL [" ++
      s.StateCallbackURL ++ "]  accessToken: [" ++ stoauth.hashOf lib s.accessToken ++
      "]  accessTokenExpiry [" ++ lib.timeString s.accessTokenExpiry ++
      "]  refreshToken [" ++ stoauth.hashOf lib s.refreshToken ++ "]" := by
  have h : s.String lib =
      "ClientID [" ++ (s.ClientID ++ ("], clientSecret [" ++
        (stoauth.hashOf lib s.clientSecret ++ ("], Scope [" ++ (s.Scope ++
        ("] TokenURL [" ++ (s.TokenURL ++ ("]  StateCallbackURL [" ++
        (s.StateCallbackURL ++ ("]  accessToken: [" ++ (stoauth.hashOf lib s.accessToken ++
        ("]  accessTokenExpiry [" ++ (lib.timeString s.accessTokenExpiry ++
        ("]  refreshToken [" ++ (stoauth.hashOf lib s.refreshToken ++ "]"))))))))))))))) :=
    rfl
  rw [h]
  simp only [String.append_assoc]

/-- C22. The string form of an OAuth state shows the client identifier, the scope, the two
URLs and the expiry as they are, and depends on the client secret, the access token and
the refresh token only through `hashOf` (base64 of their SHA-1): two states that agree on
the five plain fields and on the three hashes have the same string form, whatever their
secrets and other fields are. -/
theorem State_String_hides_secrets (lib : stoauth.Render) (s1 s2 : stoauth.State)
    (hid : s1.ClientID = s2.ClientID) (hscope : s1.Scope = s2.Scope)
    (htoken : s1.TokenURL = s2.TokenURL)
    (hcallback : s1.StateCallbackURL = s2.StateCallbackURL)
    (hexpiry : s1.accessTokenExpiry = s2.accessTokenExpiry)
    (hsecret : stoauth.hashOf lib s1.clientSecret = stoauth.hashOf lib s2.clientSecret)
    (haccess : stoauth.hashOf lib s1.accessToken = stoauth.hashOf lib s2.accessToken)
    (hrefresh : stoauth.hashOf lib s1.refreshToken = stoauth.hashOf lib s2.refreshToken) :
    s1.String lib = s2.String lib ∧
    s1.String lib =
      "ClientID [" ++ s1.ClientID ++ "], clientSecret [" ++
      stoauth.hashOf lib s1.clientSecret ++
      "], Scope [" ++ s1.Scope ++ "] TokenURL [" ++ s1.TokenURL ++ "]  StateCallbackURL [" ++
      s1.StateCallbackURL ++ "]  accessToken: [" ++ stoauth.hashOf lib s1.accessToken ++
      "]  accessTokenExpiry [" ++ lib.timeString s1.accessTokenExpiry ++
      "]  refreshToken [" ++ stoauth.hashOf lib s1.refreshToken ++ "]" := by
  refine ⟨?_, State_String_eq lib s1⟩
  rw [State_String_eq lib s1, State_String_eq lib s2, hid, hscope, htoken, hcallback, hexpiry,
    hsecret, haccess, hrefresh]

theorem State_String_hides_secrets_witness :
    stoauth.State.String
        { sha1Sum := fun s => [s.length % 2], encodeToString := fun l => toString l,
          timeString := fun t => toString t }
        { ClientID := "client", Scope := "scope", TokenURL := "https://st/token",
          StateCallbackURL := "https://st/callback", MinAccessTokenValidity := 60000000000,
          clientSecret := "secret", accessToken := "token-1", accessTokenExpiry := 7,
          refreshToken := "refresh-1", fileName := "state.json" }
      = stoauth.State.String
        { sha1Sum := fun s => [s.length % 2], encodeToString := fun l => toString l,
          timeString := fun t => toString t }
        { ClientID := "client", Scope := "scope", TokenURL := "https://st/token",
          StateCallbackURL := "https://st/callback", MinAccessTokenValidity := 0,
          clientSecret := "s3cr3t", accessToken := "token-2", accessTokenExpiry := 7,
          refreshToken := "refresh-2", fileName := "" } :=
  (State_String_hides_secrets _ _ _ rfl rfl rfl rfl rfl (by decide) (by decide)
    (by decide)).1

/-! ## C23: what the token exchanges and the callback log -/

/-- The log entries of the refresh exchange are debug entries. -/
theorem refreshTokenFlow_logs (s : stoauth.State) (w : stoauth.RefreshWorld) :
    ∀ e ∈ (s.refreshTokenFlow w).2.1, e.atDebug := by
  unfold stoauth.State.refreshTokenFlow
  split
  · simp
  · simp only
    repeat' split
    all_goals simp [Effect.atDebug]

/-- The log entries of the authorization-code exchange are debug entries. -/
theorem AuthCodeFlow_logs (s : stoauth.State) (w : stoauth.RefreshWorld)
    (requestID code : String) :
    ∀ e ∈ (s.AuthCodeFlow w requestID code).2.1, e.atDebug := by
  unfold stoauth.State.AuthCodeFlow
  split
  · simp
  · simp only
    repeat' split
    all_goals simp [Effect.atDebug]

/-- The refresh exchange leaves the file name of the state as it is. -/
theorem refreshTokenFlow_fileName (s : stoauth.State) (w : stoauth.RefreshWorld) :
    (s.refreshTokenFlow w).1.fileName = s.fileName := by
  unfold stoauth.State.refreshTokenFlow
  split
  · rfl
  · simp only
    repeat' split
    all_goals rfl

/-- The log entries of `GetAccessToken` are those of the refresh exchange and, on a state
without a file name, the fixed warning of `save`. -/
theorem GetAccessToken_logs (s : stoauth.State) (now : Time) (w : stoauth.RefreshWorld) :
    ∀ e ∈ (s.GetAccessToken now w).2.1,
      e.atDebug ∨ (s.fileName = "" ∧
        e = .log "warning" none "cannot save oauth state, no file name available" []) := by
  have hflow := refreshTokenFlow_logs s w
  have hname := refreshTokenFlow_fileName s w
  unfold stoauth.State.GetAccessToken
  split
  · simp
  · split
    · simp
    · rcases hf : s.refreshTokenFlow w with ⟨s', trace, r⟩
      rw [hf] at hflow hname
      simp only at hflow hname
      rcases r with p | (_ | err)
      · exact fun e he => Or.inl (hflow e he)
      · simp only
        intro e he
        rcases List.mem_append.mp he with h | h
        · exact Or.inl (hflow e h)
        · unfold stoauth.State.save at h
          split at h
          · unfold stoauth.State.Save at h
            split at h <;> simp at h <;> subst h <;> exact Or.inl trivial
          · rename_i hne
            simp at h
            subst h
            refine Or.inr ⟨?_, rfl⟩
            rw [← hname]
            simpa using hne
      · exact fun e he => Or.inl (hflow e he)

/-- The log entries of the state callback are those of `GetAccessToken` and the debug
entry that prints the request. -/
theorem executeDeviceStateCallback_logs (tokenState : stoauth.State)
    (deviceInfo : models.DeviceState) (w : cmd.CallbackWorld) :
    ∀ e ∈ (cmd.executeDeviceStateCallback tokenState deviceInfo w).1,
      e.atDebug ∨ (tokenState.fileName = "" ∧
        e = .log "warning" none "cannot save oauth state, no file name available" []) := by
  have htok := GetAccessToken_logs tokenState w.now w.refresh
  rcases hg : tokenState.GetAccessToken w.now w.refresh with ⟨s', trace, r⟩
  rw [hg] at htok
  simp only at htok
  unfold cmd.executeDeviceStateCallback
  rw [hg]
  rcases r with p | ⟨token, _ | err⟩
  · exact htok
  · simp only
    repeat' split
    all_goals
      intro e he
      rcases List.mem_append.mp he with h | h
      · exact htok e h
      · simp only [List.mem_cons, List.mem_singleton, List.not_mem_nil, or_false] at h
        rcases h with rfl | rfl
        · exact Or.inl rfl
        · exact Or.inl trivial
  · exact htok

/-- The request entry of the refresh exchange and, after a 200 answer, the response
entry. -/
theorem refreshTokenFlow_debug_entries (s : stoauth.State) (w : stoauth.RefreshWorld)
    (hsecret : s.clientSecret ≠ "") :
    Effect.log "debug" none "Sending refresh token request to Smartthings URL [%s]: %s"
        [.string s.TokenURL, .body (stoauth.refreshRequest s w.requestID)]
      ∈ (s.refreshTokenFlow w).2.1 ∧
    ∀ resp bodyBytes, w.post s.TokenURL (stoauth.refreshRequest s w.requestID) = .ok resp →
      resp.Body = .ok bodyBytes → resp.StatusCode = 200 →
      Effect.log "debug" none "Refresh Token response: %s" [.string bodyBytes]
        ∈ (s.refreshTokenFlow w).2.1 := by
  constructor
  · unfold stoauth.State.refreshTokenFlow
    rw [if_neg hsecret]
    simp only
    repeat' split
    all_goals simp [stoauth.newRefreshTokenRequest, stoauth.refreshRequest,
      models.InteractionTypeRefreshAccessTokens]
  · intro resp bodyBytes hpost hbody hcode
    have hpost' : w.post s.TokenURL
        (Body.refreshAccessTokenRequest
          { stoauth.newRefreshTokenRequest w.requestID with
            CallbackAuthentication := some
              { ClientID := some s.ClientID, ClientSecret := some s.clientSecret,
                GrantType := some "refresh_token", RefreshToken := some s.refreshToken } })
        = .ok resp := hpost
    unfold stoauth.State.refreshTokenFlow
    rw [if_neg hsecret]
    simp only [hpost', hbody, hcode]
    repeat' split
    all_goals first | contradiction | simp

/-- The request entry of the authorization-code exchange and, after a 200 answer, the
response entry. -/
theorem AuthCodeFlow_debug_entries (s : stoauth.State) (w : stoauth.RefreshWorld)
    (requestID code : String) (hsecret : s.clientSecret ≠ "") :
    Effect.log "debug" none "Sending access token request to Smartthings URL [%s]: %s"
        [.string s.TokenURL, .body (stoauth.authCodeRequest s requestID code)]
      ∈ (s.AuthCodeFlow w requestID code).2.1 ∧
    ∀ resp bodyBytes, w.post s.TokenURL (stoauth.authCodeRequest s requestID code) = .ok resp →
      resp.Body = .ok bodyBytes → resp.StatusCode = 200 →
      Effect.log "debug" none "Access Token response: %s" [.string bodyBytes]
        ∈ (s.AuthCodeFlow w requestID code).2.1 := by
  constructor
  · unfold stoauth.State.AuthCodeFlow
    rw [if_neg hsecret]
    simp only
    repeat' split
    all_goals simp [stoauth.newAccessTokenRequest, stoauth.authCodeRequest,
      models.InteractionTypeAccessTokenRequest]
  · intro resp bodyBytes hpost hbody hcode
    have hpost' : w.post s.TokenURL
        (Body.accessTokenRequest
          { stoauth.newAccessTokenRequest requestID with
            CallbackAuthentication := some
              { ClientID := some s.ClientID, ClientSecret := some s.clientSecret,
                Code := some code, GrantType := some "authorization_code" } })
        = .ok resp := hpost
    unfold stoauth.State.AuthCodeFlow
    rw [if_neg hsecret]
    simp only [hpost', hbody, hcode]
    repeat' split
    all_goals first | contradiction | simp

/-- The request entry of the state callback, for the token that `GetAccessToken`
returns. -/
theorem executeDeviceStateCallback_debug_entry (tokenState : stoauth.State)
    (deviceInfo : models.DeviceState) (w : cmd.CallbackWorld) (st : stoauth.State)
    (trace : List Effect) (token : String)
    (hg : tokenState.GetAccessToken w.now w.refresh = (st, trace, .ok (token, none))) :
    Effect.log "debug" none "Sending device callback request to Smartthings URL [%s]: %s"
        [.string st.StateCallbackURL, .body (cmd.callbackRequest w.requestID token deviceInfo)]
      ∈ (cmd.executeDeviceStateCallback tokenState deviceInfo w).1 := by
  unfold cmd.executeDeviceStateCallback
  rw [hg]
  simp only
  repeat' split
  all_goals simp [cmd.newDeviceStateCallback, cmd.callbackRequest,
    models.InteractionTypeStateCallback]

/-- C23 as stated fails. At debug level the refresh exchange logs its request, which
carries the client secret and the refresh token, and the response body as received; the
authorization-code exchange logs its request, which carries the client secret and the
authorization code; and the state callback logs its request, which carries the access
token. -/
theorem debug_log_shows_secrets_counterexample :
    Effect.log "debug" none "Sending refresh token request to Smartthings URL [%s]: %s"
        [ .string "https://st/token",
          .body (.refreshAccessTokenRequest
            { Headers := some
                { Schema := some "st-schema", Version := some "1.0",
                  RequestID := some "r1", InteractionType := "refreshAccessTokens" },
              CallbackAuthentication := some
                { ClientID := some "client", ClientSecret := some "s3cret",
                  GrantType := some "refresh_token", RefreshToken := some "r3fresh" } }) ]
      ∈ (stoauth.State.refreshTokenFlow
          { ClientID := "client", Scope := "scope", TokenURL := "https://st/token",
            StateCallbackURL := "https://st/callback", MinAccessTokenValidity := 60000000000,
            clientSecret := "s3cret", accessToken := "t0ken", accessTokenExpiry := unixEpoch,
            refreshToken := "r3fresh", fileName := "state.json" }
          { requestID := "r1",
            post := fun _ _ =>
              .ok { StatusCode := 200, Status := "200 OK", Body := .ok "response" },
            decode := fun _ => .error .jsonSyntaxError, now := unixEpoch,
            save := none }).2.1 ∧
    Effect.log "debug" none "Refresh Token response: %s" [.string "response"]
      ∈ (stoauth.State.refreshTokenFlow
          { ClientID := "client", Scope := "scope", TokenURL := "https://st/token",
            StateCallbackURL := "https://st/callback", MinAccessTokenValidity := 60000000000,
            clientSecret := "s3cret", accessToken := "t0ken", accessTokenExpiry := unixEpoch,
            refreshToken := "r3fresh", fileName := "state.json" }
          { requestID := "r1",
            post := fun _ _ =>
              .ok { StatusCode := 200, Status := "200 OK", Body := .ok "response" },
            decode := fun _ => .error .jsonSyntaxError, now := unixEpoch,
            save := none }).2.1 ∧
    Effect.log "debug" none "Sending access token request to Smartthings URL [%s]: %s"
        [ .string "https://st/token",
          .body (.accessTokenRequest
            { Headers := some
                { Schema := some "st-schema", Version := some "1.0",
                  RequestID := some "r0", InteractionType := "accessTokenRequest" },
              CallbackAuthentication := some
                { ClientID := some "client", ClientSecret := some "s3cret",
                  Code := some "c0de", GrantType := some "authorization_code" } }) ]
      ∈ (stoauth.State.AuthCodeFlow
          { ClientID := "client", Scope := "scope", TokenURL := "https://st/token",
            StateCallbackURL := "https://st/callback", MinAccessTokenValidity := 60000000000,
            clientSecret := "s3cret", accessToken := "", accessTokenExpiry := 0,
            refreshToken := "", fileName := "" }
          { requestID := "", post := fun _ _ => .error .jsonSyntaxError,
            decode := fun _ => .error .jsonSyntaxError, now := unixEpoch, save := none }
          "r0" "c0de").2.1 ∧
    Effect.log "debug" none "Sending device callback request to Smartthings URL [%s]: %s"
        [ .string "https://st/callback",
          .body (.deviceStateCallback
            { Headers := some
                { Schema := some "st-schema", Version := some "1.0",
                  RequestID := some "r2", InteractionType := "stateCallback" },
              Authentication := some { TokenType := some "Bearer", Token := some "t0ken" },
              DeviceState := [{ ExternalDeviceID := "device-1", States := [] }] }) ]
      ∈ (cmd.executeDeviceStateCallback
          { ClientID := "client", Scope := "scope", TokenURL := "https://st/token",
            StateCallbackURL := "https://st/callback", MinAccessTokenValidity := 60000000000,
            clientSecret := "s3cret", accessToken := "t0ken",
            accessTokenExpiry := unixEpoch + 7200000000000, refreshToken := "r3fresh",
            fileName := "state.json" }
          { ExternalDeviceID := "device-1", States := [] }
          { now := unixEpoch,
            refresh :=
              { requestID := "r1", post := fun _ _ => .error .jsonSyntaxError,
                decode := fun _ => .error .jsonSyntaxError, now := unixEpoch, save := none },
            requestID := "r2",
            post := fun _ _ =>
              .ok { StatusCode := 200, Status := "200 OK", Body := .ok "" } }).1 := by
  refine ⟨by decide, by decide, by decide, by decide⟩

/-- C23, amended. Every log entry of `AuthCodeFlow` and of `refreshTokenFlow` is a debug
entry, and every log entry of `executeDeviceStateCallback` is a debug entry or, on a state
that holds no file name, the fixed warning of `save`; so the log output above the debug
level shows no secret.  At the debug level the secrets are logged in clear: every exchange
run with a client secret logs its request, which carries the client secret and the
authorization code or the refresh token, every exchange that is answered with status 200
logs the response body as received, and every state callback that obtains an access token
logs its request, which carries that token. -/
theorem token_logs_are_debug_entries (s : stoauth.State) (w : stoauth.RefreshWorld)
    (requestID code : String) (deviceInfo : models.DeviceState) (cw : cmd.CallbackWorld) :
    (∀ level err format args,
      Effect.log level err format args ∈ (s.AuthCodeFlow w requestID code).2.1 →
        level = "debug") ∧
    (∀ level err format args,
      Effect.log level err format args ∈ (s.refreshTokenFlow w).2.1 → level = "debug") ∧
    (∀ level err format args,
      Effect.log level err format args ∈ (cmd.executeDeviceStateCallback s deviceInfo cw).1 →
        level = "debug" ∨
          (s.fileName = "" ∧ level = "warning" ∧ err = none ∧
            format = "cannot save oauth state, no file name available" ∧ args = [])) ∧
    (s.clientSecret ≠ "" →
      Effect.log "debug" none "Sending access token request to Smartthings URL [%s]: %s"
          [.string s.TokenURL, .body (stoauth.authCodeRequest s requestID code)]
        ∈ (s.AuthCodeFlow w requestID code).2.1) ∧
    (s.clientSecret ≠ "" →
      Effect.log "debug" none "Sending refresh token request to Smartthings URL [%s]: %s"
          [.string s.TokenURL, .body (stoauth.refreshRequest s w.requestID)]
        ∈ (s.refreshTokenFlow w).2.1) ∧
    (∀ resp bodyBytes, s.clientSecret ≠ "" →
      w.post s.TokenURL (stoauth.authCodeRequest s requestID code) = .ok resp →
      resp.Body = .ok bodyBytes → resp.StatusCode = 200 →
      Effect.log "debug" none "Access Token response: %s" [.string bodyBytes]
        ∈ (s.AuthCodeFlow w requestID code).2.1) ∧
    (∀ resp bodyBytes, s.clientSecret ≠ "" →
      w.post s.TokenURL (stoauth.refreshRequest s w.requestID) = .ok resp →
      resp.Body = .ok bodyBytes → resp.StatusCode = 200 →
      Effect.log "debug" none "Refresh Token response: %s" [.string bodyBytes]
        ∈ (s.refreshTokenFlow w).2.1) ∧
    (∀ st trace token,
      s.GetAccessToken cw.now cw.refresh = (st, trace, .ok (token, none)) →
      Effect.log "debug" none "Sending device callback request to Smartthings URL [%s]: %s"
          [.string st.StateCallbackURL,
            .body (cmd.callbackRequest cw.requestID token deviceInfo)]
        ∈ (cmd.executeDeviceStateCallback s deviceInfo cw).1) := by
  refine ⟨?_, ?_, ?_, ?_, ?_, ?_, ?_, ?_⟩
  · intro level err format args he
    exact AuthCodeFlow_logs s w requestID code _ he
  · intro level err format args he
    exact refreshTokenFlow_logs s w _ he
  · intro level err format args he
    rcases executeDeviceStateCallback_logs s deviceInfo cw _ he with h | ⟨hn, h⟩
    · exact Or.inl h
    · cases h
      exact Or.inr ⟨hn, rfl, rfl, rfl, rfl⟩
  · exact fun h => (AuthCodeFlow_debug_entries s w requestID code h).1
  · exact fun h => (refreshTokenFlow_debug_entries s w h).1
  · exact fun resp b h => (AuthCodeFlow_debug_entries s w requestID code h).2 resp b
  · exact fun resp b h => (refreshTokenFlow_debug_entries s w h).2 resp b
  · exact fun st trace token hg =>
      executeDeviceStateCallback_debug_entry s deviceInfo cw st trace token hg

/-- Witness for C23, amended: a state loaded from the file "state.json" whose access token
has expired.  The refresh exchange logs its request with the client secret and the refresh
token, the state callback logs its request with the new access token, and every log entry
of the callback is a debug entry. -/
theorem token_logs_are_debug_entries_witness :
    Effect.log "debug" none "Sending refresh token request to Smartthings URL [%s]: %s"
        [ .string "https://st/token",
          .body (.refreshAccessTokenRequest
            { Headers := some
                { Schema := some "st-schema", Version := some "1.0",
                  RequestID := some "r1", InteractionType := "refreshAccessTokens" },
              CallbackAuthentication := some
                { ClientID := some "client", ClientSecret := some "s3cret",
                  GrantType := some "refresh_token", RefreshToken := some "r3fresh" } }) ]
      ∈ (stoauth.State.refreshTokenFlow
          { ClientID := "client", Scope := "scope", TokenURL := "https://st/token",
            StateCallbackURL := "https://st/callback", MinAccessTokenValidity := 60000000000,
            clientSecret := "s3cret", accessToken := "t0ken", accessTokenExpiry := unixEpoch,
            refreshToken := "r3fresh", fileName := "state.json" }
          { requestID := "r1",
            post := fun _ _ =>
              .ok { StatusCode := 200, Status := "200 OK", Body := .ok "response" },
            decode := fun _ =>
              .ok { Headers := some
                      { Schema := some "st-schema", Version := some "1.0",
                        RequestID := some "r1", InteractionType := "accessTokenResponse" },
                    CallbackAuthentication := some
                      { AccessToken := some "t0ken-2", RefreshToken := some "r3fresh-2",
                        ExpiresIn := some 86400 } },
            now := unixEpoch, save := none }).2.1 ∧
    Effect.log "debug" none "Sending device callback request to Smartthings URL [%s]: %s"
        [ .string "https://st/callback",
          .body (.deviceStateCallback
            { Headers := some
                { Schema := some "st-schema", Version := some "1.0",
                  RequestID := some "r2", InteractionType := "stateCallback" },
              Authentication := some { TokenType := some "Bearer", Token := some "t0ken-2" },
              DeviceState := [{ ExternalDeviceID := "device-1", States := [] }] }) ]
      ∈ (cmd.executeDeviceStateCallback
          { ClientID := "client", Scope := "scope", TokenURL := "https://st/token",
            StateCallbackURL := "https://st/callback", MinAccessTokenValidity := 60000000000,
            clientSecret := "s3cret", accessToken := "t0ken", accessTokenExpiry := unixEpoch,
            refreshToken := "r3fresh", fileName := "state.json" }
          { ExternalDeviceID := "device-1", States := [] }
          { now := unixEpoch,
            refresh :=
              { requestID := "r1",
                post := fun _ _ =>
                  .ok { StatusCode := 200, Status := "200 OK", Body := .ok "response" },
                decode := fun _ =>
                  .ok { Headers := some
                          { Schema := some "st-schema", Version := some "1.0",
                            RequestID := some "r1",
                            InteractionType := "accessTokenResponse" },
                        CallbackAuthentication := some
                          { AccessToken := some "t0ken-2", RefreshToken := some "r3fresh-2",
                            ExpiresIn := some 86400 } },
                now := unixEpoch, save := none },
            requestID := "r2",
            post := fun _ _ =>
              .ok { StatusCode := 200, Status := "200 OK", Body := .ok "" } }).1 ∧
    (∀ level err format args,
      Effect.log level err format args
        ∈ (cmd.executeDeviceStateCallback
            { ClientID := "client", Scope := "scope", TokenURL := "https://st/token",
              StateCallbackURL := "https://st/callback",
              MinAccessTokenValidity := 60000000000, clientSecret := "s3cret",
              accessToken := "t0ken", accessTokenExpiry := unixEpoch,
              refreshToken := "r3fresh", fileName := "state.json" }
            { ExternalDeviceID := "device-1", States := [] }
            { now := unixEpoch,
              refresh :=
                { requestID := "r1",
                  post := fun _ _ =>
                    .ok { StatusCode := 200, Status := "200 OK", Body := .ok "response" },
                  decode := fun _ =>
                    .ok { Headers := some
                            { Schema := some "st-schema", Version := some "1.0",
                              RequestID := some "r1",
                              InteractionType := "accessTokenResponse" },
                          CallbackAuthentication := some
                            { AccessToken := some "t0ken-2",
                              RefreshToken := some "r3fresh-2",
                              ExpiresIn := some 86400 } },
                  now := unixEpoch, save := none },
              requestID := "r2",
              post := fun _ _ =>
                .ok { StatusCode := 200, Status := "200 OK", Body := .ok "" } }).1 →
        level = "debug") := by
  have T := token_logs_are_debug_entries
    { ClientID := "client", Scope := "scope", TokenURL := "https://st/token",
      StateCallbackURL := "https://st/callback", MinAccessTokenValidity := 60000000000,
      clientSecret := "s3cret", accessToken := "t0ken", accessTokenExpiry := unixEpoch,
      refreshToken := "r3fresh", fileName := "state.json" }
    { requestID := "r1",
      post := fun _ _ =>
        .ok { StatusCode := 200, Status := "200 OK", Body := .ok "response" },
      decode := fun _ =>
        .ok { Headers := some
                { Schema := some "st-schema", Version := some "1.0",
                  RequestID := some "r1", InteractionType := "accessTokenResponse" },
              CallbackAuthentication := some
                { AccessToken := some "t0ken-2", RefreshToken := some "r3fresh-2",
                  ExpiresIn := some 86400 } },
      now := unixEpoch, save := none }
    "r0" "c0de"
    { ExternalDeviceID := "device-1", States := [] }
    { now := unixEpoch,
      refresh :=
        { requestID := "r1",
          post := fun _ _ =>
            .ok { StatusCode := 200, Status := "200 OK", Body := .ok "response" },
          decode := fun _ =>
            .ok { Headers := some
                    { Schema := some "st-schema", Version := some "1.0",
                      RequestID := some "r1", InteractionType := "accessTokenResponse" },
                  CallbackAuthentication := some
                    { AccessToken := some "t0ken-2", RefreshToken := some "r3fresh-2",
                      ExpiresIn := some 86400 } },
          now := unixEpoch, save := none },
      requestID := "r2",
      post := fun _ _ =>
        .ok { StatusCode := 200, Status := "200 OK", Body := .ok "" } }
  refine ⟨T.2.2.2.2.1 (by decide), ?_, ?_⟩
  · exact T.2.2.2.2.2.2.2
      { ClientID := "client", Scope := "scope", TokenURL := "https://st/token",
        StateCallbackURL := "https://st/callback", MinAccessTokenValidity := 60000000000,
        clientSecret := "s3cret", accessToken := "t0ken-2",
        accessTokenExpiry := unixEpoch + 86400000000000,
        refreshToken := "r3fresh-2", fileName := "state.json" }
      _ "t0ken-2" rfl
  · intro level err format args h
    exact (T.2.2.1 level err format args h).resolve_right
      (fun h' => absurd h'.1 (by decide))

/-- The warning of `save` is reached: on a state that holds no file name, a callback that
refreshes the token logs it, with no operand. -/
theorem save_warning_without_file_name :
    Effect.log "warning" none "cannot save oauth state, no file name available" []
      ∈ (cmd.executeDeviceStateCallback
          { ClientID := "client", Scope := "scope", TokenURL := "https://st/token",
            StateCallbackURL := "https://st/callback", MinAccessTokenValidity := 60000000000,
            clientSecret := "s3cret", accessToken := "t0ken",
            accessTokenExpiry := unixEpoch, refreshToken := "r3fresh", fileName := "" }
          { ExternalDeviceID := "device-1", States := [] }
          { now := unixEpoch,
            refresh :=
              { requestID := "r1",
                post := fun _ _ =>
                  .ok { StatusCode := 200, Status := "200 OK", Body := .ok "response" },
                decode := fun _ =>
                  .ok { Headers := some
                          { Schema := some "st-schema", Version := some "1.0",
                            RequestID := some "r1",
                            InteractionType := "accessTokenResponse" },
                        CallbackAuthentication := some
                          { AccessToken := some "t0ken-2", RefreshToken := some "r3fresh-2",
                            ExpiresIn := some 86400 } },
                now := unixEpoch, save := none },
            requestID := "r2",
            post := fun _ _ =>
              .ok { StatusCode := 200, Status := "200 OK", Body := .ok "" } }).1 := by
  decide

/-! ## C24: the global-error response -/

/-- C24. For every request whose headers pointer refers to stored headers `h`, the
global-error response built by `NewGlobalErrorResponse` carries the given error enum and
detail, and its headers are a new value that copies the schema, version and request
identifier of `h` and has interaction type `t`, where `t` is discoveryResponse,
stateRefreshResponse or commandResponse when the type of `h` is discoveryRequest,
stateRefreshRequest or commandRequest, and interactionResult for every other type.  The
headers of the request, like every value stored before the call, are left as they
were. -/
theorem NewGlobalErrorResponse_headers (mem : HeadersStore) (req : models.SmartthingsRequest)
    (errEnum detail : String) (a : Nat) (h : models.Headers)
    (hreq : req.Headers = some a) (hmem : mem[a]? = some h) :
    ∃ t : String,
      handlers.NewGlobalErrorResponse mem req errEnum detail
        = .ok (mem ++ [{ Schema := h.Schema, Version := h.Version, RequestID := h.RequestID,
                         InteractionType := t }],
            { Headers := some mem.length,
              GlobalError := some { ErrorEnum := some errEnum, Detail := detail } }) ∧
      (h.InteractionType = models.InteractionTypeDiscoveryRequest →
        t = models.InteractionTypeDiscoveryResponse) ∧
      (h.InteractionType = models.InteractionTypeStateRefreshRequest →
        t = models.InteractionTypeStateRefreshResponse) ∧
      (h.InteractionType = models.InteractionTypeCommandRequest →
        t = models.InteractionTypeCommandResponse) ∧
      (h.InteractionType ≠ models.InteractionTypeDiscoveryRequest →
        h.InteractionType ≠ models.InteractionTypeStateRefreshRequest →
        h.InteractionType ≠ models.InteractionTypeCommandRequest →
        t = models.InteractionTypeInteractionResult) ∧
      (∀ (q : Nat) (v : models.Headers), mem[q]? = some v →
        (mem ++ [({ Schema := h.Schema, Version := h.Version, RequestID := h.RequestID,
                    InteractionType := t } : models.Headers)])[q]? = some v) ∧
      (mem ++ [({ Schema := h.Schema, Version := h.Version, RequestID := h.RequestID,
                  InteractionType := t } : models.Headers)])[a]? = some h := by
  have hframe : ∀ (x : models.Headers) (q : Nat) (v : models.Headers),
      mem[q]? = some v → (mem ++ [x])[q]? = some v := by
    intro x q v hq
    have hlt : q < mem.length := by
      by_contra hge
      rw [List.getElem?_eq_none (by omega)] at hq
      cases hq
    rw [List.getElem?_append_left hlt]
    exact hq
  refine ⟨handlers.responseTypeFromRequestType h.InteractionType, ?_, ?_, ?_, ?_, ?_,
    fun q v hq => hframe _ q v hq, hframe _ a h hmem⟩
  · simp only [handlers.NewGlobalErrorResponse, handlers.derefHeaders, hreq, hmem]
  · intro h1
    simp [handlers.responseTypeFromRequestType, h1]
  · intro h1
    rw [h1]
    decide
  · intro h1
    rw [h1]
    decide
  · intro h1 h2 h3
    simp [handlers.responseTypeFromRequestType, h1, h2, h3]

theorem NewGlobalErrorResponse_headers_witness :
    handlers.NewGlobalErrorResponse
        [ { Schema := some "st-schema", Version := some "1.0", RequestID := some "req-1",
            InteractionType := "integrationDeleted" } ]
        { Headers := some 0, Authentication := none, Devices := [] }
        "INVALID-INTERACTION-TYPE" "Unimplemented Interaction Type"
      = .ok
        ([ { Schema := some "st-schema", Version := some "1.0", RequestID := some "req-1",
             InteractionType := "integrationDeleted" },
           { Schema := some "st-schema", Version := some "1.0", RequestID := some "req-1",
             InteractionType := "interactionResult" } ],
          { Headers := some 1,
            GlobalError := some
              { ErrorEnum := some "INVALID-INTERACTION-TYPE",
                Detail := "Unimplemented Interaction Type" } }) := by
  obtain ⟨t, hres, _, _, _, hother, _, _⟩ :=
    NewGlobalErrorResponse_headers
      [ { Schema := some "st-schema", Version := some "1.0", RequestID := some "req-1",
          InteractionType := "integrationDeleted" } ]
      { Headers := some 0, Authentication := none, Devices := [] }
      "INVALID-INTERACTION-TYPE" "Unimplemented Interaction Type" 0 _ rfl rfl
  rw [hres, hother (by decide) (by decide) (by decide)]
  rfl

/-! ## C25: classification of device API errors -/

/-- On an error whose dynamic type is `*googleapi.Error`, the classification is per-device
exactly for the code 400 of a call made for a device; an error of another type is
global. -/
theorem googleApiErrorIsGlobal_unwrapped (v : googleapi.Error) (requestWasForDevice : Bool)
    (err : GoError) :
    (handlers.googleApiErrorIsGlobal (.googleapi v) requestWasForDevice = false ↔
      v.Code = 400 ∧ requestWasForDevice = true) ∧
    ((∀ v, err ≠ .googleapi v) →
      handlers.googleApiErrorIsGlobal err requestWasForDevice = true) := by
  constructor
  · unfold handlers.googleApiErrorIsGlobal
    by_cases h1 : v.Code = 401
    · simp [h1]
    · by_cases h2 : v.Code = 400
      · cases requestWasForDevice <;> simp [h2]
      · simp [h1, h2]
  · intro h
    cases err with
    | googleapi v => exact absurd rfl (h v)
    | _ => rfl

/-- The error mapped for a device: RESOURCE-CONSTRAINT-VIOLATION exactly when one of the
reasons of a `*googleapi.Error` is failedPrecondition, DEVICE-UNAVAILABLE otherwise. -/
theorem makeDeviceError_enum (v : googleapi.Error) :
    ((∃ i ∈ v.Errors, i.Reason = "failedPrecondition") →
      handlers.makeDeviceError (.googleapi v)
        = { Detail := v.Message, ErrorEnum := some "RESOURCE-CONSTRAINT-VIOLATION" }) ∧
    ((∀ i ∈ v.Errors, i.Reason ≠ "failedPrecondition") →
      handlers.makeDeviceError (.googleapi v)
        = { Detail := v.Message, ErrorEnum := some "DEVICE-UNAVAILABLE" }) := by
  have hloop : ∀ l : List googleapi.ErrorItem,
      handlers.googleApiErrorIsLoop l "failedPrecondition" = true ↔
        ∃ i ∈ l, i.Reason = "failedPrecondition" := by
    intro l
    induction l with
    | nil => simp [handlers.googleApiErrorIsLoop]
    | cons i rest ih =>
      by_cases hi : i.Reason = "failedPrecondition"
      · simp [handlers.googleApiErrorIsLoop, hi]
      · simp [handlers.googleApiErrorIsLoop, hi, ih]
  constructor
  · intro h
    have := (hloop v.Errors).mpr h
    simp [handlers.makeDeviceError, handlers.googleApiErrorIs, this]
  · intro h
    have : handlers.googleApiErrorIsLoop v.Errors "failedPrecondition" = false := by
      cases hb : handlers.googleApiErrorIsLoop v.Errors "failedPrecondition" with
      | false => rfl
      | true =>
        obtain ⟨i, hi, hr⟩ := (hloop v.Errors).mp hb
        exact absurd hr (h i hi)
    simp [handlers.makeDeviceError, handlers.googleApiErrorIs, this]

/-- Every error that `SendCommand` of the live client returns is classified as global:
the client wraps the error of the API call, and the type switch of
`googleApiErrorIsGlobal` does not look inside a wrapping error. -/
theorem SendCommand_error_is_global (c : Live) (w : SendCommandWorld) (deviceID : String)
    (command : Command) (err : GoError)
    (h : c.SendCommand w deviceID command = some err) :
    handlers.googleApiErrorIsGlobal err true = true := by
  unfold Live.SendCommand at h
  cases hapi : w.api with
  | some e =>
    rw [hapi] at h
    cases h
    rfl
  | none =>
    rw [hapi] at h
    simp only at h
    cases hm : w.marshal command with
    | error e =>
      rw [hm] at h
      cases h
      rfl
    | ok cmdParams =>
      rw [hm] at h
      simp only at h
      cases hx : w.executeCommand (c.longDeviceName deviceID) command.commandName cmdParams with
      | error e =>
        rw [hx] at h
        cases h
        rfl
      | ok r =>
        obtain ⟨status, results⟩ := r
        rw [hx] at h
        simp only at h
        by_cases hs : status ≠ 200
        · rw [if_pos hs] at h
          cases h
          rfl
        · rw [if_neg hs] at h
          cases h

/-- C25 fails for the errors that the live client returns. A command that the provider
rejects with HTTP 400 and the reason failedPrecondition reaches the handler wrapped by
`errors.Wrapf`; `googleApiErrorIsGlobal` classifies the wrapped error as global although
the call was made for a single device (the provider error itself would be per-device), and
`HandleCommandRequest` answers "Down-stream API error" with status 502 in place of a
command response that carries the device error. -/
theorem wrapped_provider_error_is_global :
    Live.SendCommand
        { sdmProjectID := "enterprises/project", accessToken := "token", timeout := 0 }
        { api := none, marshal := fun _ => .ok "params",
          executeCommand := fun _ _ _ =>
            .error (.googleapi
              { Code := 400, Message := "Command not allowed in current thermostat mode.",
                Errors := [{ Reason := "failedPrecondition", Message := "" }] }) }
        "device-1" (NewThermostatModeCommand thermostatModeHeat)
      = some (.wrapf
          (.googleapi
            { Code := 400, Message := "Command not allowed in current thermostat mode.",
              Errors := [{ Reason := "failedPrecondition", Message := "" }] })
          "executing command: %s, params %s"
          [.string "sdm.devices.commands.ThermostatMode.SetMode", .string "params"]) ∧
    handlers.googleApiErrorIsGlobal
        (.wrapf
          (.googleapi
            { Code := 400, Message := "Command not allowed in current thermostat mode.",
              Errors := [{ Reason := "failedPrecondition", Message := "" }] })
          "executing command: %s, params %s"
          [.string "sdm.devices.commands.ThermostatMode.SetMode", .string "params"])
        true = true ∧
    handlers.googleApiErrorIsGlobal
        (.googleapi
          { Code := 400, Message := "Command not allowed in current thermostat mode.",
            Errors := [{ Reason := "failedPrecondition", Message := "" }] })
        true = false ∧
    handlers.NestHandler.HandleCommandRequest
        { sdmClient := fun token =>
            { GetDevice := fun _ => .error .jsonSyntaxError,
              SendCommand :=
                Live.SendCommand
                  { sdmProjectID := "enterprises/project", accessToken := token,
                    timeout := 0 }
                  { api := none, marshal := fun _ => .ok "params",
                    executeCommand := fun _ _ _ =>
                      .error (.googleapi
                        { Code := 400,
                          Message := "Command not allowed in current thermostat mode.",
                          Errors := [{ Reason := "failedPrecondition", Message := "" }] }) } },
          oauthStateFile := "state.json", stClientID := "client", stClientSecret := "secret" }
        [ { Schema := some "st-schema", Version := some "1.0", RequestID := some "req-1",
            InteractionType := "commandRequest" } ]
        { Headers := some 0,
          Authentication := some { TokenType := some "Bearer", Token := some "token" },
          Devices :=
            [ { ExternalDeviceID := some "device-1",
                Commands :=
                  [ { Capability := some "st.thermostatMode",
                      Arguments := [.string "heat"] } ] } ] }
      = .ok
        ([ { Schema := some "st-schema", Version := some "1.0", RequestID := some "req-1",
             InteractionType := "commandRequest" } ],
          .httpError "Down-stream API error" 502) :=
  ⟨rfl, rfl, rfl, rfl⟩

/-! ## C26: parsing the same bytes again -/

/-- One turn of the loop of `Parse`, by what the entry does. -/
theorem parseLoop_cons_entry (timeParse : String → Option Time) (t : Traits)
    (kv : String × Json) (rest : List (String × Json)) :
    Traits.parseLoop timeParse t (kv :: rest) =
      match Traits.entry timeParse kv with
      | .ok none => Traits.parseLoop timeParse t rest
      | .ok (some a) =>
        Traits.parseLoop timeParse { t with traits := mapSet t.traits a.1 a.2 } rest
      | .error err => .error err
      | .panic p => .panic p := by
  obtain ⟨name, v⟩ := kv
  rw [Traits.parseLoop]
  unfold Traits.entry
  rcases parseTraitName name with ⟨_ | _, id⟩
  · rfl
  · simp only
    cases newDecoded id with
    | none => rfl
    | some decoded =>
      simp only
      rcases jsonUnmarshal v decoded with e | (_ | d) <;> rfl

/-- The loop succeeds exactly when no entry fails, and then it has made the assignments of
the entries in their order. -/
theorem parseLoop_ok_iff (timeParse : String → Option Time) (l : List (String × Json))
    (t : Traits) :
    ((∀ kv ∈ l, ∃ o, Traits.entry timeParse kv = .ok o) →
      Traits.parseLoop timeParse t l =
        .ok ⟨(Traits.assignments timeParse l).foldl (fun m a => mapSet m a.1 a.2) t.traits⟩) ∧
    (∀ t', Traits.parseLoop timeParse t l = .ok t' →
      ∀ kv ∈ l, ∃ o, Traits.entry timeParse kv = .ok o) := by
  induction l generalizing t with
  | nil =>
    constructor
    · intro _
      rfl
    · intro t' _ kv hkv
      cases hkv
  | cons kv rest ih =>
    rw [parseLoop_cons_entry]
    constructor
    · intro h
      obtain ⟨o, ho⟩ := h kv (List.mem_cons_self _ _)
      have hrest : ∀ kv' ∈ rest, ∃ o, Traits.entry timeParse kv' = .ok o :=
        fun kv' hkv' => h kv' (List.mem_cons_of_mem _ hkv')
      rw [ho]
      cases o with
      | none =>
        simp only [Traits.assignments, List.filterMap_cons, ho]
        exact (ih t).1 hrest
      | some a =>
        simp only [Traits.assignments, List.filterMap_cons, ho, List.foldl_cons]
        exact (ih _).1 hrest
    · intro t' ht' kv' hkv'
      cases ho : Traits.entry timeParse kv with
      | error e => rw [ho] at ht'; cases ht'
      | panic p => rw [ho] at ht'; cases ht'
      | ok o =>
        rw [ho] at ht'
        rcases List.mem_cons.mp hkv' with rfl | hmem
        · exact ⟨o, ho⟩
        · cases o with
          | none => exact (ih t).2 t' ht' kv' hmem
          | some a => exact (ih _).2 t' ht' kv' hmem

/-- A recognised trait name is the name listed at its identifier. -/
theorem parseTraitNameFrom_true (l : List String) (start : Nat) (name : String) (i : Nat)
    (h : parseTraitNameFrom l start name = (true, i)) :
    start ≤ i ∧ l[i - start]? = some name := by
  induction l generalizing start with
  | nil => simp [parseTraitNameFrom] at h
  | cons val rest ih =>
    rw [parseTraitNameFrom] at h
    by_cases hv : val = name
    · rw [if_pos hv] at h
      simp only [Prod.mk.injEq, true_and] at h
      subst h
      simp [hv]
    · rw [if_neg hv] at h
      obtain ⟨hle, hget⟩ := ih (start + 1) h
      refine ⟨by omega, ?_⟩
      have : i - start = (i - (start + 1)) + 1 := by omega
      rw [this, List.getElem?_cons_succ]
      exact hget

/-- Two names recognised as the same trait are the same name. -/
theorem parseTraitName_injective (a b : String) (i : traitID)
    (ha : parseTraitName a = (true, i)) (hb : parseTraitName b = (true, i)) : a = b := by
  have h1 := (parseTraitNameFrom_true _ _ _ _ ha).2
  have h2 := (parseTraitNameFrom_true _ _ _ _ hb).2
  rw [h1] at h2
  exact Option.some.inj h2

/-- An entry that makes an assignment has a recognised name, and the assignment is to the
identifier of that name. -/
theorem entry_assignment_name (timeParse : String → Option Time) (kv : String × Json)
    (a : traitID × TraitValue) (h : Traits.entry timeParse kv = .ok (some a)) :
    parseTraitName kv.1 = (true, a.1) := by
  unfold Traits.entry at h
  rcases hp : parseTraitName kv.1 with ⟨_ | _, id⟩
  · rw [hp] at h
    cases h
  · rw [hp] at h
    simp only at h
    cases hd : newDecoded id with
    | none => rw [hd] at h; cases h
    | some decoded =>
      rw [hd] at h
      simp only at h
      rcases hj : jsonUnmarshal kv.2 decoded with e | (_ | d)
      · rw [hj] at h; cases h
      · rw [hj] at h; cases h
      · rw [hj] at h
        cases h
        rfl

/-- An assignment of the list is made by one of its entries. -/
theorem mem_assignments (timeParse : String → Option Time) (l : List (String × Json))
    (a : traitID × TraitValue) :
    a ∈ Traits.assignments timeParse l ↔
      ∃ kv ∈ l, Traits.entry timeParse kv = .ok (some a) := by
  unfold Traits.assignments
  rw [List.mem_filterMap]
  constructor
  · rintro ⟨kv, hkv, h⟩
    refine ⟨kv, hkv, ?_⟩
    rcases he : Traits.entry timeParse kv with (_ | a') | e | p
    · rw [he] at h; cases h
    · rw [he] at h
      cases h
      rfl
    · rw [he] at h; cases h
    · rw [he] at h; cases h
  · rintro ⟨kv, hkv, h⟩
    exact ⟨kv, hkv, by rw [h]⟩

/-- Entries with distinct names assign to distinct identifiers. -/
theorem assignments_nodup (timeParse : String → Option Time) (l : List (String × Json))
    (h : (l.map Prod.fst).Nodup) :
    ((Traits.assignments timeParse l).map Prod.fst).Nodup := by
  induction l with
  | nil => simp [Traits.assignments]
  | cons kv rest ih =>
    rw [List.map_cons, List.nodup_cons] at h
    obtain ⟨hnot, hrest⟩ := h
    have ihr := ih hrest
    rcases he : Traits.entry timeParse kv with (_ | a) | e | p
    · simpa [Traits.assignments, he] using ihr
    · have hcons : Traits.assignments timeParse (kv :: rest)
          = a :: Traits.assignments timeParse rest := by
        simp [Traits.assignments, he]
      rw [hcons, List.map_cons, List.nodup_cons]
      refine ⟨?_, ihr⟩
      intro hmem
      obtain ⟨a', ha', hfst⟩ := List.mem_map.mp hmem
      obtain ⟨kv', hkv', he'⟩ := (mem_assignments timeParse rest a').mp ha'
      have h1 := entry_assignment_name timeParse kv a he
      have h2 := entry_assignment_name timeParse kv' a' he'
      rw [hfst] at h2
      have := parseTraitName_injective _ _ _ h1 h2
      exact hnot (List.mem_map.mpr ⟨kv', hkv', this.symm⟩)
    · simpa [Traits.assignments, he] using ihr
    · simpa [Traits.assignments, he] using ihr

/-- Assignments to other keys leave a key as it was. -/
theorem mapGet_foldl_mapSet_of_not_mem {κ ν : Type} [DecidableEq κ] (as : List (κ × ν))
    (m : List (κ × ν)) (k : κ) (h : k ∉ as.map Prod.fst) :
    mapGet (as.foldl (fun m a => mapSet m a.1 a.2) m) k = mapGet m k := by
  induction as generalizing m with
  | nil => rfl
  | cons a rest ih =>
    rw [List.map_cons, List.mem_cons, not_or] at h
    rw [List.foldl_cons, ih _ h.2, mapGet_mapSet, if_neg (fun hk => h.1 hk.symm)]

/-- After assignments to distinct keys, a key that is assigned holds its value. -/
theorem mapGet_foldl_mapSet_of_mem {κ ν : Type} [DecidableEq κ] (as : List (κ × ν))
    (m : List (κ × ν)) (k : κ) (v : ν) (hnodup : (as.map Prod.fst).Nodup)
    (h : (k, v) ∈ as) :
    mapGet (as.foldl (fun m a => mapSet m a.1 a.2) m) k = some v := by
  induction as generalizing m with
  | nil => cases h
  | cons a rest ih =>
    rw [List.map_cons, List.nodup_cons] at hnodup
    rw [List.foldl_cons]
    rcases List.mem_cons.mp h with rfl | hmem
    · rw [mapGet_foldl_mapSet_of_not_mem rest _ _ hnodup.1, mapGet_mapSet, if_pos rfl]
    · exact ih _ hnodup.2 hmem

/-- The keys after a map assignment: the assigned key and the keys before it. -/
theorem mem_mapSet_keys {κ ν : Type} [DecidableEq κ] (m : List (κ × ν)) (k k' : κ) (v : ν) :
    k' ∈ (mapSet m k v).map Prod.fst ↔ k' = k ∨ k' ∈ m.map Prod.fst := by
  induction m with
  | nil => simp [mapSet]
  | cons hd rest ih =>
    obtain ⟨k0, v0⟩ := hd
    by_cases h0 : k0 = k
    · subst h0
      simp [mapSet]
    · simp only [mapSet, if_neg h0, List.map_cons, List.mem_cons, ih]
      tauto

/-- Map assignment keeps the keys distinct. -/
theorem mapSet_keys_nodup {κ ν : Type} [DecidableEq κ] (m : List (κ × ν)) (k : κ) (v : ν)
    (h : (m.map Prod.fst).Nodup) : ((mapSet m k v).map Prod.fst).Nodup := by
  induction m with
  | nil => simp [mapSet]
  | cons hd rest ih =>
    obtain ⟨k0, v0⟩ := hd
    rw [List.map_cons, List.nodup_cons] at h
    by_cases h0 : k0 = k
    · subst h0
      simp only [mapSet, if_true, List.map_cons, List.nodup_cons]
      exact h
    · simp only [mapSet, if_neg h0, List.map_cons, List.nodup_cons]
      refine ⟨?_, ih h.2⟩
      rw [mem_mapSet_keys]
      rintro (hk | hk)
      · exact h0 hk
      · exact h.1 hk

/-- The map that `json.Unmarshal` builds has distinct keys. -/
theorem unmarshalRawMap_nodup (data : Option Json) (alltraits : List (String × Json))
    (h : unmarshalRawMap data = .ok alltraits) : (alltraits.map Prod.fst).Nodup := by
  have hfold : ∀ (kvs : List (String × Json)) (m : List (String × Json)),
      (m.map Prod.fst).Nodup →
        ((kvs.foldl (fun m kv => mapSet m kv.1 kv.2) m).map Prod.fst).Nodup := by
    intro kvs
    induction kvs with
    | nil => exact fun m hm => hm
    | cons kv rest ih => exact fun m hm => ih _ (mapSet_keys_nodup m kv.1 kv.2 hm)
  rcases data with _ | v
  · cases h
  · cases v with
    | null =>
      cases h
      exact List.nodup_nil
    | object kvs =>
      simp only [unmarshalRawMap, Except.ok.injEq] at h
      subst h
      exact hfold kvs [] List.nodup_nil
    | bool b => cases h
    | number q => cases h
    | string s => cases h
    | array xs => cases h

/-- Visiting the entries in another order gives a trait set with the same contents. -/
theorem parseLoop_perm (timeParse : String → Option Time) (t t1 : Traits)
    (l1 l2 : List (String × Json)) (hperm : l1.Perm l2) (hnodup : (l1.map Prod.fst).Nodup)
    (h1 : Traits.parseLoop timeParse t l1 = .ok t1) :
    ∃ t2, Traits.parseLoop timeParse t l2 = .ok t2 ∧ ∀ id, t2.Trait id = t1.Trait id := by
  have hok1 := (parseLoop_ok_iff timeParse l1 t).2 t1 h1
  have hok2 : ∀ kv ∈ l2, ∃ o, Traits.entry timeParse kv = .ok o :=
    fun kv hkv => hok1 kv (hperm.mem_iff.mpr hkv)
  have e1 := (parseLoop_ok_iff timeParse l1 t).1 hok1
  have e2 := (parseLoop_ok_iff timeParse l2 t).1 hok2
  rw [h1] at e1
  cases e1
  refine ⟨_, e2, fun id => ?_⟩
  have hnodup2 : (l2.map Prod.fst).Nodup := (hperm.map Prod.fst).nodup_iff.mp hnodup
  have hn1 := assignments_nodup timeParse l1 hnodup
  have hn2 := assignments_nodup timeParse l2 hnodup2
  have hmem : ∀ a, a ∈ Traits.assignments timeParse l1 ↔ a ∈ Traits.assignments timeParse l2 := by
    intro a
    rw [mem_assignments, mem_assignments]
    constructor
    · rintro ⟨kv, hkv, h⟩
      exact ⟨kv, hperm.mem_iff.mp hkv, h⟩
    · rintro ⟨kv, hkv, h⟩
      exact ⟨kv, hperm.mem_iff.mpr hkv, h⟩
  simp only [Traits.Trait]
  by_cases hid : id ∈ (Traits.assignments timeParse l1).map Prod.fst
  · obtain ⟨a, ha, rfl⟩ := List.mem_map.mp hid
    obtain ⟨id, v⟩ := a
    rw [mapGet_foldl_mapSet_of_mem _ _ id v hn1 ha,
      mapGet_foldl_mapSet_of_mem _ _ id v hn2 ((hmem _).mp ha)]
  · have hid2 : id ∉ (Traits.assignments timeParse l2).map Prod.fst := by
      intro h
      obtain ⟨a, ha, hfst⟩ := List.mem_map.mp h
      exact hid (List.mem_map.mpr ⟨a, (hmem _).mpr ha, hfst⟩)
    rw [mapGet_foldl_mapSet_of_not_mem _ _ _ hid, mapGet_foldl_mapSet_of_not_mem _ _ _ hid2]

/-- Parsing the entries again, in any order, into the set that holds their result leaves
its contents as they are. -/
theorem parseLoop_again (timeParse : String → Option Time) (t t1 : Traits)
    (l1 l2 : List (String × Json)) (hperm : l1.Perm l2) (hnodup : (l1.map Prod.fst).Nodup)
    (h1 : Traits.parseLoop timeParse t l1 = .ok t1) :
    ∃ t2, Traits.parseLoop timeParse t1 l2 = .ok t2 ∧ ∀ id, t2.Trait id = t1.Trait id := by
  have hok1 := (parseLoop_ok_iff timeParse l1 t).2 t1 h1
  have hok2 : ∀ kv ∈ l2, ∃ o, Traits.entry timeParse kv = .ok o :=
    fun kv hkv => hok1 kv (hperm.mem_iff.mpr hkv)
  have e1 := (parseLoop_ok_iff timeParse l1 t).1 hok1
  have e2 := (parseLoop_ok_iff timeParse l2 t1).1 hok2
  rw [h1] at e1
  refine ⟨_, e2, fun id => ?_⟩
  have hnodup2 : (l2.map Prod.fst).Nodup := (hperm.map Prod.fst).nodup_iff.mp hnodup
  have hn1 := assignments_nodup timeParse l1 hnodup
  have hn2 := assignments_nodup timeParse l2 hnodup2
  simp only [Traits.Trait]
  by_cases hid : id ∈ (Traits.assignments timeParse l2).map Prod.fst
  · obtain ⟨a, ha, rfl⟩ := List.mem_map.mp hid
    obtain ⟨id, v⟩ := a
    have ha1 : (id, v) ∈ Traits.assignments timeParse l1 := by
      rw [mem_assignments] at ha ⊢
      obtain ⟨kv, hkv, h⟩ := ha
      exact ⟨kv, hperm.mem_iff.mpr hkv, h⟩
    rw [mapGet_foldl_mapSet_of_mem _ _ id v hn2 ha]
    cases e1
    exact (mapGet_foldl_mapSet_of_mem _ _ id v hn1 ha1).symm
  · rw [mapGet_foldl_mapSet_of_not_mem _ _ _ hid]

/-- C26. `Parse` ranges over the decoded map of trait entries in an order that Go leaves
open, so a parse has the outcomes that the orders of the entries give.  For every byte
string, two parses into fresh trait sets either both fail or both succeed with the same
identifiers mapped to equal values; a second parse into the trait set that holds the
result of the first succeeds and leaves every identifier mapped as it was; and the
outcome computed by `Parse` in the order of the document is one of the outcomes. -/
theorem parse_twice_same_contents (timeParse : String → Option Time) (data : Option Json) :
    (∀ r1 r2, Traits.ParseOutcome timeParse NewTraits data r1 →
      Traits.ParseOutcome timeParse NewTraits data r2 →
      ((∀ t, r1 ≠ .ok t) ∧ (∀ t, r2 ≠ .ok t)) ∨
      ∃ t1 t2, r1 = .ok t1 ∧ r2 = .ok t2 ∧ ∀ id, t1.Trait id = t2.Trait id) ∧
    (∀ t1, Traits.ParseOutcome timeParse NewTraits data (.ok t1) →
      ∀ r, Traits.ParseOutcome timeParse t1 data r →
        ∃ t2, r = .ok t2 ∧ ∀ id, t2.Trait id = t1.Trait id) ∧
    Traits.ParseOutcome timeParse NewTraits data (Traits.Parse timeParse NewTraits data) := by
  cases hm : unmarshalRawMap data with
  | error err =>
    refine ⟨?_, ?_, ?_⟩
    · intro r1 r2 h1 h2
      simp only [Traits.ParseOutcome, hm] at h1 h2
      subst h1 h2
      exact Or.inl ⟨fun t h => (by cases h), fun t h => (by cases h)⟩
    · intro t1 h1
      simp only [Traits.ParseOutcome, hm] at h1
      cases h1
    · simp only [Traits.ParseOutcome, Traits.Parse, hm]
  | ok alltraits =>
    have hnodup := unmarshalRawMap_nodup data alltraits hm
    refine ⟨?_, ?_, ?_⟩
    · intro r1 r2 h1 h2
      simp only [Traits.ParseOutcome, hm] at h1 h2
      obtain ⟨v1, hp1, rfl⟩ := h1
      obtain ⟨v2, hp2, rfl⟩ := h2
      have hn1 : (v1.map Prod.fst).Nodup := (hp1.map Prod.fst).nodup_iff.mpr hnodup
      have hn2 : (v2.map Prod.fst).Nodup := (hp2.map Prod.fst).nodup_iff.mpr hnodup
      cases hr1 : Traits.parseLoop timeParse NewTraits v1 with
      | ok t1 =>
        obtain ⟨t2, ht2, hsame⟩ :=
          parseLoop_perm timeParse NewTraits t1 v1 v2 (hp1.trans hp2.symm) hn1 hr1
        exact Or.inr ⟨t1, t2, rfl, ht2, fun id => (hsame id).symm⟩
      | error e =>
        refine Or.inl ⟨fun t h => (by cases h), fun t h => ?_⟩
        obtain ⟨t1, ht1, _⟩ :=
          parseLoop_perm timeParse NewTraits t v2 v1 (hp2.trans hp1.symm) hn2 h
        rw [hr1] at ht1
        cases ht1
      | panic p =>
        refine Or.inl ⟨fun t h => (by cases h), fun t h => ?_⟩
        obtain ⟨t1, ht1, _⟩ :=
          parseLoop_perm timeParse NewTraits t v2 v1 (hp2.trans hp1.symm) hn2 h
        rw [hr1] at ht1
        cases ht1
    · intro t1 h1 r h2
      simp only [Traits.ParseOutcome, hm] at h1 h2
      obtain ⟨v1, hp1, hr1⟩ := h1
      obtain ⟨v2, hp2, rfl⟩ := h2
      have hn1 : (v1.map Prod.fst).Nodup := (hp1.map Prod.fst).nodup_iff.mpr hnodup
      exact parseLoop_again timeParse NewTraits t1 v1 v2 (hp1.trans hp2.symm) hn1 hr1.symm
    · simp only [Traits.ParseOutcome, Traits.Parse, hm]
      exact ⟨alltraits, List.Perm.refl _, rfl⟩

theorem parse_twice_same_contents_witness :
    ∃ t1 t2,
      Traits.parseLoop (fun _ => none) NewTraits
          [ ("sdm.devices.traits.Connectivity", .object [("status", .string "ONLINE")]),
            ("sdm.devices.traits.ThermostatMode", .object [("mode", .string "HEAT")]) ]
        = .ok t1 ∧
      Traits.parseLoop (fun _ => none) NewTraits
          [ ("sdm.devices.traits.ThermostatMode", .object [("mode", .string "HEAT")]),
            ("sdm.devices.traits.Connectivity", .object [("status", .string "ONLINE")]) ]
        = .ok t2 ∧
      ∀ id, t1.Trait id = t2.Trait id := by
  have hm : unmarshalRawMap
      (some (.object
        [ ("sdm.devices.traits.Connectivity", .object [("status", .string "ONLINE")]),
          ("sdm.devices.traits.ThermostatMode", .object [("mode", .string "HEAT")]) ]))
      = .ok
        [ ("sdm.devices.traits.Connectivity", .object [("status", .string "ONLINE")]),
          ("sdm.devices.traits.ThermostatMode", .object [("mode", .string "HEAT")]) ] := by
    simp [unmarshalRawMap, mapSet]
  have h := (parse_twice_same_contents (fun _ => none)
      (some (.object
        [ ("sdm.devices.traits.Connectivity", .object [("status", .string "ONLINE")]),
          ("sdm.devices.traits.ThermostatMode", .object [("mode", .string "HEAT")]) ]))).1
    (Traits.parseLoop (fun _ => none) NewTraits
      [ ("sdm.devices.traits.Connectivity", .object [("status", .string "ONLINE")]),
        ("sdm.devices.traits.ThermostatMode", .object [("mode", .string "HEAT")]) ])
    (Traits.parseLoop (fun _ => none) NewTraits
      [ ("sdm.devices.traits.ThermostatMode", .object [("mode", .string "HEAT")]),
        ("sdm.devices.traits.Connectivity", .object [("status", .string "ONLINE")]) ])
    (by
      simp only [Traits.ParseOutcome, hm]
      exact ⟨_, List.Perm.refl _, rfl⟩)
    (by
      simp only [Traits.ParseOutcome, hm]
      exact ⟨_, List.Perm.swap _ _ _, rfl⟩)
  rcases h with ⟨h1, _⟩ | h
  · exact absurd rfl (h1 _)
  · exact h

/-! ## C27: a refresh is lost with the copy of the state -/

/-- With a client secret, the refresh exchange posts a request that carries the refresh
token of the state it is called on. -/
theorem refreshTokenFlow_posts_request (s : stoauth.State) (w : stoauth.RefreshWorld)
    (hsecret : s.clientSecret ≠ "") :
    Effect.httpPost s.TokenURL "application/json"
      (.refreshAccessTokenRequest
        { Headers := some
            { Schema := some "st-schema", Version := some "1.0",
              RequestID := some w.requestID,
              InteractionType := models.InteractionTypeRefreshAccessTokens },
          CallbackAuthentication := some
            { ClientID := some s.ClientID, ClientSecret := some s.clientSecret,
              GrantType := some "refresh_token", RefreshToken := some s.refreshToken } })
      ∈ (s.refreshTokenFlow w).2.1 := by
  unfold stoauth.State.refreshTokenFlow
  rw [if_neg hsecret]
  simp only
  repeat' split
  all_goals simp [stoauth.newRefreshTokenRequest]

/-- The effects of `GetAccessToken` on a state whose token is not usable and that holds a
refresh token begin with those of the refresh exchange. -/
theorem GetAccessToken_trace_refresh (s : stoauth.State) (now : Time)
    (w : stoauth.RefreshWorld)
    (hstale : s.accessTokenExpiry.After (now.Add s.MinAccessTokenValidity) = false)
    (href : s.refreshToken ≠ "") :
    ∀ e ∈ (s.refreshTokenFlow w).2.1, e ∈ (s.GetAccessToken now w).2.1 := by
  have hnot : ¬ (s.accessToken ≠ "" ∧ s.accessTokenExpiry ≠ 0 ∧
      s.accessTokenExpiry.After (now.Add s.MinAccessTokenValidity) = true) := by
    rintro ⟨_, _, h⟩
    rw [hstale] at h
    cases h
  unfold stoauth.State.GetAccessToken
  rw [if_neg hnot, if_neg href]
  rcases hflow : s.refreshTokenFlow w with ⟨s', trace, r⟩
  intro e he
  simp only at he
  rcases r with p | (_ | err)
  · exact he
  · exact List.mem_append_left _ he
  · exact he

/-- The effects of the state callback contain those of `GetAccessToken`. -/
theorem executeDeviceStateCallback_trace (tokenState : stoauth.State)
    (deviceInfo : models.DeviceState) (w : cmd.CallbackWorld) :
    ∀ e ∈ (tokenState.GetAccessToken w.now w.refresh).2.1,
      e ∈ (cmd.executeDeviceStateCallback tokenState deviceInfo w).1 := by
  rcases hg : tokenState.GetAccessToken w.now w.refresh with ⟨s', trace, r⟩
  unfold cmd.executeDeviceStateCallback
  rw [hg]
  intro e he
  simp only at he
  rcases r with p | ⟨token, _ | err⟩
  · exact he
  · simp only
    repeat' split
    all_goals exact List.mem_append_left _ he
  · exact he

/-- The effects of publishing an event whose traits translate contain those of its state
callback. -/
theorem publishEvent_trace (ticket : Int) (tokenState : stoauth.State)
    (event : pubsubapi.SdmEvent) (w : cmd.PublishWorld)
    (states : List DeviceStateStatesItems0) (hstates : cmd.makeDeviceStates event = .ok states) :
    ∀ e ∈ (cmd.executeDeviceStateCallback tokenState
        { ExternalDeviceID := event.DeviceID, States := states } w.callback).1,
      e ∈ (cmd.publishEvent ticket tokenState event w).1 := by
  rcases hexec : cmd.executeDeviceStateCallback tokenState
      { ExternalDeviceID := event.DeviceID, States := states } w.callback with ⟨tr, r⟩
  unfold cmd.publishEvent
  simp only [hstates, hexec]
  intro e he
  rcases r with p | (_ | err)
  · simp [he]
  · cases w.ack [event.AckID] <;> simp [he]
  · simp [he]

/-- The loop over a concatenation: the events of the second part are published from the
same state as those of the first. -/
theorem publishLoopEvents_append (tokenState : stoauth.State)
    (pre post : List (Int × pubsubapi.SdmEvent × cmd.PublishWorld)) (tr : List Effect)
    (hpre : cmd.publishLoopEvents tokenState pre = (tr, .ok ())) :
    cmd.publishLoopEvents tokenState (pre ++ post) =
      (tr ++ (cmd.publishLoopEvents tokenState post).1,
        (cmd.publishLoopEvents tokenState post).2) := by
  induction pre generalizing tr with
  | nil =>
    simp only [cmd.publishLoopEvents, Prod.mk.injEq] at hpre
    obtain ⟨rfl, _⟩ := hpre
    simp
  | cons x rest ih =>
    obtain ⟨ticket, event, w⟩ := x
    rw [List.cons_append, cmd.publishLoopEvents]
    rw [cmd.publishLoopEvents] at hpre
    rcases hp : cmd.publishEvent ticket tokenState event w with ⟨t1, r1⟩
    rw [hp] at hpre
    rcases r1 with p | u
    · simp at hpre
    · cases u
      simp only at hpre ⊢
      rcases hr : cmd.publishLoopEvents tokenState rest with ⟨t2, r2⟩
      rw [hr] at hpre
      simp only [Prod.mk.injEq] at hpre
      obtain ⟨rfl, rfl⟩ := hpre
      rw [ih t2 hr]
      simp [List.append_assoc]

/-- C27. In the publishing loop the OAuth state is passed by value to every call, so that
what a refresh stores is lost when the call returns: an event is published from the state
that `publishLoop` was given, whatever the events before it did.  When the events before it
were published without an abort, the effects of the event are those of `publishEvent` on
the original state; and when the access token of that state is within the minimum
validity margin at the clock of the event, with a refresh token and a client secret held,
they contain a refresh request to the token URL that carries the originally loaded
refresh token. -/
theorem refresh_lost_between_events (tokenState : stoauth.State)
    (pre post : List (Int × pubsubapi.SdmEvent × cmd.PublishWorld)) (tr : List Effect)
    (ticket : Int) (event : pubsubapi.SdmEvent) (w : cmd.PublishWorld)
    (hpre : cmd.publishLoopEvents tokenState pre = (tr, .ok ())) :
    (∃ rest, (cmd.publishLoopEvents tokenState (pre ++ (ticket, event, w) :: post)).1
      = tr ++ (cmd.publishEvent ticket tokenState event w).1 ++ rest) ∧
    (event.Traits.WellTyped →
      tokenState.accessTokenExpiry.After
        (w.callback.now.Add tokenState.MinAccessTokenValidity) = false →
      tokenState.refreshToken ≠ "" → tokenState.clientSecret ≠ "" →
      Effect.httpPost tokenState.TokenURL "application/json"
        (.refreshAccessTokenRequest
          { Headers := some
              { Schema := some "st-schema", Version := some "1.0",
                RequestID := some w.callback.refresh.requestID,
                InteractionType := models.InteractionTypeRefreshAccessTokens },
            CallbackAuthentication := some
              { ClientID := some tokenState.ClientID,
                ClientSecret := some tokenState.clientSecret,
                GrantType := some "refresh_token",
                RefreshToken := some tokenState.refreshToken } })
        ∈ (cmd.publishLoopEvents tokenState (pre ++ (ticket, event, w) :: post)).1) := by
  have hsplit : ∃ rest,
      (cmd.publishLoopEvents tokenState (pre ++ (ticket, event, w) :: post)).1
        = tr ++ (cmd.publishEvent ticket tokenState event w).1 ++ rest := by
    rw [publishLoopEvents_append tokenState pre _ tr hpre, cmd.publishLoopEvents]
    rcases hp : cmd.publishEvent ticket tokenState event w with ⟨t1, r1⟩
    rcases r1 with p | u
    · exact ⟨[], by simp⟩
    · cases u
      rcases hr : cmd.publishLoopEvents tokenState post with ⟨t2, r2⟩
      exact ⟨t2, by simp [List.append_assoc]⟩
  refine ⟨hsplit, ?_⟩
  intro hwt hstale href hsecret
  obtain ⟨rest, hrest⟩ := hsplit
  rw [hrest]
  obtain ⟨states, hstates⟩ : ∃ states, cmd.makeDeviceStates event = .ok states := by
    simp only [cmd.makeDeviceStates, makeDeviceStatesLoop_ok event hwt]
    exact ⟨_, rfl⟩
  refine List.mem_append_left _ (List.mem_append_right _ ?_)
  exact publishEvent_trace ticket tokenState event w states hstates _
    (executeDeviceStateCallback_trace tokenState _ w.callback _
      (GetAccessToken_trace_refresh tokenState w.callback.now w.callback.refresh hstale href _
        (refreshTokenFlow_posts_request tokenState w.callback.refresh hsecret)))

theorem refresh_lost_between_events_witness :
    (stoauth.State.GetAccessToken
        { ClientID := "client", Scope := "scope", TokenURL := "https://st/token",
          StateCallbackURL := "https://st/callback", MinAccessTokenValidity := 60000000000,
          clientSecret := "secret", accessToken := "token-0", accessTokenExpiry := unixEpoch,
          refreshToken := "refresh-0", fileName := "state.json" }
        (unixEpoch + 100)
        { requestID := "r-1",
          post := fun _ _ =>
            .ok { StatusCode := 200, Status := "200 OK", Body := .ok "response" },
          decode := fun _ =>
            .ok { Headers := some
                    { Schema := some "st-schema", Version := some "1.0",
                      RequestID := some "r-1", InteractionType := "accessTokenResponse" },
                  CallbackAuthentication := some
                    { AccessToken := some "token-1", RefreshToken := some "refresh-1",
                      ExpiresIn := some 86400 } },
          now := unixEpoch + 100, save := none }).1.refreshToken = "refresh-1" ∧
    Effect.httpPost "https://st/token" "application/json"
        (.refreshAccessTokenRequest
          { Headers := some
              { Schema := some "st-schema", Version := some "1.0",
                RequestID := some "r-2", InteractionType := "refreshAccessTokens" },
            CallbackAuthentication := some
              { ClientID := some "client", ClientSecret := some "secret",
                GrantType := some "refresh_token", RefreshToken := some "refresh-0" } })
      ∈ (cmd.publishLoopEvents
          { ClientID := "client", Scope := "scope", TokenURL := "https://st/token",
            StateCallbackURL := "https://st/callback", MinAccessTokenValidity := 60000000000,
            clientSecret := "secret", accessToken := "token-0",
            accessTokenExpiry := unixEpoch, refreshToken := "refresh-0",
            fileName := "state.json" }
          ([ (1, { AckID := "ack-1", DeviceID := "device-1", Timestamp := unixEpoch,
                   Traits := NewTraits },
               { callback :=
                   { now := unixEpoch + 100,
                     refresh :=
                       { requestID := "r-1",
                         post := fun _ _ =>
                           .ok { StatusCode := 200, Status := "200 OK",
                                 Body := .ok "response" },
                         decode := fun _ =>
                           .ok { Headers := some
                                   { Schema := some "st-schema", Version := some "1.0",
                                     RequestID := some "r-1",
                                     InteractionType := "accessTokenResponse" },
                                 CallbackAuthentication := some
                                   { AccessToken := some "token-1",
                                     RefreshToken := some "refresh-1",
                                     ExpiresIn := some 86400 } },
                         now := unixEpoch + 100, save := none },
                     requestID := "c-1",
                     post := fun _ _ =>
                       .ok { StatusCode := 200, Status := "200 OK", Body := .ok "" } },
                 ack := fun _ => none }) ] ++
            (2, { AckID := "ack-2", DeviceID := "device-1", Timestamp := unixEpoch + 50,
                  Traits := NewTraits },
              { callback :=
                  { now := unixEpoch + 200,
                    refresh :=
                      { requestID := "r-2",
                        post := fun _ _ =>
                          .ok { StatusCode := 200, Status := "200 OK",
                                Body := .ok "response" },
                        decode := fun _ =>
                          .ok { Headers := some
                                  { Schema := some "st-schema", Version := some "1.0",
                                    RequestID := some "r-2",
                                    InteractionType := "accessTokenResponse" },
                                CallbackAuthentication := some
                                  { AccessToken := some "token-2",
                                    RefreshToken := some "refresh-2",
                                    ExpiresIn := some 86400 } },
                        now := unixEpoch + 200, save := none },
                    requestID := "c-2",
                    post := fun _ _ =>
                      .ok { StatusCode := 200, Status := "200 OK", Body := .ok "" } },
                ack := fun _ => none }) :: [])).1 :=
  ⟨rfl,
    (refresh_lost_between_events _ _ [] _ 2 _ _ rfl).2 wellTyped_NewTraits (by decide)
      (by decide) (by decide)⟩

/-! ## C28: the device states of a command response -/

/-- C28 fails in both directions. A device whose single command has an unsupported
capability appears twice in the `deviceState` list of the command response: the pointer to
its entry is appended in the command loop and again at the end of the device loop.  A
device whose commands are sent and whose follow-up `GetDevice` call fails does not appear
at all: the device loop continues before the entry is appended. -/
theorem command_response_entries_miscounted :
    handlers.NestHandler.HandleCommandRequest
        { sdmClient := fun _ =>
            { GetDevice := fun _ => .error .jsonSyntaxError,
              SendCommand := fun _ _ => none },
          oauthStateFile := "state.json", stClientID := "client", stClientSecret := "secret" }
        [ { Schema := some "st-schema", Version := some "1.0", RequestID := some "req-1",
            InteractionType := "commandRequest" } ]
        { Headers := some 0,
          Authentication := some { TokenType := some "Bearer", Token := some "token" },
          Devices :=
            [ { ExternalDeviceID := some "device-1",
                Commands :=
                  [ { Capability := some "st.switch", Arguments := [.string "on"] } ] } ] }
      = .ok
        ([ { Schema := some "st-schema", Version := some "1.0", RequestID := some "req-1",
             InteractionType := "commandRequest" },
           { Schema := some "st-schema", Version := some "1.0", RequestID := some "req-1",
             InteractionType := "commandResponse" } ],
          .commandResponse
            { Headers := some 1,
              DeviceState :=
                [ { ExternalDeviceID := "device-1", States := [],
                    DeviceError :=
                      [ { Detail := "unsupported command",
                          ErrorEnum := some "CAPABILITY-NOT-SUPPORTED" } ] },
                  { ExternalDeviceID := "device-1", States := [],
                    DeviceError :=
                      [ { Detail := "unsupported command",
                          ErrorEnum := some "CAPABILITY-NOT-SUPPORTED" } ] } ] }) ∧
    handlers.NestHandler.HandleCommandRequest
        { sdmClient := fun _ =>
            { GetDevice := fun _ => .error .jsonSyntaxError,
              SendCommand := fun _ _ => none },
          oauthStateFile := "state.json", stClientID := "client", stClientSecret := "secret" }
        [ { Schema := some "st-schema", Version := some "1.0", RequestID := some "req-1",
            InteractionType := "commandRequest" } ]
        { Headers := some 0,
          Authentication := some { TokenType := some "Bearer", Token := some "token" },
          Devices :=
            [ { ExternalDeviceID := some "device-1",
                Commands :=
                  [ { Capability := some "st.thermostatMode",
                      Arguments := [.string "heat"] } ] } ] }
      = .ok
        ([ { Schema := some "st-schema", Version := some "1.0", RequestID := some "req-1",
             InteractionType := "commandRequest" },
           { Schema := some "st-schema", Version := some "1.0", RequestID := some "req-1",
             InteractionType := "commandResponse" } ],
          .commandResponse { Headers := some 1, DeviceState := [] }) :=
  ⟨rfl, rfl⟩

/-! ## C29: unknown thermostat mode strings -/

/-- C29. For every string argument other than "off", "heat", "cool", "auto" and "eco",
whatever the command and component members, `StCommandToSdmCommands` on
`st.thermostatMode` returns no error and exactly two commands, `ThermostatEco.SetMode`
with mode OFF followed by `ThermostatMode.SetMode` with mode OFF, which is its result for
"off". -/
theorem thermostatMode_unknown_string_is_off (cmd comp : Option String) (s : String)
    (hoff : s ≠ "off") (hheat : s ≠ "heat") (hcool : s ≠ "cool") (hauto : s ≠ "auto")
    (heco : s ≠ "eco") :
    StCommandToSdmCommands
        { Capability := some "st.thermostatMode", Arguments := [.string s],
          Command := cmd, Component := comp }
      = .ok [ .thermostatEco
          { command := { command := "sdm.devices.commands.ThermostatEco.SetMode" },
            Mode := "OFF" },
        .thermostatMode
          { command := { command := "sdm.devices.commands.ThermostatMode.SetMode" },
            Mode := "OFF" } ] ∧
    StCommandToSdmCommands
        { Capability := some "st.thermostatMode", Arguments := [.string s],
          Command := cmd, Component := comp }
      = StCommandToSdmCommands
        { Capability := some "st.thermostatMode", Arguments := [.string "off"],
          Command := cmd, Component := comp } := by
  have h : StCommandToSdmCommands
        { Capability := some "st.thermostatMode", Arguments := [.string s],
          Command := cmd, Component := comp }
      = .ok [ .thermostatEco
          { command := { command := "sdm.devices.commands.ThermostatEco.SetMode" },
            Mode := "OFF" },
        .thermostatMode
          { command := { command := "sdm.devices.commands.ThermostatMode.SetMode" },
            Mode := "OFF" } ] := by
    simp [StCommandToSdmCommands, stCommandParamsReader.Unmarshal,
      stCommandThermostatModeSetMode.Unmarshal, hoff, hheat, hcool, hauto, heco]
    rfl
  exact ⟨h, h.trans rfl⟩

theorem thermostatMode_unknown_string_is_off_witness :
    StCommandToSdmCommands
        { Capability := some "st.thermostatMode", Arguments := [.string "ECO"],
          Command := some "setThermostatMode", Component := some "main" }
      = .ok [ .thermostatEco
          { command := { command := "sdm.devices.commands.ThermostatEco.SetMode" },
            Mode := "OFF" },
        .thermostatMode
          { command := { command := "sdm.devices.commands.ThermostatMode.SetMode" },
            Mode := "OFF" } ] ∧
    StCommandToSdmCommands
        { Capability := some "st.thermostatMode", Arguments := [.string ""],
          Command := some "setThermostatMode", Component := some "main" }
      = StCommandToSdmCommands
        { Capability := some "st.thermostatMode", Arguments := [.string "off"],
          Command := some "setThermostatMode", Component := some "main" } :=
  ⟨(thermostatMode_unknown_string_is_off _ _ "ECO" (by decide) (by decide) (by decide)
      (by decide) (by decide)).1,
    (thermostatMode_unknown_string_is_off _ _ "" (by decide) (by decide) (by decide)
      (by decide) (by decide)).2⟩

/-! ## C30: eco is enabled unless the mode is OFF -/

/-- A payload without a `mode` member carries the empty mode string. -/
theorem ecoPayloadMode_no_member (kvs : List (String × Json))
    (h : ∀ kv ∈ kvs, equalFold kv.1 "mode" = false) : ecoPayloadMode kvs = "" := by
  unfold ecoPayloadMode
  generalize "" = cur
  induction kvs generalizing cur with
  | nil => rfl
  | cons hd rest ih =>
    simp only [List.foldl_cons, h hd (List.mem_cons_self _ _), Bool.false_eq_true, if_false]
    exact ih (fun kv hkv => h kv (List.mem_cons_of_mem _ hkv)) cur

/-- C30. For every ThermostatEco payload that decodes, `Parse` stores a ThermostatEco
trait whose `Enabled` is false if and only if the mode string of the payload is exactly
"OFF".  A payload with no `mode` member is therefore parsed as eco enabled, and with the
parsed set the ThermostatMode translation reports "eco" whatever mode the thermostat is
in, and the setpoint translation reports the eco setpoints in place of those of the
ThermostatTemperatureSetpoint trait. -/
theorem thermostatEco_enabled_unless_off (timeParse : String → Option Time)
    (kvs : List (String × Json)) (r : traitsReader)
    (hdec : decodeObject kvs
      (.deviceThermostatEco
        { AvailableModes := [], Mode := "", HeatCelsius := 0, CoolCelsius := 0 }) = .ok r) :
    ∃ eco : DeviceThermostatEco,
      Traits.Parse timeParse NewTraits
          (some (.object [("sdm.devices.traits.ThermostatEco", .object kvs)]))
        = .ok ⟨[(sdmDevicesTraitsThermostatEco, .thermostatEco eco)]⟩ ∧
      (eco.Enabled = false ↔ ecoPayloadMode kvs = "OFF") ∧
      ((∀ kv ∈ kvs, equalFold kv.1 "mode" = false) → eco.Enabled = true) ∧
      (eco.Enabled = true → ∀ t : DeviceThermostatMode,
        t.ToSmartthingsState ⟨[(sdmDevicesTraitsThermostatEco, .thermostatEco eco)]⟩
          = .ok
            [ { Component := "main", Capability := "st.thermostatMode",
                Attribute := "thermostatMode", Value := .string "eco" },
              { Component := "main", Capability := "st.thermostatMode",
                Attribute := "supportedThermostatModes",
                Value := .strings ["off", "heat", "cool", "auto", "eco"] } ]) ∧
      (eco.Enabled = true → ∀ t : DeviceThermostatTemperatureSetpoint,
        t.ToSmartthingsState ⟨[(sdmDevicesTraitsThermostatEco, .thermostatEco eco)]⟩
          = DeviceThermostatTemperatureSetpoint.ToSmartthingsState
              { HeatCelsius := eco.HeatCelsius, CoolCelsius := eco.CoolCelsius }
              NewTraits) := by
  obtain ⟨w, rfl, hmode⟩ := decodeObject_eco_mode kvs _ r hdec
  have hmode' : w.Mode = ecoPayloadMode kvs := hmode
  refine ⟨⟨decide (w.Mode ≠ "OFF"), roundTenth w.HeatCelsius, roundTenth w.CoolCelsius⟩,
    ?_, ?_, ?_, ?_, ?_⟩
  · simp only [Traits.Parse, unmarshalRawMap, List.foldl, mapSet]
    simp only [Traits.parseLoop, parseTraitName_ThermostatEco]
    simp only [newDecoded]
    simp only [jsonUnmarshal, hdec, Except.map]
    simp only [traitsReader.Unmarshal, deviceThermostatEco.Unmarshal, NewTraits, mapSet]
    by_cases hm : w.Mode = "OFF" <;> simp [hm]
  · rw [← hmode']
    simp
  · intro hno
    have := ecoPayloadMode_no_member kvs hno
    rw [← hmode'] at this
    simp [this]
  · intro hen t
    obtain ⟨m⟩ := t
    simp only at hen
    cases m <;>
      simp [DeviceThermostatMode.ToSmartthingsState, Traits.Trait, mapGet, hen]
  · intro hen t
    simp only at hen
    simp [DeviceThermostatTemperatureSetpoint.ToSmartthingsState, Traits.Trait, mapGet, hen,
      NewTraits]

theorem thermostatEco_enabled_unless_off_witness :
    ∃ eco : DeviceThermostatEco,
      Traits.Parse (fun _ => none) NewTraits
          (some (.object [("sdm.devices.traits.ThermostatEco",
            .object [("heatCelsius", .number 18)])]))
        = .ok ⟨[(sdmDevicesTraitsThermostatEco, .thermostatEco eco)]⟩ ∧
      eco.Enabled = true ∧
      (DeviceThermostatMode.mk thermostatModeHeat).ToSmartthingsState
          ⟨[(sdmDevicesTraitsThermostatEco, .thermostatEco eco)]⟩
        = .ok
          [ { Component := "main", Capability := "st.thermostatMode",
              Attribute := "thermostatMode", Value := .string "eco" },
            { Component := "main", Capability := "st.thermostatMode",
              Attribute := "supportedThermostatModes",
              Value := .strings ["off", "heat", "cool", "auto", "eco"] } ] := by
  have h18 : storeFloat32 18 = .ok (float32 18) :=
    storeFloat32_of_parse (ParseFloat32_of_le (by decide!))
  have hdec : decodeObject [("heatCelsius", .number 18)]
      (.deviceThermostatEco
        { AvailableModes := [], Mode := "", HeatCelsius := 0, CoolCelsius := 0 })
      = .ok (.deviceThermostatEco
        { AvailableModes := [], Mode := "", HeatCelsius := float32 18, CoolCelsius := 0 }) := by
    simp only [decodeObject, traitsReader.setField, equalFold_heatCelsius,
      decodeFloat32_number, h18, Except.map, if_true, if_false, Bool.false_eq_true]
  have hno : ∀ kv ∈ [(("heatCelsius", Json.number 18) : String × Json)],
      equalFold kv.1 "mode" = false := fun kv hkv => by
    rw [List.mem_singleton.mp hkv]
    exact equalFold_heatCelsius.2.1
  obtain ⟨eco, hparse, _, hen, hover, _⟩ :=
    thermostatEco_enabled_unless_off (fun _ => none) [("heatCelsius", .number 18)] _ hdec
  exact ⟨eco, hparse, hen hno, hover (hen hno) _⟩

end Sdmapi
